import Mathlib

/-!
Rice: the STL bindings of `include/rice/stl.hpp` and the type binding of
`rice/Data_Type.ipp`.

A shallow embedding of

* `VectorHelper::normalizeIndex` and the `[]`, `[]=`, `insert`, `delete_at`
  methods bound on `std::vector<T>`;
* the `[]` and `[]=` methods bound on `std::map` and `std::unordered_map`;
* `To_Ruby` / `From_Ruby` for `std::monostate`, `std::variant<Types...>`,
  `std::string`, `std::optional<T>`, `std::vector<T>`, `std::map<T, U>` and
  `std::unordered_map<T, U>`;
* `Data_Type<T>` (`bind`, `unbind`, the handles and the bound checks),
  `define_class`, the `define_*` functions of the containers and the
  `Type<...>::verify` functions of the composite types;
* the methods `copy`, `first`, `last`, `pop`, `delete`, `include?`, `index`,
  `each` and `to_s` bound on `std::vector<T>`, and `copy`, `value?`, `each`,
  `delete`, `include?`, `keys` and `values` of the maps;
* `WrapperSmartPointer` and the converters of `std::unique_ptr<T>` and
  `std::shared_ptr<T>`;
* the classes `MyClass` and `Factory` and the test cases of
  `test/test_Ownership.cpp`.

Machine integers are unbounded `Nat` / `Int` with explicit reduction modulo
`2 ^ 64`.  C++ undefined behaviour (remainder by zero, signed overflow,
dereferencing an iterator that is not dereferenceable) is an explicit outcome.
The functions of the host runtime are parameters of the embedding.
-/

namespace Rice

/-! ## Exceptions and outcomes -/

/-- The C++ exceptions thrown by the embedded code. -/
inductive Exception where
  | out_of_range (msg : String)
  | runtime_error (msg : String)
  | bad_variant_access
  | rb_eTypeError (msg : String)
  | rb_eArgError (msg : String)
  deriving DecidableEq, Repr

/-- Outcome of a helper that has no container state: a returned value, a
thrown exception, or undefined behaviour. -/
inductive Outcome (α : Type) where
  | value (a : α)
  | raised (e : Exception)
  | undefined
  deriving DecidableEq, Repr

/-- Outcome of a bound method on a container of state type `σ`: the returned
value with the container afterwards, a thrown exception with the container at
the time of the throw, or undefined behaviour. -/
inductive Result (ρ σ : Type) where
  | ok (r : ρ) (s : σ)
  | raised (e : Exception) (s : σ)
  | undefined
  deriving DecidableEq, Repr

/-! ## Machine integers -/

/-- Conversion of an integer to `Size_T` (`std::size_t`, 64 bits, unsigned). -/
def toSize_T (x : Int) : Nat := (x % 2 ^ 64).toNat

/-- Conversion of an integer to `Difference_T` (`std::ptrdiff_t`, 64 bits,
two's complement). -/
def toDifference_T (x : Int) : Int := (x + 2 ^ 63) % 2 ^ 64 - 2 ^ 63

/-- The largest size a `std::vector` can have: `max_size()` never exceeds
`PTRDIFF_MAX`. -/
def vector_max_size : Nat := 2 ^ 63 - 1

/-! ## `VectorHelper` -/

namespace VectorHelper

/-- The helper `VectorHelper::normalizeIndex(Size_T size, Difference_T index, bool enforceBounds)`.

`-index` overflows for the minimum `Difference_T`; `(-index) % size` is computed
in `Size_T` and is undefined for `size == 0`; both arms of the conditional
operator are converted to `Size_T` before the assignment back to `index`. -/
def normalizeIndex (size : Nat) (index : Int) (enforceBounds : Bool) : Outcome Int :=
  let wrapped : Outcome Int :=
    if index < 0 then
      if index = -(2 ^ 63) then Outcome.undefined
      else if size = 0 then Outcome.undefined
      else
        let index1 : Int := toDifference_T ((toSize_T (-index) % size : Nat) : Int)
        let index2 : Int :=
          if index1 > 0 then
            toDifference_T (toSize_T ((size : Int) - (toSize_T index1 : Int)) : Int)
          else
            toDifference_T (toSize_T index1 : Int)
        Outcome.value index2
    else Outcome.value index
  match wrapped with
  | Outcome.value index =>
    if enforceBounds = true ∧ (index < 0 ∨ index ≥ toDifference_T (size : Int)) then
      Outcome.raised (Exception.out_of_range ("Invalid index: " ++ toString index))
    else Outcome.value index
  | Outcome.raised e => Outcome.raised e
  | Outcome.undefined => Outcome.undefined

/-- The method `[]` (alias `at`) of `define_access_methods`. -/
def brackets {α : Type} (self : List α) (index : Int) : Result (Option α) (List α) :=
  match normalizeIndex self.length index false with
  | Outcome.value index =>
    if index < 0 ∨ index ≥ toDifference_T (self.length : Int) then
      Result.ok none self
    else
      match self[toSize_T index]? with
      | some x => Result.ok (some x) self
      | none => Result.undefined
  | Outcome.raised e => Result.raised e self
  | Outcome.undefined => Result.undefined

/-- The method `[]=` of `define_modify_methods`. -/
def brackets_assign {α : Type} (self : List α) (index : Int) (element : α) :
    Result α (List α) :=
  match normalizeIndex self.length index true with
  | Outcome.value index =>
    if toSize_T index < self.length then
      Result.ok element (self.set (toSize_T index) element)
    else Result.undefined
  | Outcome.raised e => Result.raised e self
  | Outcome.undefined => Result.undefined

/-- The method `insert` of `define_modify_methods`; it returns the vector. -/
def insert {α : Type} (self : List α) (index : Int) (element : α) :
    Result (List α) (List α) :=
  match normalizeIndex self.length index true with
  | Outcome.value index =>
    if 0 ≤ index ∧ index ≤ (self.length : Int) then
      let self1 := self.take index.toNat ++ element :: self.drop index.toNat
      Result.ok self1 self1
    else Result.undefined
  | Outcome.raised e => Result.raised e self
  | Outcome.undefined => Result.undefined

/-- The method `delete_at` of `define_modify_methods`: `*(self.begin() + pos)`
followed by `erase`, with no check of `pos`. -/
def delete_at {α : Type} (self : List α) (pos : Nat) : Result α (List α) :=
  match self[pos]? with
  | some result => Result.ok result (self.eraseIdx pos)
  | none => Result.undefined

end VectorHelper

/-! ## `MapHelper` (`std::map`) -/

namespace MapHelper

/-- The member `std::map<Key_T, Mapped_T>::find` on the entries in iteration order: the
first entry whose key is not less than `key` is the candidate (lower bound),
and it is the answer unless `key` is less than its key. -/
def find {K V : Type} [LT K] [DecidableRel (fun (a b : K) => a < b)] :
    List (K × V) → K → Option (K × V)
  | [], _ => none
  | (k, v) :: rest, key =>
    if k < key then find rest key
    else if key < k then none
    else some (k, v)

/-- The statement `self[key] = value` on a `std::map`: `operator[]` finds the
entry equivalent to `key`, or inserts a new one at its place in the order, and
the mapped value is then assigned. -/
def subscript_assign {K V : Type} [LT K] [DecidableRel (fun (a b : K) => a < b)] :
    List (K × V) → K → V → List (K × V)
  | [], key, value => [(key, value)]
  | (k, v) :: rest, key, value =>
    if k < key then (k, v) :: subscript_assign rest key value
    else if key < k then (key, value) :: (k, v) :: rest
    else (k, value) :: rest

/-- The method `[]` of `MapHelper::define_access_methods`. -/
def brackets {K V : Type} [LT K] [DecidableRel (fun (a b : K) => a < b)]
    (self : List (K × V)) (key : K) : Result (Option V) (List (K × V)) :=
  match find self key with
  | some iter => Result.ok (some iter.2) self
  | none => Result.ok none self

/-- The method `[]=` (alias `store`) of `MapHelper::define_modify_methods`. -/
def brackets_assign {K V : Type} [LT K] [DecidableRel (fun (a b : K) => a < b)]
    (self : List (K × V)) (key : K) (value : V) : Result V (List (K × V)) :=
  Result.ok value (subscript_assign self key value)

end MapHelper

/-! ## `UnorderedMapHelper` (`std::unordered_map`) -/

namespace UnorderedMapHelper

/-- The member `std::unordered_map<Key_T, Mapped_T>::find`: the entry whose key equals
`key`, if there is one. -/
def find {K V : Type} [DecidableEq K] : List (K × V) → K → Option (K × V)
  | [], _ => none
  | (k, v) :: rest, key => if k = key then some (k, v) else find rest key

/-- The statement `self[key] = value` on a `std::unordered_map`: the mapped
value of the entry for `key` is assigned, a new entry being added when there is
none (where a new entry lands in the iteration order is unspecified; here it is
the end). -/
def subscript_assign {K V : Type} [DecidableEq K] :
    List (K × V) → K → V → List (K × V)
  | [], key, value => [(key, value)]
  | (k, v) :: rest, key, value =>
    if k = key then (k, value) :: rest
    else (k, v) :: subscript_assign rest key value

/-- The method `[]` of `UnorderedMapHelper::define_access_methods`. -/
def brackets {K V : Type} [DecidableEq K]
    (self : List (K × V)) (key : K) : Result (Option V) (List (K × V)) :=
  match find self key with
  | some iter => Result.ok (some iter.2) self
  | none => Result.ok none self

/-- The method `[]=` (alias `store`) of `UnorderedMapHelper::define_modify_methods`. -/
def brackets_assign {K V : Type} [DecidableEq K]
    (self : List (K × V)) (key : K) (value : V) : Result V (List (K × V)) :=
  Result.ok value (subscript_assign self key value)

end UnorderedMapHelper

/-! ## Converters -/

/-- A `To_Ruby<T>` converter over host values `VALUE`. -/
structure To_Ruby (VALUE T : Type) where
  convert : T → VALUE

/-- A `From_Ruby<T>` converter over host values `VALUE`; `convert` may throw. -/
structure From_Ruby (VALUE T : Type) where
  is_convertible : VALUE → Bool
  convert : VALUE → Except Exception T

/-- The type `std::monostate`. -/
inductive monostate where
  | mk
  deriving DecidableEq, Repr

/-- The converter `To_Ruby<std::monostate>`: every monostate converts to `Qnil`. -/
def To_Ruby_monostate {VALUE : Type} (Qnil : VALUE) : To_Ruby VALUE monostate where
  convert := fun _ => Qnil

/-- The converter `From_Ruby<std::monostate>`: `is_convertible` returns `false`, `convert`
returns `std::monostate()`. -/
def From_Ruby_monostate {VALUE : Type} : From_Ruby VALUE monostate where
  is_convertible := fun _ => false
  convert := fun _ => Except.ok monostate.mk

/-! ## `std::variant<Types...>` -/

/-- A value of `std::variant<Types...>`: the index of the alternative held and
the value held.  The alternatives of a variant that these converters compile
for are distinct types, so an alternative type and its index determine each
other. -/
abbrev variant (Types : List Type) : Type :=
  (i : Fin Types.length) × Types.get i

/-- The test `std::holds_alternative<std::tuple_element_t<I, Tuple_T>>(data)`. -/
def holds_alternative {Types : List Type} (I : Fin Types.length)
    (data : variant Types) : Bool :=
  decide (data.1 = I)

/-- The accessor `std::get<std::tuple_element_t<I, Tuple_T>>(data)`, which throws
`std::bad_variant_access` when another alternative is held. -/
def variant_get {Types : List Type} (I : Fin Types.length)
    (data : variant Types) : Except Exception (Types.get I) :=
  if h : data.1 = I then Except.ok (h ▸ data.2) else Except.error Exception.bad_variant_access

namespace To_Ruby_variant

/-- The function `To_Ruby<std::variant<Types...>>::convertElement<T>`. -/
def convertElement {VALUE : Type} {Types : List Type}
    (to_ruby : (i : Fin Types.length) → To_Ruby VALUE (Types.get i))
    (I : Fin Types.length) (data : variant Types) : Except Exception VALUE :=
  (variant_get I data).map (to_ruby I).convert

/-- The fold expression of `convertIterator`, from index `I` on: the first
index whose alternative is held assigns `result` and ends the fold. -/
def convertIteratorFrom {VALUE : Type} {Types : List Type}
    (to_ruby : (i : Fin Types.length) → To_Ruby VALUE (Types.get i))
    (data : variant Types) (result : VALUE) (I : Nat) : Except Exception VALUE :=
  if h : I < Types.length then
    if holds_alternative ⟨I, h⟩ data then convertElement to_ruby ⟨I, h⟩ data
    else convertIteratorFrom to_ruby data result (I + 1)
  else Except.ok result
termination_by Types.length - I

/-- The function `To_Ruby<std::variant<Types...>>::convertIterator`: `result` starts as
`Qnil` and the fold runs over all indices. -/
def convertIterator {VALUE : Type} {Types : List Type} (Qnil : VALUE)
    (to_ruby : (i : Fin Types.length) → To_Ruby VALUE (Types.get i))
    (data : variant Types) : Except Exception VALUE :=
  convertIteratorFrom to_ruby data Qnil 0

/-- The function `To_Ruby<std::variant<Types...>>::convert`. -/
def convert {VALUE : Type} {Types : List Type} (Qnil : VALUE)
    (to_ruby : (i : Fin Types.length) → To_Ruby VALUE (Types.get i))
    (data : variant Types) : Except Exception VALUE :=
  convertIterator Qnil to_ruby data

end To_Ruby_variant

namespace From_Ruby_variant

/-- The function `From_Ruby<std::variant<Types...>>::convertInternal<I>`.  The value a
converter returns has the type of alternative `I`, and the variant built from
it holds that alternative. -/
def convertInternal {VALUE : Type} {Types : List Type}
    (from_ruby : (i : Fin Types.length) → From_Ruby VALUE (Types.get i))
    (I : Nat) (value : VALUE) : Except Exception (variant Types) :=
  if h : I < Types.length then
    let converter := from_ruby ⟨I, h⟩
    if converter.is_convertible value then
      (converter.convert value).map (fun x => (⟨⟨I, h⟩, x⟩ : variant Types))
    else convertInternal from_ruby (I + 1) value
  else Except.error (Exception.runtime_error "Could not find converter for variant")
termination_by Types.length - I

/-- The function `From_Ruby<std::variant<Types...>>::convert`. -/
def convert {VALUE : Type} {Types : List Type}
    (from_ruby : (i : Fin Types.length) → From_Ruby VALUE (Types.get i))
    (value : VALUE) : Except Exception (variant Types) :=
  convertInternal from_ruby 0 value

end From_Ruby_variant

/-! ## Instances used at concrete inputs -/

/-- A small universe of host values: `nil`, integers and strings. -/
inductive HostValue where
  | nil
  | fixnum (n : Int)
  | string (s : String)
  deriving DecidableEq, Repr

/-- The alternatives of `std::variant<std::monostate>`. -/
def MonostateOnly : List Type := [monostate]

/-- The `To_Ruby` converters of `std::variant<std::monostate>`. -/
def monostateOnly_to_ruby :
    (i : Fin MonostateOnly.length) → To_Ruby HostValue (MonostateOnly.get i)
  | ⟨0, _⟩ => To_Ruby_monostate HostValue.nil

/-- The `From_Ruby` converters of `std::variant<std::monostate>`. -/
def monostateOnly_from_ruby :
    (i : Fin MonostateOnly.length) → From_Ruby HostValue (MonostateOnly.get i)
  | ⟨0, _⟩ => From_Ruby_monostate

/-- The alternatives of a variant of an integer and a string. -/
def IntOrString : List Type := [Int, String]

/-- Converters to host values for `IntOrString`. -/
def intOrString_to_ruby :
    (i : Fin IntOrString.length) → To_Ruby HostValue (IntOrString.get i)
  | ⟨0, _⟩ => { convert := fun (n : Int) => HostValue.fixnum n }
  | ⟨1, _⟩ => { convert := fun (s : String) => HostValue.string s }

/-- Converters from host values for `IntOrString`: each accepts the host
values of its own kind. -/
def intOrString_from_ruby :
    (i : Fin IntOrString.length) → From_Ruby HostValue (IntOrString.get i)
  | ⟨0, _⟩ =>
    { is_convertible := fun v => match v with
        | HostValue.fixnum _ => true
        | _ => false
      convert := fun v => match v with
        | HostValue.fixnum n => Except.ok n
        | _ => Except.error (Exception.runtime_error "not an integer") }
  | ⟨1, _⟩ =>
    { is_convertible := fun v => match v with
        | HostValue.string _ => true
        | _ => false
      convert := fun v => match v with
        | HostValue.string s => Except.ok s
        | _ => Except.error (Exception.runtime_error "not a string") }

/-! ## Host values -/

/-- The kinds of host value that `rb_type` tells apart in the embedded code. -/
inductive ruby_value_type where
  | T_NIL
  | T_FIXNUM
  | T_STRING
  | T_ARRAY
  | T_HASH
  | T_DATA
  | T_CLASS
  deriving DecidableEq, Repr

/-- A host value (`VALUE`): `nil`, an integer, a string of bytes, an array, a
hash with its entries in iteration order, an object wrapping a native value of
type `N`, or a class or module. -/
inductive VALUE (N : Type) where
  | Qnil
  | fixnum (n : Int)
  | string (bytes : List (Fin 256))
  | array (entries : List (VALUE N))
  | hash (entries : List (VALUE N × VALUE N))
  | data (wrapped : N)
  | klass (id : Nat)

/-- The host function `rb_type`. -/
def rb_type {N : Type} : VALUE N → ruby_value_type
  | VALUE.Qnil => ruby_value_type.T_NIL
  | VALUE.fixnum _ => ruby_value_type.T_FIXNUM
  | VALUE.string _ => ruby_value_type.T_STRING
  | VALUE.array _ => ruby_value_type.T_ARRAY
  | VALUE.hash _ => ruby_value_type.T_HASH
  | VALUE.data _ => ruby_value_type.T_DATA
  | VALUE.klass _ => ruby_value_type.T_CLASS

/-- The comparison `value == Qnil`. -/
def VALUE.isQnil {N : Type} : VALUE N → Bool
  | VALUE.Qnil => true
  | _ => false

/-- The host function `rb_check_type(value, T_STRING)` under `detail::protect`:
a `TypeError` naming the class of `value` unless `value` is a string. -/
def rb_check_type_T_STRING {N : Type} (rb_obj_classname : VALUE N → String)
    (value : VALUE N) : Except Exception Unit :=
  if rb_type value = ruby_value_type.T_STRING then Except.ok ()
  else Except.error (Exception.rb_eTypeError
    ("wrong argument type " ++ rb_obj_classname value ++ " (expected String)"))

/-- The bytes `RSTRING_PTR(value)[0 .. RSTRING_LEN(value))` of a host string. -/
def RSTRING {N : Type} : VALUE N → List (Fin 256)
  | VALUE.string bytes => bytes
  | _ => []

/-- The host function `rb_external_str_new(ptr, len)`: a host string holding a
copy of the first `len` bytes at `ptr`; a negative `len` is an `ArgumentError`. -/
def rb_external_str_new {N : Type} (ptr : List (Fin 256)) (len : Int) :
    Except Exception (VALUE N) :=
  if len < 0 then
    Except.error (Exception.rb_eArgError "negative string size (or size too big)")
  else Except.ok (VALUE.string (ptr.take len.toNat))

/-- The host function `rb_array_len`. -/
def rb_array_len {N : Type} : VALUE N → Nat
  | VALUE.array entries => entries.length
  | _ => 0

/-- The host function `rb_ary_entry`: the entry at `i`, or `nil` past the end. -/
def rb_ary_entry {N : Type} : VALUE N → Nat → VALUE N
  | VALUE.array entries, i => (entries.get? i).getD VALUE.Qnil
  | _, _ => VALUE.Qnil

/-- The entries that `rb_hash_foreach` visits, in order. -/
def rb_hash_entries {N : Type} : VALUE N → List (VALUE N × VALUE N)
  | VALUE.hash entries => entries
  | _ => []

/-- Modelled from the spec: the argument description `Arg` (Arg.hpp is not among
the sources), of which the converters use `hasDefaultValue()` and
`defaultValue<T>()`: a default value may be configured. -/
structure Arg (T : Type) where
  defaultValue : Option T

/-- The test `arg->hasDefaultValue()`. -/
def Arg.hasDefaultValue {T : Type} (arg : Arg T) : Bool := arg.defaultValue.isSome

/-- The largest size a `std::string` can have. -/
def string_max_size : Nat := 2 ^ 63 - 1

/-! ## `std::string` -/

/-- The function `To_Ruby<std::string>::convert`:
`rb_external_str_new(x.data(), (long)x.size())`. -/
def To_Ruby_string.convert {N : Type} (x : List (Fin 256)) : Except Exception (VALUE N) :=
  rb_external_str_new x (toDifference_T (x.length : Int))

/-- The function `From_Ruby<std::string>::is_convertible`. -/
def From_Ruby_string.is_convertible {N : Type} (value : VALUE N) : Bool :=
  decide (rb_type value = ruby_value_type.T_STRING)

/-- The function `From_Ruby<std::string>::convert` (the one of
`From_Ruby<std::string&>` computes the same value); `arg_` is `none` for the
null pointer. -/
def From_Ruby_string.convert {N : Type} (rb_obj_classname : VALUE N → String)
    (arg_ : Option (Arg (List (Fin 256)))) (value : VALUE N) :
    Except Exception (List (Fin 256)) :=
  match value.isQnil, arg_.bind Arg.defaultValue with
  | true, some defaultValue => Except.ok defaultValue
  | _, _ =>
    match rb_check_type_T_STRING rb_obj_classname value with
    | Except.error e => Except.error e
    | Except.ok _ => Except.ok (RSTRING value)

/-! ## `std::optional<T>` -/

/-- The function `To_Ruby<std::optional<T>>::convert`. -/
def To_Ruby_optional.convert {N T : Type} (to_ruby : To_Ruby (VALUE N) T)
    (data : Option T) : VALUE N :=
  match data with
  | some value => to_ruby.convert value
  | none => VALUE.Qnil

/-- The function `From_Ruby<std::optional<T>>::convert`. -/
def From_Ruby_optional.convert {N T : Type} (from_ruby : From_Ruby (VALUE N) T)
    (value : VALUE N) : Except Exception (Option T) :=
  if value.isQnil then Except.ok none
  else (from_ruby.convert value).map some

/-! ## `From_Ruby<std::vector<T>>` -/

/-- The loop of `vectorFromArray`, with `remaining` iterations to go from
index `i`: `result[i] = From_Ruby<T>().convert(rb_ary_entry(value, i))`. -/
def vectorFromArray.loop {N T : Type} (from_ruby : From_Ruby (VALUE N) T) (value : VALUE N) :
    Nat → Nat → List T → Except Exception (List T)
  | 0, _, result => Except.ok result
  | remaining + 1, i, result =>
    match from_ruby.convert (rb_ary_entry value i) with
    | Except.error e => Except.error e
    | Except.ok element => vectorFromArray.loop from_ruby value remaining (i + 1) (result.set i element)

/-- The function `vectorFromArray<T>`: a vector of `length` default-constructed
elements (`T_default` is `T()`), each then assigned from the array entry at its
index. -/
def vectorFromArray {N T : Type} (T_default : T) (from_ruby : From_Ruby (VALUE N) T)
    (value : VALUE N) : Except Exception (List T) :=
  let length := rb_array_len value
  vectorFromArray.loop from_ruby value length 0 (List.replicate length T_default)

/-- The `default:` case of the `switch` in the container converters. -/
def container_wrong_argument_type {N R : Type} (rb_obj_classname : VALUE N → String)
    (expected : String) (value : VALUE N) : Except Exception R :=
  Except.error (Exception.rb_eTypeError
    ("wrong argument type " ++ rb_obj_classname value ++ " (expected " ++ expected ++ ")"))

/-- The `case T_NIL:` of the `switch` in the container converters, which falls
through to `default:` when no default value is configured. -/
def container_nil_case {N R : Type} (rb_obj_classname : VALUE N → String)
    (expected : String) (arg_ : Option (Arg R)) (value : VALUE N) : Except Exception R :=
  match arg_.bind Arg.defaultValue with
  | some defaultValue => Except.ok defaultValue
  | none => container_wrong_argument_type rb_obj_classname expected value

/-- The function `From_Ruby<std::vector<T>>::convert`.  `is_default_constructible`
is `std::is_default_constructible_v<T>`, `data_object_from_ruby` is
`Data_Object<std::vector<T>>::from_ruby` followed by the copy of the vector it
points to. -/
def From_Ruby_vector.convert {N T : Type} (is_default_constructible : Bool) (T_default : T)
    (rb_obj_classname : VALUE N → String)
    (data_object_from_ruby : VALUE N → Except Exception (List T))
    (from_ruby : From_Ruby (VALUE N) T) (arg_ : Option (Arg (List T)))
    (value : VALUE N) : Except Exception (List T) :=
  match rb_type value with
  | ruby_value_type.T_DATA => data_object_from_ruby value
  | ruby_value_type.T_ARRAY =>
    if is_default_constructible then vectorFromArray T_default from_ruby value
    else container_nil_case rb_obj_classname "std::vector" arg_ value
  | ruby_value_type.T_NIL => container_nil_case rb_obj_classname "std::vector" arg_ value
  | _ => container_wrong_argument_type rb_obj_classname "std::vector" value

/-! ## `From_Ruby<std::map<T, U>>` and `From_Ruby<std::unordered_map<T, U>>` -/

/-- The callback `MapFromHash<T, U>::convertPair`:
`result->operator[](From_Ruby<T>().convert(key)) = From_Ruby<U>().convert(value)`.
The right operand of the assignment is evaluated first; an exception of either
conversion leaves through `cpp_protect` and `detail::protect`. -/
def MapFromHash.convertPair {N K V : Type} [LT K] [DecidableRel (fun (a b : K) => a < b)]
    (from_ruby_key : From_Ruby (VALUE N) K) (from_ruby_value : From_Ruby (VALUE N) V)
    (result : List (K × V)) (key value : VALUE N) : Except Exception (List (K × V)) :=
  match from_ruby_value.convert value with
  | Except.error e => Except.error e
  | Except.ok v =>
    match from_ruby_key.convert key with
    | Except.error e => Except.error e
    | Except.ok k => Except.ok (MapHelper.subscript_assign result k v)

/-- The traversal `rb_hash_foreach(value, convertPair, &result)` over the
entries still to visit. -/
def MapFromHash.foreach {N K V : Type} [LT K] [DecidableRel (fun (a b : K) => a < b)]
    (from_ruby_key : From_Ruby (VALUE N) K) (from_ruby_value : From_Ruby (VALUE N) V) :
    List (VALUE N × VALUE N) → List (K × V) → Except Exception (List (K × V))
  | [], result => Except.ok result
  | (key, value) :: rest, result =>
    match MapFromHash.convertPair from_ruby_key from_ruby_value result key value with
    | Except.error e => Except.error e
    | Except.ok result1 => MapFromHash.foreach from_ruby_key from_ruby_value rest result1

/-- The function `MapFromHash<T, U>::convert`. -/
def MapFromHash.convert {N K V : Type} [LT K] [DecidableRel (fun (a b : K) => a < b)]
    (from_ruby_key : From_Ruby (VALUE N) K) (from_ruby_value : From_Ruby (VALUE N) V)
    (value : VALUE N) : Except Exception (List (K × V)) :=
  MapFromHash.foreach from_ruby_key from_ruby_value (rb_hash_entries value) []

/-- The function `From_Ruby<std::map<T, U>>::convert`; `is_default_constructible`
is `std::is_default_constructible_v<U>`. -/
def From_Ruby_map.convert {N K V : Type} [LT K] [DecidableRel (fun (a b : K) => a < b)]
    (is_default_constructible : Bool) (rb_obj_classname : VALUE N → String)
    (data_object_from_ruby : VALUE N → Except Exception (List (K × V)))
    (from_ruby_key : From_Ruby (VALUE N) K) (from_ruby_value : From_Ruby (VALUE N) V)
    (arg_ : Option (Arg (List (K × V)))) (value : VALUE N) :
    Except Exception (List (K × V)) :=
  match rb_type value with
  | ruby_value_type.T_DATA => data_object_from_ruby value
  | ruby_value_type.T_HASH =>
    if is_default_constructible then MapFromHash.convert from_ruby_key from_ruby_value value
    else container_nil_case rb_obj_classname "std::map" arg_ value
  | ruby_value_type.T_NIL => container_nil_case rb_obj_classname "std::map" arg_ value
  | _ => container_wrong_argument_type rb_obj_classname "std::map" value

/-- The callback `UnorderedMapFromHash<T, U>::convertPair`. -/
def UnorderedMapFromHash.convertPair {N K V : Type} [DecidableEq K]
    (from_ruby_key : From_Ruby (VALUE N) K) (from_ruby_value : From_Ruby (VALUE N) V)
    (result : List (K × V)) (key value : VALUE N) : Except Exception (List (K × V)) :=
  match from_ruby_value.convert value with
  | Except.error e => Except.error e
  | Except.ok v =>
    match from_ruby_key.convert key with
    | Except.error e => Except.error e
    | Except.ok k => Except.ok (UnorderedMapHelper.subscript_assign result k v)

/-- The traversal `rb_hash_foreach(value, convertPair, &result)` of
`UnorderedMapFromHash`. -/
def UnorderedMapFromHash.foreach {N K V : Type} [DecidableEq K]
    (from_ruby_key : From_Ruby (VALUE N) K) (from_ruby_value : From_Ruby (VALUE N) V) :
    List (VALUE N × VALUE N) → List (K × V) → Except Exception (List (K × V))
  | [], result => Except.ok result
  | (key, value) :: rest, result =>
    match UnorderedMapFromHash.convertPair from_ruby_key from_ruby_value result key value with
    | Except.error e => Except.error e
    | Except.ok result1 =>
      UnorderedMapFromHash.foreach from_ruby_key from_ruby_value rest result1

/-- The function `UnorderedMapFromHash<T, U>::convert`. -/
def UnorderedMapFromHash.convert {N K V : Type} [DecidableEq K]
    (from_ruby_key : From_Ruby (VALUE N) K) (from_ruby_value : From_Ruby (VALUE N) V)
    (value : VALUE N) : Except Exception (List (K × V)) :=
  UnorderedMapFromHash.foreach from_ruby_key from_ruby_value (rb_hash_entries value) []

/-- The function `From_Ruby<std::unordered_map<T, U>>::convert`. -/
def From_Ruby_unordered_map.convert {N K V : Type} [DecidableEq K]
    (is_default_constructible : Bool) (rb_obj_classname : VALUE N → String)
    (data_object_from_ruby : VALUE N → Except Exception (List (K × V)))
    (from_ruby_key : From_Ruby (VALUE N) K) (from_ruby_value : From_Ruby (VALUE N) V)
    (arg_ : Option (Arg (List (K × V)))) (value : VALUE N) :
    Except Exception (List (K × V)) :=
  match rb_type value with
  | ruby_value_type.T_DATA => data_object_from_ruby value
  | ruby_value_type.T_HASH =>
    if is_default_constructible then
      UnorderedMapFromHash.convert from_ruby_key from_ruby_value value
    else container_nil_case rb_obj_classname "std::unordered_map" arg_ value
  | ruby_value_type.T_NIL =>
    container_nil_case rb_obj_classname "std::unordered_map" arg_ value
  | _ => container_wrong_argument_type rb_obj_classname "std::unordered_map" value

/-! ## Wrapped native objects -/

/-- Modelled from the spec: the conversion to a host value of a value of a bound
class type (`Data_Object<T>` and the `To_Ruby` converter of class types are not
among the sources): the host object wrapping the native value. -/
def Data_Object.to_ruby {N : Type} (x : N) : VALUE N := VALUE.data x

/-- Modelled from the spec: the function `Data_Object<T>::from_ruby` followed by
the copy of the value it points to (Data_Object.ipp is not among the sources):
the native value a host object wraps, a `TypeError` for a host value that wraps
none. -/
def Data_Object.from_ruby {N : Type} (rb_obj_classname : VALUE N → String) :
    VALUE N → Except Exception N
  | VALUE.data wrapped => Except.ok wrapped
  | value => Except.error (Exception.rb_eTypeError
      ("wrong argument type " ++ rb_obj_classname value))

/-! ## Converters used at concrete inputs -/

/-- An integer converter to host values, used at concrete inputs. -/
def int_to_ruby {N : Type} : To_Ruby (VALUE N) Int where
  convert := fun n => VALUE.fixnum n

/-- An integer converter from host values, used at concrete inputs. -/
def int_from_ruby {N : Type} : From_Ruby (VALUE N) Int where
  is_convertible := fun v => decide (rb_type v = ruby_value_type.T_FIXNUM)
  convert := fun v => match v with
    | VALUE.fixnum n => Except.ok n
    | _ => Except.error (Exception.rb_eTypeError "not an integer")

/-- A rendering of `rb_obj_classname`, used at concrete inputs. -/
def plain_classname {N : Type} : VALUE N → String
  | VALUE.Qnil => "NilClass"
  | VALUE.fixnum _ => "Integer"
  | VALUE.string _ => "String"
  | VALUE.array _ => "Array"
  | VALUE.hash _ => "Hash"
  | VALUE.data _ => "Object"
  | VALUE.klass _ => "Class"

/-! ## Type registry and `Data_Type<T>` -/

/-- Identity of a native type (`typeid(T)`). -/
abbrev type_index := Nat

/-- The descriptor `rb_data_type_t` as `bind` fills it in: the name, the mark,
free and size functions (instantiated for the type `function`), and the parent
descriptor. -/
inductive rb_data_type_t where
  | mk (wrap_struct_name : String) (function : type_index) (parent : Option rb_data_type_t)

/-- Modelled from the spec: the type registry (detail/TypeRegistry.hpp is not
among the sources), a process-wide mapping from native type identity to the
host class and its descriptor. -/
structure TypeRegistry (N : Type) where
  registry_ : List (type_index × VALUE N × rb_data_type_t)

/-- Modelled from the spec: `TypeRegistry::isDefined<T>()`, whether the mapping
has an entry for `T`. -/
def TypeRegistry.isDefined {N : Type} (types : TypeRegistry N) (T : type_index) : Bool :=
  types.registry_.any (fun entry => decide (entry.1 = T))

/-- Modelled from the spec: `TypeRegistry::remove<T>()`, after which the mapping
has no entry for `T`. -/
def TypeRegistry.remove {N : Type} (types : TypeRegistry N) (T : type_index) :
    TypeRegistry N :=
  { registry_ := types.registry_.filter (fun entry => decide (entry.1 ≠ T)) }

/-- Modelled from the spec: `TypeRegistry::add<T>(klass, rbType)`, after which
the mapping takes `T` to the class and the descriptor. -/
def TypeRegistry.add {N : Type} (types : TypeRegistry N) (T : type_index)
    (klass : VALUE N) (rbType : rb_data_type_t) : TypeRegistry N :=
  { registry_ := (T, klass, rbType) :: (types.remove T).registry_ }

/-- Modelled from the spec: `TypeRegistry::lookup`, the binding of `T` or absent. -/
def TypeRegistry.lookup {N : Type} (types : TypeRegistry N) (T : type_index) :
    Option (VALUE N × rb_data_type_t) :=
  (types.registry_.find? (fun entry => decide (entry.1 = T))).map (fun entry => entry.2)

/-- The static members of `Data_Type<T>`: `klass_`, `rb_data_type_` (`none` for
`nullptr`) and the set `unbound_instances()` of addresses of handles. -/
structure Data_Type_statics (N : Type) where
  klass_ : VALUE N
  rb_data_type_ : Option rb_data_type_t
  unbound_instances : List Nat

/-- The process state the binding code works on: the static members of every
`Data_Type<T>`, the type registry, the class held by the `Data_Type` object at
each address, and the state `R` of the host runtime. -/
structure World (N R : Type) where
  statics : type_index → Data_Type_statics N
  types : TypeRegistry N
  handles : Nat → VALUE N
  ruby : R

/-- The functions of the host runtime and of the parts of the library outside
the embedded sources that the embedded code calls. -/
structure Host (N R : Type) where
  rb_cObject : VALUE N
  typeName : type_index → String
  makeClassName : type_index → String
  rb_class2name : VALUE N → String
  rb_obj_is_kind_of : R → VALUE N → VALUE N → Bool
  define_allocator_and_constructor : R → VALUE N → R
  define_class_under : R → VALUE N → String → VALUE N → Except Exception (VALUE N × R)
  define_class : R → String → VALUE N → Except Exception (VALUE N × R)
  undef_creation_funcs : R → VALUE N → R
  define_module : R → String → VALUE N × R
  define_module_under : R → VALUE N → String → VALUE N × R
  const_set_maybe : R → VALUE N → String → VALUE N → R

/-- The state before anything is bound: every `klass_` is `Qnil`, every
`rb_data_type_` is `nullptr`, every set of unbound instances is empty and the
registry has no entry. -/
def World.initial {N R : Type} (ruby : R) : World N R where
  statics := fun _ => { klass_ := VALUE.Qnil, rb_data_type_ := none, unbound_instances := [] }
  types := { registry_ := [] }
  handles := fun _ => VALUE.Qnil
  ruby := ruby

/-- Assignment to static members of `Data_Type<T>`. -/
def World.setStatics {N R : Type} (w : World N R) (T : type_index)
    (s : Data_Type_statics N) : World N R :=
  { w with statics := fun U => if U = T then s else w.statics U }

namespace Data_Type

/-- The function `Data_Type<T>::is_bound`: `klass_ != Qnil`. -/
def is_bound {N R : Type} (T : type_index) (w : World N R) : Bool :=
  !(w.statics T).klass_.isQnil

/-- The function `Data_Type<T>::check_is_bound`. -/
def check_is_bound {N R : Type} (host : Host N R) (T : type_index) (w : World N R) :
    Except Exception Unit :=
  if is_bound T w then Except.ok ()
  else Except.error (Exception.runtime_error ("Type " ++ host.typeName T ++ " is not bound"))

/-- The function `Data_Type<T>::ruby_data_type`. -/
def ruby_data_type {N R : Type} (host : Host N R) (T : type_index) (w : World N R) :
    Except Exception (Option rb_data_type_t) :=
  match check_is_bound host T w with
  | Except.error e => Except.error e
  | Except.ok _ => Except.ok (w.statics T).rb_data_type_

/-- The function `Data_Type<T>::klass`. -/
def klass {N R : Type} (host : Host N R) (T : type_index) (w : World N R) :
    Except Exception (VALUE N) :=
  match check_is_bound host T w with
  | Except.error e => Except.error e
  | Except.ok _ => Except.ok (w.statics T).klass_

/-- The function `Data_Type<T>::is_descendant`. -/
def is_descendant {N R : Type} (host : Host N R) (T : type_index) (value : VALUE N)
    (w : World N R) : Except Exception Bool :=
  match check_is_bound host T w with
  | Except.error e => Except.error e
  | Except.ok _ => Except.ok (host.rb_obj_is_kind_of w.ruby value (w.statics T).klass_)

/-- The function `Data_Type<T>::define_constructor` on the handle at address
`this`: after `check_is_bound`, the allocator and `initialize` are defined on
the class the handle holds. -/
def define_constructor {N R : Type} (host : Host N R) (T : type_index) (this : Nat)
    (w : World N R) : Result Unit (World N R) :=
  match check_is_bound host T w with
  | Except.error e => Result.raised e w
  | Except.ok _ =>
    Result.ok () { w with ruby := host.define_allocator_and_constructor w.ruby (w.handles this) }

/-- The constructor `Data_Type<T>::Data_Type()` of the handle at address `this`:
the handle holds `klass_` (`rb_cObject` while `klass_` is `Qnil`) and is put in
`unbound_instances()` unless the type is bound. -/
def construct {N R : Type} (host : Host N R) (T : type_index) (this : Nat)
    (w : World N R) : World N R :=
  let s := w.statics T
  let value := if s.klass_.isQnil then host.rb_cObject else s.klass_
  let w1 : World N R := { w with handles := fun a => if a = this then value else w.handles a }
  if !is_bound T w1 then
    w1.setStatics T { s with unbound_instances := s.unbound_instances.insert this }
  else w1

/-- The destructor `Data_Type<T>::~Data_Type()` of the handle at address `this`. -/
def destroy {N R : Type} (T : type_index) (this : Nat) (w : World N R) : World N R :=
  let s := w.statics T
  w.setStatics T { s with unbound_instances := s.unbound_instances.erase this }

/-- The function `Data_Type<T>::bind<Base_T>(klass)`; `Base_T` is `none` for
`void`, and `ret` is the address of the handle it returns.  The statements run
in the order of the source: the test of `is_bound()`, the assignment to
`klass_`, the new descriptor, the parent descriptor (which throws when the
base type is not bound), the registration, the loop over the unbound
instances, and the construction of the returned handle. -/
def bind {N R : Type} (host : Host N R) (T : type_index) (Base_T : Option type_index)
    (klass : VALUE N) (ret : Nat) (w : World N R) : Result (VALUE N) (World N R) :=
  if is_bound T w then
    Result.raised (Exception.runtime_error
      ("Type " ++ host.typeName T ++ " is already bound to a different type")) w
  else
    let w1 := w.setStatics T { w.statics T with klass_ := klass }
    let w2 := w1.setStatics T { w1.statics T with
      rb_data_type_ := some (rb_data_type_t.mk (host.rb_class2name klass) T none) }
    let parent : Except Exception (Option rb_data_type_t) :=
      match Base_T with
      | none => Except.ok none
      | some Base => ruby_data_type host Base w2
    match parent with
    | Except.error e => Result.raised e w2
    | Except.ok parent =>
      let rbType := rb_data_type_t.mk (host.rb_class2name klass) T parent
      let w3 := w2.setStatics T { w2.statics T with rb_data_type_ := some rbType }
      let w4 : World N R := { w3 with types := w3.types.add T klass rbType }
      let unbound := (w4.statics T).unbound_instances
      let w5 : World N R :=
        { (w4.setStatics T { w4.statics T with unbound_instances := [] }) with
          handles := fun a => if a ∈ unbound then klass else w4.handles a }
      let w6 := construct host T ret w5
      Result.ok (w6.handles ret) w6

/-- The function `Data_Type<T>::unbind`. -/
def unbind {N R : Type} (T : type_index) (w : World N R) : World N R :=
  let w1 : World N R := { w with types := w.types.remove T }
  w1.setStatics T { w1.statics T with klass_ := VALUE.Qnil, rb_data_type_ := none }

/-- The constructor `Data_Type<T>::Data_Type(Module const& klass)` of the handle
at address `this`: the handle holds `klass`, and `bind(klass)` is called; the
handle that `bind` returns, at address `tmp`, is destroyed at once. -/
def construct_bind {N R : Type} (host : Host N R) (T : type_index) (klass : VALUE N)
    (this tmp : Nat) (w : World N R) : Result Unit (World N R) :=
  let w1 : World N R := { w with handles := fun a => if a = this then klass else w.handles a }
  match bind host T none klass tmp w1 with
  | Result.ok _ w2 => Result.ok () (destroy T tmp w2)
  | Result.raised e w2 => Result.raised e w2
  | Result.undefined => Result.undefined

end Data_Type

/-- The function `define_class_under<T, Base_T>(module, name)` of Data_Type.ipp;
`ret` is the address of the handle it returns. -/
def define_class_under {N R : Type} (host : Host N R) (T : type_index)
    (Base_T : Option type_index) (module : VALUE N) (name : String) (ret : Nat)
    (w : World N R) : Result (VALUE N) (World N R) :=
  if w.types.isDefined T then
    let w1 := Data_Type.construct host T ret w
    Result.ok (w1.handles ret) w1
  else
    let superKlass : Except Exception (VALUE N) :=
      match Base_T with
      | none => Except.ok host.rb_cObject
      | some Base => Data_Type.klass host Base w
    match superKlass with
    | Except.error e => Result.raised e w
    | Except.ok superKlass =>
      match host.define_class_under w.ruby module name superKlass with
      | Except.error e => Result.raised e w
      | Except.ok (c, ruby1) =>
        let w1 : World N R := { w with ruby := host.undef_creation_funcs ruby1 c }
        Data_Type.bind host T Base_T c ret w1

/-- The function `define_class<T, Base_T>(name)` of Data_Type.ipp. -/
def define_class {N R : Type} (host : Host N R) (T : type_index)
    (Base_T : Option type_index) (name : String) (ret : Nat)
    (w : World N R) : Result (VALUE N) (World N R) :=
  if w.types.isDefined T then
    let w1 := Data_Type.construct host T ret w
    Result.ok (w1.handles ret) w1
  else
    let superKlass : Except Exception (VALUE N) :=
      match Base_T with
      | none => Except.ok host.rb_cObject
      | some Base => Data_Type.klass host Base w
    match superKlass with
    | Except.error e => Result.raised e w
    | Except.ok superKlass =>
      match host.define_class w.ruby name superKlass with
      | Except.error e => Result.raised e w
      | Except.ok (c, ruby1) =>
        let w1 : World N R := { w with ruby := host.undef_creation_funcs ruby1 c }
        Data_Type.bind host T Base_T c ret w1

/-! ## Container bindings -/

/-- The body shared by `define_vector_under<T>`, `define_map_under<T>`,
`define_unordered_map_under<T>` and `define_pair_under<T>`; they differ in the
helper (`VectorHelper`, `MapHelper`, `UnorderedMapHelper`, `PairHelper`) whose
constructor defines the methods, here `helper`.  `ret` is the address of the
handle returned, at which the local `result` is constructed.  The temporary
`Data_Type<T>()` on which `klass()` is called is constructed and destroyed
within the statement. -/
def define_container_under {N R : Type} (host : Host N R)
    (helper : World N R → Result Unit (World N R)) (T : type_index)
    (module : VALUE N) (name : String) (ret : Nat) (w : World N R) :
    Result (VALUE N) (World N R) :=
  if w.types.isDefined T then
    match Data_Type.klass host T w with
    | Except.error e => Result.raised e w
    | Except.ok k =>
      let w1 : World N R := { w with ruby := host.const_set_maybe w.ruby module name k }
      let w2 := Data_Type.construct host T ret w1
      Result.ok (w2.handles ret) w2
  else
    match define_class_under host T none module name ret w with
    | Result.raised e w1 => Result.raised e w1
    | Result.undefined => Result.undefined
    | Result.ok result w1 =>
      match helper w1 with
      | Result.raised e w2 => Result.raised e w2
      | Result.undefined => Result.undefined
      | Result.ok _ w2 => Result.ok result w2

/-- The body shared by `define_vector<T>`, `define_map<T>`,
`define_unordered_map<T>` and `define_pair<T>`. -/
def define_container {N R : Type} (host : Host N R)
    (helper : World N R → Result Unit (World N R)) (T : type_index)
    (name : String) (ret : Nat) (w : World N R) : Result (VALUE N) (World N R) :=
  if w.types.isDefined T then
    match Data_Type.klass host T w with
    | Except.error e => Result.raised e w
    | Except.ok k =>
      let w1 : World N R :=
        { w with ruby := host.const_set_maybe w.ruby host.rb_cObject name k }
      let w2 := Data_Type.construct host T ret w1
      Result.ok (w2.handles ret) w2
  else
    match define_class host T none name ret w with
    | Result.raised e w1 => Result.raised e w1
    | Result.undefined => Result.undefined
    | Result.ok result w1 =>
      match helper w1 with
      | Result.raised e w2 => Result.raised e w2
      | Result.undefined => Result.undefined
      | Result.ok _ w2 => Result.ok result w2

/-- The body shared by `define_vector_auto<T>`, `define_map_auto<T>`,
`define_unordered_map_auto<T>` and `define_pair_auto<T>`. -/
def define_container_auto {N R : Type} (host : Host N R)
    (helper : World N R → Result Unit (World N R)) (T : type_index)
    (ret : Nat) (w : World N R) : Result (VALUE N) (World N R) :=
  let klassName := host.makeClassName T
  let (rb_mRice, ruby1) := host.define_module w.ruby "Rice"
  let (rb_mStd, ruby2) := host.define_module_under ruby1 rb_mRice "Std"
  define_container_under host helper T rb_mStd klassName ret { w with ruby := ruby2 }

/-- The function `define_vector_under<T>`. -/
def define_vector_under {N R : Type} (host : Host N R)
    (VectorHelper : World N R → Result Unit (World N R)) (T : type_index)
    (module : VALUE N) (name : String) (ret : Nat) (w : World N R) :
    Result (VALUE N) (World N R) :=
  define_container_under host VectorHelper T module name ret w

/-- The function `define_vector<T>`. -/
def define_vector {N R : Type} (host : Host N R)
    (VectorHelper : World N R → Result Unit (World N R)) (T : type_index)
    (name : String) (ret : Nat) (w : World N R) : Result (VALUE N) (World N R) :=
  define_container host VectorHelper T name ret w

/-- The function `define_vector_auto<T>`. -/
def define_vector_auto {N R : Type} (host : Host N R)
    (VectorHelper : World N R → Result Unit (World N R)) (T : type_index)
    (ret : Nat) (w : World N R) : Result (VALUE N) (World N R) :=
  define_container_auto host VectorHelper T ret w

/-- The function `define_map_under<T>`. -/
def define_map_under {N R : Type} (host : Host N R)
    (MapHelper : World N R → Result Unit (World N R)) (T : type_index)
    (module : VALUE N) (name : String) (ret : Nat) (w : World N R) :
    Result (VALUE N) (World N R) :=
  define_container_under host MapHelper T module name ret w

/-- The function `define_map<T>`. -/
def define_map {N R : Type} (host : Host N R)
    (MapHelper : World N R → Result Unit (World N R)) (T : type_index)
    (name : String) (ret : Nat) (w : World N R) : Result (VALUE N) (World N R) :=
  define_container host MapHelper T name ret w

/-- The function `define_pair_under<T>`. -/
def define_pair_under {N R : Type} (host : Host N R)
    (PairHelper : World N R → Result Unit (World N R)) (T : type_index)
    (module : VALUE N) (name : String) (ret : Nat) (w : World N R) :
    Result (VALUE N) (World N R) :=
  define_container_under host PairHelper T module name ret w

/-- The function `define_pair<T>`. -/
def define_pair {N R : Type} (host : Host N R)
    (PairHelper : World N R → Result Unit (World N R)) (T : type_index)
    (name : String) (ret : Nat) (w : World N R) : Result (VALUE N) (World N R) :=
  define_container host PairHelper T name ret w

/-- The element verifications at the start of a composite `verify`, in order;
the value each returns is dropped, an exception ends the sequence. -/
def verify_elements {N R : Type} :
    List (World N R → Result Bool (World N R)) → World N R → Result Unit (World N R)
  | [], w => Result.ok () w
  | verify :: rest, w =>
    match verify w with
    | Result.raised e w1 => Result.raised e w1
    | Result.undefined => Result.undefined
    | Result.ok _ w1 => verify_elements rest w1

/-- The body shared by `Type<std::vector<T>>::verify`, `Type<std::map<T, U>>::verify`,
`Type<std::unordered_map<T, U>>::verify` and `Type<std::pair<T1, T2>>::verify`:
the element types are verified, then `define_*_auto` is called unless the
composite `T` is defined, and `true` is returned.  The handle that
`define_*_auto` returns, at address `tmp`, is destroyed at the end of the
statement. -/
def Type_container.verify {N R : Type} (host : Host N R)
    (helper : World N R → Result Unit (World N R))
    (elements : List (World N R → Result Bool (World N R))) (T : type_index) (tmp : Nat)
    (w : World N R) : Result Bool (World N R) :=
  match verify_elements elements w with
  | Result.raised e w1 => Result.raised e w1
  | Result.undefined => Result.undefined
  | Result.ok _ w1 =>
    if !w1.types.isDefined T then
      match define_container_auto host helper T tmp w1 with
      | Result.raised e w2 => Result.raised e w2
      | Result.undefined => Result.undefined
      | Result.ok _ w2 => Result.ok true (Data_Type.destroy T tmp w2)
    else Result.ok true w1

/-- The function `Type<std::vector<T>>::verify`; `verify_T` is `Type<T>::verify`
and `vector_T` identifies `std::vector<T>`. -/
def Type_vector.verify {N R : Type} (host : Host N R)
    (VectorHelper : World N R → Result Unit (World N R))
    (verify_T : World N R → Result Bool (World N R)) (vector_T : type_index) (tmp : Nat)
    (w : World N R) : Result Bool (World N R) :=
  Type_container.verify host VectorHelper [verify_T] vector_T tmp w

/-- The function `Type<std::map<T, U>>::verify`. -/
def Type_map.verify {N R : Type} (host : Host N R)
    (MapHelper : World N R → Result Unit (World N R))
    (verify_T verify_U : World N R → Result Bool (World N R)) (map_T_U : type_index)
    (tmp : Nat) (w : World N R) : Result Bool (World N R) :=
  Type_container.verify host MapHelper [verify_T, verify_U] map_T_U tmp w

/-- The function `Type<std::unordered_map<T, U>>::verify`. -/
def Type_unordered_map.verify {N R : Type} (host : Host N R)
    (UnorderedMapHelper : World N R → Result Unit (World N R))
    (verify_T verify_U : World N R → Result Bool (World N R)) (unordered_map_T_U : type_index)
    (tmp : Nat) (w : World N R) : Result Bool (World N R) :=
  Type_container.verify host UnorderedMapHelper [verify_T, verify_U] unordered_map_T_U tmp w

/-- The function `Type<std::pair<T1, T2>>::verify`. -/
def Type_pair.verify {N R : Type} (host : Host N R)
    (PairHelper : World N R → Result Unit (World N R))
    (verify_T1 verify_T2 : World N R → Result Bool (World N R)) (pair_T1_T2 : type_index)
    (tmp : Nat) (w : World N R) : Result Bool (World N R) :=
  Type_container.verify host PairHelper [verify_T1, verify_T2] pair_T1_T2 tmp w

/-- The function `define_map_auto<T>`. -/
def define_map_auto {N R : Type} (host : Host N R)
    (MapHelper : World N R → Result Unit (World N R)) (T : type_index)
    (ret : Nat) (w : World N R) : Result (VALUE N) (World N R) :=
  define_container_auto host MapHelper T ret w

/-- The function `define_unordered_map_under<T>`. -/
def define_unordered_map_under {N R : Type} (host : Host N R)
    (UnorderedMapHelper : World N R → Result Unit (World N R)) (T : type_index)
    (module : VALUE N) (name : String) (ret : Nat) (w : World N R) :
    Result (VALUE N) (World N R) :=
  define_container_under host UnorderedMapHelper T module name ret w

/-- The function `define_unordered_map<T>`. -/
def define_unordered_map {N R : Type} (host : Host N R)
    (UnorderedMapHelper : World N R → Result Unit (World N R)) (T : type_index)
    (name : String) (ret : Nat) (w : World N R) : Result (VALUE N) (World N R) :=
  define_container host UnorderedMapHelper T name ret w

/-- The function `define_unordered_map_auto<T>`. -/
def define_unordered_map_auto {N R : Type} (host : Host N R)
    (UnorderedMapHelper : World N R → Result Unit (World N R)) (T : type_index)
    (ret : Nat) (w : World N R) : Result (VALUE N) (World N R) :=
  define_container_auto host UnorderedMapHelper T ret w

/-- The function `define_pair_auto<T>`. -/
def define_pair_auto {N R : Type} (host : Host N R)
    (PairHelper : World N R → Result Unit (World N R)) (T : type_index)
    (ret : Nat) (w : World N R) : Result (VALUE N) (World N R) :=
  define_container_auto host PairHelper T ret w

/-! ## A host runtime used at concrete inputs -/

/-- The state of a small host runtime: the constants defined so far, each a
module, a name and the class or module it refers to, and the number of classes
and modules created. -/
structure simple_ruby where
  constants : List (Nat × String × Nat)
  created : Nat

/-- The identity of a class or module value (`0` for any other value). -/
def simple_ruby.id_of : VALUE Unit → Nat
  | VALUE.klass id => id
  | _ => 0

/-- The constant `name` of module `module`, if it is defined. -/
def simple_ruby.const_get (r : simple_ruby) (module : Nat) (name : String) : Option Nat :=
  (r.constants.find? (fun c => decide (c.1 = module ∧ c.2.1 = name))).map (fun c => c.2.2)

/-- Definition of a class or module under `module`: the one the constant `name`
refers to if there is one, a new one otherwise. -/
def simple_ruby.define (r : simple_ruby) (module : Nat) (name : String) :
    VALUE Unit × simple_ruby :=
  match r.const_get module name with
  | some id => (VALUE.klass id, r)
  | none =>
    (VALUE.klass r.created,
      { constants := (module, name, r.created) :: r.constants, created := r.created + 1 })

/-- A small host runtime, in which `rb_cObject` is the class `0`. -/
def simple_host : Host Unit simple_ruby where
  rb_cObject := VALUE.klass 0
  typeName := fun T => "T" ++ toString T
  makeClassName := fun T => "T" ++ toString T
  rb_class2name := fun c => "C" ++ toString (simple_ruby.id_of c)
  rb_obj_is_kind_of := fun _ _ _ => false
  define_allocator_and_constructor := fun r _ => r
  define_class_under := fun r module name _ =>
    Except.ok (r.define (simple_ruby.id_of module) name)
  define_class := fun r name _ => Except.ok (r.define 0 name)
  undef_creation_funcs := fun r _ => r
  define_module := fun r name => r.define 0 name
  define_module_under := fun r module name => r.define (simple_ruby.id_of module) name
  const_set_maybe := fun r module name value =>
    { r with constants :=
        (simple_ruby.id_of module, name, simple_ruby.id_of value) :: r.constants }

/-- The host runtime state with the class `Object` only. -/
def simple_ruby.start : simple_ruby := { constants := [], created := 1 }

/-- A state in which the type `1` is bound to the class `7` and registered. -/
def world_bound : World Unit simple_ruby :=
  { World.initial simple_ruby.start with
    statics := fun U =>
      if U = 1 then
        { klass_ := VALUE.klass 7,
          rb_data_type_ := some (rb_data_type_t.mk "C7" 1 none),
          unbound_instances := [] }
      else { klass_ := VALUE.Qnil, rb_data_type_ := none, unbound_instances := [] }
    types := { registry_ := [(1, VALUE.klass 7, rb_data_type_t.mk "C7" 1 none)] } }

/-- A helper whose constructor defines no method. -/
def no_helper : World Unit simple_ruby → Result Unit (World Unit simple_ruby) :=
  fun w => Result.ok () w

/-- The states reached from the state before anything is bound by constructing
and destroying handles, `unbind`, and `bind` with no base type (`Base_T` is
`void`), whether `bind` returns or throws. -/
inductive Data_Type.Reachable {N R : Type} (host : Host N R) (ruby : R) : World N R → Prop where
  | initial : Data_Type.Reachable host ruby (World.initial ruby)
  | construct (T : type_index) (this : Nat) (w : World N R) :
      Data_Type.Reachable host ruby w →
      Data_Type.Reachable host ruby (Data_Type.construct host T this w)
  | destroy (T : type_index) (this : Nat) (w : World N R) :
      Data_Type.Reachable host ruby w →
      Data_Type.Reachable host ruby (Data_Type.destroy T this w)
  | unbind (T : type_index) (w : World N R) :
      Data_Type.Reachable host ruby w →
      Data_Type.Reachable host ruby (Data_Type.unbind T w)
  | bind_returns (T : type_index) (klass : VALUE N) (ret : Nat) (w w1 : World N R)
      (r : VALUE N) :
      Data_Type.Reachable host ruby w →
      Data_Type.bind host T none klass ret w = Result.ok r w1 →
      Data_Type.Reachable host ruby w1
  | bind_throws (T : type_index) (klass : VALUE N) (ret : Nat) (w w1 : World N R)
      (e : Exception) :
      Data_Type.Reachable host ruby w →
      Data_Type.bind host T none klass ret w = Result.raised e w1 →
      Data_Type.Reachable host ruby w1

/-! ## Further methods of `VectorHelper` -/

namespace VectorHelper

/-- The method `copy` of `define_copyable_methods`.  The method is defined in
both branches of the `if constexpr`; `is_copy_constructible` is the trait
`std::is_copy_constructible_v<Value_T>`.  The copyable lambda returns `self`
by value, and the other lambda throws before its `return`. -/
def copy {α : Type} (is_copy_constructible : Bool) (self : List α) :
    Result (List α) (List α) :=
  if is_copy_constructible then Result.ok self self
  else
    Result.raised
      (Exception.runtime_error "Cannot copy vectors with non-copy constructible types") self

/-- The function `define_copyable_methods`: the method names it defines on the
class, with their bodies. -/
def define_copyable_methods {α : Type} (is_copy_constructible : Bool) :
    List (String × (List α → Result (List α) (List α))) :=
  if is_copy_constructible then [("copy", fun self => copy true self)]
  else [("copy", fun self => copy false self)]

/-- The method `first` of `define_access_methods`. -/
def first {α : Type} (self : List α) : Result (Option α) (List α) :=
  if self.length > 0 then
    match self[0]? with
    | some front => Result.ok (some front) self
    | none => Result.undefined
  else Result.ok none self

/-- The method `last` of `define_access_methods`. -/
def last {α : Type} (self : List α) : Result (Option α) (List α) :=
  if self.length > 0 then
    match self[self.length - 1]? with
    | some back => Result.ok (some back) self
    | none => Result.undefined
  else Result.ok none self

/-- The method `pop` of `define_modify_methods`: `back()`, then `pop_back()`. -/
def pop {α : Type} (self : List α) : Result (Option α) (List α) :=
  if self.length > 0 then
    match self[self.length - 1]? with
    | some result => Result.ok (some result) self.dropLast
    | none => Result.undefined
  else Result.ok none self

/-- The algorithm `std::find(self.begin(), self.end(), element)` as the distance
of the returned iterator from `begin()`: the position of the first element
with `*iter == element`, or the size when there is none (`end()`). -/
def std_find {α : Type} (operator_eq : α → α → Bool) : List α → α → Nat
  | [], _ => 0
  | x :: rest, element =>
    if operator_eq x element then 0 else std_find operator_eq rest element + 1

/-- The method `delete` of `define_comparable_methods`.  `operator_eq` is the
`operator==` of `Value_T`, or `none` when `detail::is_comparable_v<Value_T>` is
false. -/
def delete {α : Type} (operator_eq : Option (α → α → Bool)) (self : List α) (element : α) :
    Result (Option α) (List α) :=
  match operator_eq with
  | some eq =>
    let iter := std_find eq self element
    if iter = self.length then Result.ok none self
    else
      match self[iter]? with
      | some result => Result.ok (some result) (self.eraseIdx iter)
      | none => Result.undefined
  | none => Result.ok none self

/-- The method `include?` of `define_comparable_methods`. -/
def include? {α : Type} (operator_eq : Option (α → α → Bool)) (self : List α) (element : α) :
    Result Bool (List α) :=
  match operator_eq with
  | some eq => Result.ok (decide (std_find eq self element ≠ self.length)) self
  | none => Result.ok false self

/-- The method `index` of `define_comparable_methods`. -/
def index {α : Type} (operator_eq : Option (α → α → Bool)) (self : List α) (element : α) :
    Result (Option Int) (List α) :=
  match operator_eq with
  | some eq =>
    let iter := std_find eq self element
    if iter = self.length then Result.ok none self
    else Result.ok (some (toDifference_T (iter : Int))) self
  | none => Result.ok none self

/-- The loop of `each`: one `rb_yield` per item, in order, on the conversion of
the item.  `rb_yield` is the block of the caller, a function of the host state
that returns normally. -/
def each.loop {V α σ : Type} (to_ruby : To_Ruby V α) (rb_yield : σ → V → σ) :
    List α → σ → σ
  | [], host => host
  | item :: rest, host =>
    let element := to_ruby.convert item
    each.loop to_ruby rb_yield rest (rb_yield host element)

/-- The method `each` of `define_enumerable`; it returns the vector.  The state
is the vector with the host state the block acts on. -/
def each {V α σ : Type} (to_ruby : To_Ruby V α) (rb_yield : σ → V → σ)
    (self : List α) (host : σ) : Result (List α) (List α × σ) :=
  Result.ok self (self, each.loop to_ruby rb_yield self host)

/-- The loop of `to_s` from `iter` (at position `position`) to `finish`, over
the elements in between. -/
def to_s.loop {α : Type} (stream_insert : α → String) : List α → Nat → String → String
  | [], _, stream => stream
  | x :: rest, position, stream =>
    if position = 0 then to_s.loop stream_insert rest (position + 1) (stream ++ stream_insert x)
    else to_s.loop stream_insert rest (position + 1) (stream ++ ", " ++ stream_insert x)

/-- The method `to_s` of `define_to_s`.  `stream_insert` is the rendering of
`operator<<` of `Value_T`, or `none` when `detail::is_ostreamable_v<Value_T>` is
false. -/
def to_s {α : Type} (stream_insert : Option (α → String)) (self : List α) :
    Result String (List α) :=
  match stream_insert with
  | some render =>
    let finish := if self.length > 1000 then 1000 else self.length
    Result.ok (to_s.loop render (self.take finish) 0 "[" ++ "]") self
  | none => Result.ok "[Not printable]" self

end VectorHelper

/-! ## Further methods of `MapHelper`, `UnorderedMapHelper` and `PairHelper` -/

/-- The algorithm `std::find_if(first, last, pred)` as the distance of the
returned iterator from `first`: the position of the first element satisfying
`pred`, or the length of the range when there is none. -/
def std_find_if {α : Type} (pred : α → Bool) : List α → Nat
  | [] => 0
  | x :: rest => if pred x then 0 else std_find_if pred rest + 1

namespace MapHelper

/-- The method `copy` of `MapHelper::define_copyable_methods`. -/
def copy {K V : Type} (is_copy_constructible : Bool) (self : List (K × V)) :
    Result (List (K × V)) (List (K × V)) :=
  if is_copy_constructible then Result.ok self self
  else
    Result.raised
      (Exception.runtime_error "Cannot copy maps with non-copy constructible types") self

/-- The function `MapHelper::define_copyable_methods`. -/
def define_copyable_methods {K V : Type} (is_copy_constructible : Bool) :
    List (String × (List (K × V) → Result (List (K × V)) (List (K × V)))) :=
  if is_copy_constructible then [("copy", fun self => copy true self)]
  else [("copy", fun self => copy false self)]

/-- The method `value?` (alias `has_value`) of `MapHelper::define_comparable_methods`:
`std::find_if` over the entries on `pair.second == value`.  `operator_eq` is
the `operator==` of `Mapped_T`, or `none` when it is not comparable. -/
def value? {K V : Type} (operator_eq : Option (V → V → Bool)) (self : List (K × V))
    (value : V) : Result Bool (List (K × V)) :=
  match operator_eq with
  | some eq =>
    let it := std_find_if (fun (pair : K × V) => eq pair.2 value) self
    Result.ok (decide (it ≠ self.length)) self
  | none => Result.ok false self

/-- The loop of `MapHelper::define_enumerable`: for each entry in iteration
order the key is converted, then the value, and the block is called with the
two (`rb_yield_values2`). -/
def each.loop {VAL K V σ : Type} (key_to_ruby : To_Ruby VAL K) (mapped_to_ruby : To_Ruby VAL V)
    (rb_yield_values2 : σ → List VAL → σ) : List (K × V) → σ → σ
  | [], host => host
  | pair :: rest, host =>
    let key := key_to_ruby.convert pair.1
    let value := mapped_to_ruby.convert pair.2
    let argv := [key, value]
    each.loop key_to_ruby mapped_to_ruby rb_yield_values2 rest (rb_yield_values2 host argv)

/-- The method `each` of `MapHelper::define_enumerable`; it returns the map. -/
def each {VAL K V σ : Type} (key_to_ruby : To_Ruby VAL K) (mapped_to_ruby : To_Ruby VAL V)
    (rb_yield_values2 : σ → List VAL → σ) (self : List (K × V)) (host : σ) :
    Result (List (K × V)) (List (K × V) × σ) :=
  Result.ok self (self, each.loop key_to_ruby mapped_to_ruby rb_yield_values2 self host)

/-- The entries of a `std::map` are in strictly ascending key order: the
representation invariant of the container. -/
def ascending {K V : Type} [LT K] (self : List (K × V)) : Prop :=
  self.Pairwise (fun a b => a.1 < b.1)

end MapHelper

namespace UnorderedMapHelper

/-- The method `copy` of `UnorderedMapHelper::define_copyable_methods`. -/
def copy {K V : Type} (is_copy_constructible : Bool) (self : List (K × V)) :
    Result (List (K × V)) (List (K × V)) :=
  if is_copy_constructible then Result.ok self self
  else
    Result.raised
      (Exception.runtime_error "Cannot copy unordered_maps with non-copy constructible types")
      self

/-- The function `UnorderedMapHelper::define_copyable_methods`. -/
def define_copyable_methods {K V : Type} (is_copy_constructible : Bool) :
    List (String × (List (K × V) → Result (List (K × V)) (List (K × V)))) :=
  if is_copy_constructible then [("copy", fun self => copy true self)]
  else [("copy", fun self => copy false self)]

/-- The method `value?` of `UnorderedMapHelper::define_comparable_methods`. -/
def value? {K V : Type} (operator_eq : Option (V → V → Bool)) (self : List (K × V))
    (value : V) : Result Bool (List (K × V)) :=
  match operator_eq with
  | some eq =>
    let it := std_find_if (fun (pair : K × V) => eq pair.2 value) self
    Result.ok (decide (it ≠ self.length)) self
  | none => Result.ok false self

/-- The method `each` of `UnorderedMapHelper::define_enumerable`: the same loop
as for `std::map`, over the entries in the iteration order of the container. -/
def each {VAL K V σ : Type} (key_to_ruby : To_Ruby VAL K) (mapped_to_ruby : To_Ruby VAL V)
    (rb_yield_values2 : σ → List VAL → σ) (self : List (K × V)) (host : σ) :
    Result (List (K × V)) (List (K × V) × σ) :=
  Result.ok self
    (self, MapHelper.each.loop key_to_ruby mapped_to_ruby rb_yield_values2 self host)

end UnorderedMapHelper

namespace PairHelper

/-- The method `copy` of `PairHelper::define_copyable_methods`. -/
def copy {A B : Type} (is_copy_constructible : Bool) (self : A × B) :
    Result (A × B) (A × B) :=
  if is_copy_constructible then Result.ok self self
  else
    Result.raised
      (Exception.runtime_error "Cannot copy pair with non-copy constructible types") self

/-- The function `PairHelper::define_copyable_methods`. -/
def define_copyable_methods {A B : Type} (is_copy_constructible : Bool) :
    List (String × (A × B → Result (A × B) (A × B))) :=
  if is_copy_constructible then [("copy", fun self => copy true self)]
  else [("copy", fun self => copy false self)]

end PairHelper

/-! ## Smart pointers -/

/-- The smart pointer templates `SmartPointer_T` that `WrapperSmartPointer` is
instantiated with. -/
inductive SmartPointer_T where
  | unique_ptr
  | shared_ptr
  deriving DecidableEq, Repr

/-- The dynamic type of a `detail::Wrapper` object, with its members.
`WrapperSmartPointer<SmartPointer_T, T>` is the class of stl.hpp; its member
`data_` is a smart pointer, given by the address of the object it owns, `none`
when it is empty.  `W` is the type of the other wrapper classes, which
detail/Wrapper.hpp declares. -/
inductive Wrapper (W : Type) where
  | plain (wrapper : W)
  | WrapperSmartPointer (SmartPointer : SmartPointer_T) (T : type_index) (data_ : Option Nat)
  deriving DecidableEq, Repr

/-- The move constructor of a smart pointer, `data_(std::move(data))`: the new
pointer takes what `data` holds and `data` is left empty; the use count of the
object is not changed.  The result is the new pointer, `data` afterwards and
the use counts afterwards. -/
def smart_ptr_move (data : Option Nat) (use_count : Nat → Nat) :
    Option Nat × Option Nat × (Nat → Nat) :=
  (data, none, use_count)

/-- The constructor `WrapperSmartPointer(SmartPointer_T<Arg_Ts...>& data)`, whose
only effect is the member initializer `data_(std::move(data))`.  The result is
the wrapper, the argument `data` afterwards and the use counts afterwards. -/
def WrapperSmartPointer.construct {W : Type} (SmartPointer : SmartPointer_T)
    (T : type_index) (data : Option Nat) (use_count : Nat → Nat) :
    Wrapper W × Option Nat × (Nat → Nat) :=
  let moved := smart_ptr_move data use_count
  (Wrapper.WrapperSmartPointer SmartPointer T moved.1, moved.2.1, moved.2.2)

/-- The member function `WrapperSmartPointer::data()`. -/
def WrapperSmartPointer.data {W : Type} : Wrapper W → Option (Option Nat)
  | Wrapper.WrapperSmartPointer _ _ data_ => some data_
  | Wrapper.plain _ => none

/-- The expression `dynamic_cast<WrapperSmartPointer<SmartPointer_T, T>*>(wrapper)`:
the pointer itself when the dynamic type of the object is that class (no class
derives from it), and `nullptr` otherwise and for `nullptr`. -/
def dynamic_cast_WrapperSmartPointer {W : Type} (SmartPointer : SmartPointer_T)
    (T : type_index) : Option (Wrapper W) → Option (Wrapper W)
  | some (Wrapper.WrapperSmartPointer SmartPointer1 T1 data_) =>
    if SmartPointer1 = SmartPointer ∧ T1 = T then
      some (Wrapper.WrapperSmartPointer SmartPointer1 T1 data_)
    else none
  | some (Wrapper.plain _) => none
  | none => none

/-- The body shared by `From_Ruby<std::unique_ptr<T>&>::convert`,
`From_Ruby<std::shared_ptr<T>>::convert` and `From_Ruby<std::shared_ptr<T>&>::convert`,
which differ in `Wrapper_T` alone.  `getWrapper` is `detail::getWrapper`, which
detail/Wrapper.ipp defines; its argument `Data_Type<T>::ruby_data_type()` is
evaluated first and throws when `T` is not bound. -/
def From_Ruby_smart_ptr.convert {N W R : Type} (SmartPointer : SmartPointer_T)
    (host : Host N R)
    (getWrapper : VALUE N → Option rb_data_type_t → Except Exception (Option (Wrapper W)))
    (T : type_index) (value : VALUE N) (w : World N R) : Except Exception (Option Nat) :=
  match Data_Type.ruby_data_type host T w with
  | Except.error e => Except.error e
  | Except.ok rb_data_type =>
    match getWrapper value rb_data_type with
    | Except.error e => Except.error e
    | Except.ok wrapper =>
      match dynamic_cast_WrapperSmartPointer SmartPointer T wrapper with
      | none => Except.error (Exception.runtime_error "Invalid smart pointer wrapper")
      | some smartWrapper =>
        match WrapperSmartPointer.data smartWrapper with
        | some data_ => Except.ok data_
        | none => Except.error (Exception.runtime_error "Invalid smart pointer wrapper")

/-- The function `From_Ruby<std::unique_ptr<T>&>::convert`. -/
def From_Ruby_unique_ptr_ref.convert {N W R : Type} (host : Host N R)
    (getWrapper : VALUE N → Option rb_data_type_t → Except Exception (Option (Wrapper W)))
    (T : type_index) (value : VALUE N) (w : World N R) : Except Exception (Option Nat) :=
  From_Ruby_smart_ptr.convert SmartPointer_T.unique_ptr host getWrapper T value w

/-- The function `From_Ruby<std::shared_ptr<T>>::convert`. -/
def From_Ruby_shared_ptr.convert {N W R : Type} (host : Host N R)
    (getWrapper : VALUE N → Option rb_data_type_t → Except Exception (Option (Wrapper W)))
    (T : type_index) (value : VALUE N) (w : World N R) : Except Exception (Option Nat) :=
  From_Ruby_smart_ptr.convert SmartPointer_T.shared_ptr host getWrapper T value w

/-- The function `From_Ruby<std::shared_ptr<T>&>::convert`. -/
def From_Ruby_shared_ptr_ref.convert {N W R : Type} (host : Host N R)
    (getWrapper : VALUE N → Option rb_data_type_t → Except Exception (Option (Wrapper W)))
    (T : type_index) (value : VALUE N) (w : World N R) : Except Exception (Option Nat) :=
  From_Ruby_smart_ptr.convert SmartPointer_T.shared_ptr host getWrapper T value w

/-- Modelled from the spec: the function `detail::wrap<SmartPointer_T<T>, Wrapper_T>`
for a smart pointer wrapper (detail/Wrapper.ipp is not among the sources).
Ownership is transferred into a new SmartPointerOwned Wrapper: the Wrapper is
constructed from the handle `data`, which `wrap` has by reference, and it is
the payload of the new host object.  The conversions of `std::unique_ptr<T>`
and of `std::shared_ptr<T>` call the same template with the handle as an
lvalue, and a `std::unique_ptr` cannot be copied. -/
def wrap_smart_pointer {W : Type} (SmartPointer : SmartPointer_T) (T : type_index)
    (_klass : VALUE (Wrapper W)) (_rb_type : Option rb_data_type_t) (data : Option Nat)
    (_isOwner : Bool) (use_count : Nat → Nat) :
    VALUE (Wrapper W) × Option Nat × (Nat → Nat) :=
  let constructed := WrapperSmartPointer.construct SmartPointer T data use_count
  (VALUE.data constructed.1, constructed.2.1, constructed.2.2)

/-- The body shared by `To_Ruby<std::unique_ptr<T>>::convert` and
`To_Ruby<std::shared_ptr<T>>::convert`.  `figureType` is
`detail::TypeRegistry::figureType<T>`, applied to `*data`: dereferencing an
empty pointer is undefined.  The state is the handle `data` of the caller with
the use counts. -/
def To_Ruby_smart_ptr.convert {W : Type} (SmartPointer : SmartPointer_T)
    (figureType : type_index → Nat →
      Except Exception (VALUE (Wrapper W) × Option rb_data_type_t))
    (T : type_index) (data : Option Nat) (use_count : Nat → Nat) :
    Result (VALUE (Wrapper W)) (Option Nat × (Nat → Nat)) :=
  match data with
  | none => Result.undefined
  | some object =>
    match figureType T object with
    | Except.error e => Result.raised e (data, use_count)
    | Except.ok rubyTypeInfo =>
      let wrapped :=
        wrap_smart_pointer SmartPointer T rubyTypeInfo.1 rubyTypeInfo.2 data true use_count
      Result.ok wrapped.1 wrapped.2

/-- The function `To_Ruby<std::unique_ptr<T>>::convert`. -/
def To_Ruby_unique_ptr.convert {W : Type}
    (figureType : type_index → Nat →
      Except Exception (VALUE (Wrapper W) × Option rb_data_type_t))
    (T : type_index) (data : Option Nat) (use_count : Nat → Nat) :
    Result (VALUE (Wrapper W)) (Option Nat × (Nat → Nat)) :=
  To_Ruby_smart_ptr.convert SmartPointer_T.unique_ptr figureType T data use_count

/-- The function `To_Ruby<std::shared_ptr<T>>::convert`. -/
def To_Ruby_shared_ptr.convert {W : Type}
    (figureType : type_index → Nat →
      Except Exception (VALUE (Wrapper W) × Option rb_data_type_t))
    (T : type_index) (data : Option Nat) (use_count : Nat → Nat) :
    Result (VALUE (Wrapper W)) (Option Nat × (Nat → Nat)) :=
  To_Ruby_smart_ptr.convert SmartPointer_T.shared_ptr figureType T data use_count

/-! ## The ownership scenario of `test/test_Ownership.cpp` -/

/-- Modelled from the spec: the wrapper classes of detail/Wrapper.hpp (not among
the sources), by ownership mode.  `WrapperValue<T>` holds a value of its own
(Owned), `WrapperReference<T>` refers to a value it does not own (Borrowed),
and `WrapperPointer<T>` holds a pointer, Owned when `isOwner_` is set and
Borrowed otherwise.  `data_` is the address of the payload. -/
inductive PlainWrapper where
  | WrapperValue (data_ : Nat)
  | WrapperReference (data_ : Nat)
  | WrapperPointer (data_ : Nat) (isOwner_ : Bool)
  deriving DecidableEq, Repr

/-- Modelled from the spec: whether the Wrapper is Owned, that is, destroys its
payload when it is finalized. -/
def PlainWrapper.isOwned : PlainWrapper → Bool
  | PlainWrapper.WrapperValue _ => true
  | PlainWrapper.WrapperReference _ => false
  | PlainWrapper.WrapperPointer _ isOwner_ => isOwner_

/-- Modelled from the spec: the member function `Wrapper::get`, the address of
the payload. -/
def PlainWrapper.get : PlainWrapper → Nat
  | PlainWrapper.WrapperValue data_ => data_
  | PlainWrapper.WrapperReference data_ => data_
  | PlainWrapper.WrapperPointer data_ _ => data_

/-- The process state of the test: the static counters of `MyClass` (the
number of calls of each kind since the last `MyClass::reset`; the test keeps
them in `uint32_t`), the member `flag` of every live `MyClass` object by address,
the next address the allocator hands out, the static `Factory::instance_`
(`none` for `nullptr`), and the Wrappers of the host objects of class `MyClass`
that have not been freed, the latest first. -/
structure Ownership where
  constructorCalls : Nat
  copyConstructorCalls : Nat
  moveConstructorCalls : Nat
  destructorCalls : Nat
  methodCalls : Nat
  flag : Nat → Option Int
  next : Nat
  instance_ : Option Nat
  wrappers : List PlainWrapper

/-- The state of a process that has created no object. -/
def Ownership.start : Ownership where
  constructorCalls := 0
  copyConstructorCalls := 0
  moveConstructorCalls := 0
  destructorCalls := 0
  methodCalls := 0
  flag := fun _ => none
  next := 0
  instance_ := none
  wrappers := []

namespace MyClass

/-- The function `MyClass::reset`. -/
def reset (s : Ownership) : Ownership :=
  { s with
    constructorCalls := 0
    copyConstructorCalls := 0
    moveConstructorCalls := 0
    destructorCalls := 0
    methodCalls := 0 }

/-- The constructor `MyClass()` at the address `this`: `flag = 0` by the
default member initializer, then `constructorCalls++`. -/
def constructor (this : Nat) (s : Ownership) : Ownership :=
  { s with
    flag := fun a => if a = this then some 0 else s.flag a
    constructorCalls := s.constructorCalls + 1 }

/-- The copy constructor `MyClass(const MyClass& other)` at the address `this`:
`flag(other.flag)`, then `copyConstructorCalls++`. -/
def copy (this other : Nat) (s : Ownership) : Ownership :=
  { s with
    flag := fun a => if a = this then s.flag other else s.flag a
    copyConstructorCalls := s.copyConstructorCalls + 1 }

/-- The destructor `~MyClass()` of the object at the address `this`:
`destructorCalls++`, after which the object is not live. -/
def destructor (this : Nat) (s : Ownership) : Ownership :=
  { s with
    flag := fun a => if a = this then none else s.flag a
    destructorCalls := s.destructorCalls + 1 }

/-- The member function `MyClass::setFlag`. -/
def setFlag (this : Nat) (value : Int) (s : Ownership) : Ownership :=
  { s with flag := fun a => if a = this then some value else s.flag a }

/-- The expression `new MyClass()`: storage at a fresh address, then the
constructor.  The result is the pointer. -/
def new (s : Ownership) : Nat × Ownership :=
  (s.next, constructor s.next { s with next := s.next + 1 })

end MyClass

namespace Factory

/-- The function `Factory::reset`: `delete Factory::instance_` (nothing for
`nullptr`), then `Factory::instance_ = nullptr`. -/
def reset (s : Ownership) : Ownership :=
  let s1 :=
    match s.instance_ with
    | some object => MyClass.destructor object s
    | none => s
  { s1 with instance_ := none }

/-- The member function `Factory::transferPointer`. -/
def transferPointer (s : Ownership) : Nat × Ownership :=
  MyClass.new s

/-- The member function `Factory::instance` (the name is a keyword here). -/
def getInstance (s : Ownership) : Nat × Ownership :=
  match s.instance_ with
  | some object => (object, s)
  | none =>
    let created := MyClass.new s
    (created.1, { created.2 with instance_ := some created.1 })

/-- The member function `Factory::keepPointer`. -/
def keepPointer (s : Ownership) : Nat × Ownership :=
  getInstance s

/-- The member function `Factory::keepReference`, the reference as the address
of the object it refers to. -/
def keepReference (s : Ownership) : Nat × Ownership :=
  getInstance s

end Factory

/-- Modelled from the spec: the destructor of a Wrapper (detail/Wrapper.hpp is
not among the sources).  An Owned Wrapper destroys its payload and a Borrowed
Wrapper never does. -/
def PlainWrapper.destructor (wrapper : PlainWrapper) (s : Ownership) : Ownership :=
  if wrapper.isOwned then MyClass.destructor wrapper.get s else s

/-- The function `ruby_free_internal<T>` of Data_Type.ipp: `delete wrapper`. -/
def ruby_free_internal (wrapper : PlainWrapper) (s : Ownership) : Ownership :=
  PlainWrapper.destructor wrapper s

/-- Modelled from the spec: the conversion to a host object of a raw pointer
returned by a bound method (the converters of class types and
`NativeFunction` are not among the sources).  The new host object has a
Wrapper of the pointer, Owned when ownership is transferred (`isOwner`, the
default) and Borrowed with `Return(false)`. -/
def to_ruby_pointer (isOwner : Bool) (data : Nat) (s : Ownership) :
    PlainWrapper × Ownership :=
  (PlainWrapper.WrapperPointer data isOwner,
    { s with wrappers := PlainWrapper.WrapperPointer data isOwner :: s.wrappers })

/-- Modelled from the spec: the conversion to a host object of a reference
returned by a bound method (the converters of class types and
`NativeFunction` are not among the sources).  With `Return(false)` the new
host object has a Borrowed Wrapper of the object referred to; otherwise, as
with the method `copy_reference` of the test, it has an Owned Wrapper of a new
object copy-constructed from it. -/
def to_ruby_reference (isOwner : Bool) (data : Nat) (s : Ownership) :
    PlainWrapper × Ownership :=
  if isOwner then
    let s1 := MyClass.copy s.next data { s with next := s.next + 1 }
    (PlainWrapper.WrapperValue s.next,
      { s1 with wrappers := PlainWrapper.WrapperValue s.next :: s1.wrappers })
  else
    (PlainWrapper.WrapperReference data,
      { s with wrappers := PlainWrapper.WrapperReference data :: s.wrappers })

/-- Modelled from the spec: the host call `GC.start` when no host object of
class `MyClass` is referenced any more: the collector finalizes every one of
them, calling `ruby_free_internal` on its Wrapper. -/
def GC_start (s : Ownership) : Ownership :=
  s.wrappers.foldl (fun s wrapper => ruby_free_internal wrapper s) { s with wrappers := [] }

namespace Ownership

/-- The methods of `Factory` as `SETUP(Ownership)` binds them:
`transfer_pointer` with no annotation. -/
def transfer_pointer (s : Ownership) : PlainWrapper × Ownership :=
  let returned := Factory.transferPointer s
  to_ruby_pointer true returned.1 returned.2

/-- The method `keep_pointer`, bound with `Return(false)`. -/
def keep_pointer (s : Ownership) : PlainWrapper × Ownership :=
  let returned := Factory.keepPointer s
  to_ruby_pointer false returned.1 returned.2

/-- The method `copy_reference`, bound with no annotation. -/
def copy_reference (s : Ownership) : PlainWrapper × Ownership :=
  let returned := Factory.keepReference s
  to_ruby_reference true returned.1 returned.2

/-- The method `keep_reference`, bound with `Return(false)`. -/
def keep_reference (s : Ownership) : PlainWrapper × Ownership :=
  let returned := Factory.keepReference s
  to_ruby_reference false returned.1 returned.2

/-- The method `set_flag` of `MyClass` called on a host object: `setFlag` on the
payload of its Wrapper. -/
def set_flag (my_class : PlainWrapper) (value : Int) (s : Ownership) : Ownership :=
  MyClass.setFlag my_class.get value s

/-- The loop `count.times do |i| my_class = factory.method; my_class.set_flag(i) end`
of the scripts of the test, from the iteration `i` on. -/
def times (method : Ownership → PlainWrapper × Ownership) : Nat → Nat → Ownership → Ownership
  | 0, _, s => s
  | count + 1, i, s =>
    let called := method s
    times method count (i + 1) (set_flag called.1 (i : Int) called.2)

/-- The body of a test case with `n` in place of 10: `Factory::reset()`,
`MyClass::reset()`, then the script, which runs the loop and `GC.start`. -/
def testcase (method : Ownership → PlainWrapper × Ownership) (n : Nat) (s : Ownership) :
    Ownership :=
  GC_start (times method n 0 (MyClass.reset (Factory.reset s)))

/-- The test case `TransferPointer`. -/
def TransferPointer (n : Nat) (s : Ownership) : Ownership := testcase transfer_pointer n s

/-- The test case `KeepPointer`. -/
def KeepPointer (n : Nat) (s : Ownership) : Ownership := testcase keep_pointer n s

/-- The test case `KeepReference`. -/
def KeepReference (n : Nat) (s : Ownership) : Ownership := testcase keep_reference n s

/-- The test case `CopyReference`. -/
def CopyReference (n : Nat) (s : Ownership) : Ownership := testcase copy_reference n s

/-- The number of Owned Wrappers among the Wrappers not yet freed. -/
def owned (s : Ownership) : Nat := (s.wrappers.filter PlainWrapper.isOwned).length

end Ownership


/-! ## Deletion and enumeration of the maps -/

namespace MapHelper

/-- The call `self.erase(iter)` on a `std::map` for the iterator that
`self.find(key)` returned: the entry at the iterator is removed and the other
entries stay as they are, in order.  The search is that of `find`. -/
def erase {K V : Type} [LT K] [DecidableRel (fun (a b : K) => a < b)] :
    List (K × V) → K → List (K × V)
  | [], _ => []
  | (k, v) :: rest, key =>
    if k < key then (k, v) :: erase rest key
    else if key < k then (k, v) :: rest
    else rest

/-- The method `delete` of `MapHelper::define_modify_methods`. -/
def delete {K V : Type} [LT K] [DecidableRel (fun (a b : K) => a < b)]
    (self : List (K × V)) (key : K) : Result (Option V) (List (K × V)) :=
  match find self key with
  | some iter =>
    let result := iter.2
    Result.ok (some result) (erase self key)
  | none => Result.ok none self

/-- The method `include?` (alias `has_key`) of `MapHelper::define_access_methods`:
`self.find(key) != self.end()`. -/
def include? {K V : Type} [LT K] [DecidableRel (fun (a b : K) => a < b)]
    (self : List (K × V)) (key : K) : Result Bool (List (K × V)) :=
  Result.ok (find self key).isSome self

/-- The method `keys` of `MapHelper::define_access_methods`: `std::transform`
over the entries in iteration order, appending `pair.first` to the result. -/
def keys {K V : Type} (self : List (K × V)) : Result (List K) (List (K × V)) :=
  Result.ok (self.map (fun pair => pair.1)) self

/-- The method `values` of `MapHelper::define_access_methods`: `std::transform`
over the entries in iteration order, appending `pair.second` to the result. -/
def values {K V : Type} (self : List (K × V)) : Result (List V) (List (K × V)) :=
  Result.ok (self.map (fun pair => pair.2)) self

end MapHelper

namespace UnorderedMapHelper

/-- The call `self.erase(iter)` on a `std::unordered_map` for the iterator that
`self.find(key)` returned: the entry at the iterator is removed. -/
def erase {K V : Type} [DecidableEq K] : List (K × V) → K → List (K × V)
  | [], _ => []
  | (k, v) :: rest, key => if k = key then rest else (k, v) :: erase rest key

/-- The method `delete` of `UnorderedMapHelper::define_modify_methods`. -/
def delete {K V : Type} [DecidableEq K]
    (self : List (K × V)) (key : K) : Result (Option V) (List (K × V)) :=
  match find self key with
  | some iter =>
    let result := iter.2
    Result.ok (some result) (erase self key)
  | none => Result.ok none self

/-- The entries of a `std::unordered_map` have pairwise different keys: the
representation invariant of the container. -/
def distinct {K V : Type} (self : List (K × V)) : Prop :=
  self.Pairwise (fun a b => a.1 ≠ b.1)

end UnorderedMapHelper

end Rice

/-! ## Helper lemmas -/

namespace Rice

theorem toSize_T_of_range (x : Int) (h0 : 0 ≤ x) (h1 : x < 2 ^ 64) :
    ((toSize_T x : Nat) : Int) = x := by
  unfold toSize_T
  rw [Int.emod_eq_of_lt h0 h1]
  exact Int.toNat_of_nonneg h0

theorem toSize_T_natCast (n : Nat) (h1 : n < 2 ^ 64) : toSize_T (n : Int) = n := by
  have h := toSize_T_of_range (n : Int) (by omega) (by exact_mod_cast h1)
  exact_mod_cast h

theorem toDifference_T_of_range (x : Int) (h0 : -(2 ^ 63) ≤ x) (h1 : x < 2 ^ 63) :
    toDifference_T x = x := by
  unfold toDifference_T
  rw [Int.emod_eq_of_lt (by omega) (by omega)]
  omega

theorem toDifference_T_size (N : Nat) (hmax : N ≤ vector_max_size) :
    toDifference_T (N : Int) = N := by
  have hmax1 : N < 2 ^ 63 := by unfold vector_max_size at hmax; omega
  exact toDifference_T_of_range _ (by omega) (by omega)

namespace VectorHelper

theorem normalizeIndex_nonneg (size : Nat) (index : Int) (b : Bool) (h : 0 ≤ index) :
    normalizeIndex size index b =
      if b = true ∧ index ≥ toDifference_T (size : Int) then
        Outcome.raised (Exception.out_of_range ("Invalid index: " ++ toString index))
      else Outcome.value index := by
  unfold normalizeIndex
  have h1 : ¬ index < 0 := by omega
  simp [h1]

theorem normalizeIndex_neg (N : Nat) (i : Int) (b : Bool) (hN : 1 ≤ N)
    (hmax : N ≤ vector_max_size) (hneg : i < 0) (hmin : -(2 ^ 63) < i) :
    normalizeIndex N i b =
      Outcome.value ((if i.natAbs % N ≠ 0 then N - i.natAbs % N else 0 : Nat) : Int) := by
  have hmax1 : N < 2 ^ 63 := by unfold vector_max_size at hmax; omega
  have habs : toSize_T (-i) = i.natAbs := by
    have h := toSize_T_of_range (-i) (by omega) (by omega)
    omega
  have hr : i.natAbs % N < N := Nat.mod_lt _ (by omega)
  have hsz : toDifference_T (N : Int) = N := toDifference_T_size N hmax
  unfold normalizeIndex
  rw [habs]
  generalize i.natAbs % N = r at hr
  have h1 : toDifference_T (r : Int) = r := toDifference_T_of_range _ (by omega) (by omega)
  have hne : i ≠ -(2 ^ 63) := by omega
  have hN0 : N ≠ 0 := by omega
  simp only [hneg, hne, hN0, if_true, if_false, h1, hsz]
  clear habs hne hmin hneg hmax h1 hsz
  by_cases hr0 : r = 0
  · subst hr0
    simp [toSize_T, toDifference_T]
    omega
  · have hpos : (r : Int) > 0 := by omega
    have e1 : toSize_T (r : Int) = r := toSize_T_natCast r (by omega)
    have e2 : toSize_T ((N : Int) - (r : Int)) = N - r := by
      have h := toSize_T_of_range ((N : Int) - r) (by omega) (by omega)
      omega
    have e3 : toDifference_T ((N - r : Nat) : Int) = ((N - r : Nat) : Int) :=
      toDifference_T_of_range _ (by omega) (by omega)
    simp only [hpos, if_true, e1, e2, e3, hr0, ne_eq, not_false_eq_true]
    have : ¬ (((N - r : Nat) : Int) < 0 ∨ ((N - r : Nat) : Int) ≥ N) := by
      clear e1 e2 e3 hmax1
      omega
    rw [if_neg (fun h => this h.2)]

theorem wrap_lt (N : Nat) (i : Int) (hN : 1 ≤ N) :
    (if i.natAbs % N ≠ 0 then N - i.natAbs % N else 0 : Nat) < N := by
  split <;> omega

theorem brackets_of_value {α : Type} (self : List α) (i : Int) (p : Nat)
    (hp : p < self.length) (hmax : self.length ≤ vector_max_size)
    (h : normalizeIndex self.length i false = Outcome.value (p : Int)) :
    brackets self i = Result.ok (some (self.get ⟨p, hp⟩)) self := by
  have hmax1 : self.length < 2 ^ 63 := by unfold vector_max_size at hmax; omega
  have hsz := toDifference_T_size self.length hmax
  have e1 : toSize_T (p : Int) = p := toSize_T_natCast p (by omega)
  have hc : ¬ ((p : Int) < 0 ∨ (p : Int) ≥ (self.length : Int)) := by omega
  unfold brackets
  rw [h]
  simp only [hsz, e1, if_neg hc]
  rw [List.getElem?_eq_getElem hp]
  rfl

theorem brackets_assign_of_value {α : Type} (self : List α) (i : Int) (e : α) (p : Nat)
    (hp : p < self.length) (hmax : self.length ≤ vector_max_size)
    (h : normalizeIndex self.length i true = Outcome.value (p : Int)) :
    brackets_assign self i e = Result.ok e (self.set p e) := by
  have hmax1 : self.length < 2 ^ 63 := by unfold vector_max_size at hmax; omega
  have e1 : toSize_T (p : Int) = p := toSize_T_natCast p (by omega)
  unfold brackets_assign
  rw [h]
  simp only [e1, if_pos hp]

theorem insert_of_value {α : Type} (self : List α) (i : Int) (e : α) (p : Nat)
    (hp : p < self.length)
    (h : normalizeIndex self.length i true = Outcome.value (p : Int)) :
    insert self i e =
      Result.ok (self.take p ++ e :: self.drop p) (self.take p ++ e :: self.drop p) := by
  have hc : 0 ≤ (p : Int) ∧ (p : Int) ≤ (self.length : Int) := by omega
  unfold insert
  rw [h]
  simp only [if_pos hc, Int.toNat_ofNat]

theorem normalizeIndex_past_end (N : Nat) (i : Int) (hi : (N : Int) ≤ i)
    (hrange : i < 2 ^ 63) :
    toDifference_T (N : Int) = N
      ∧ normalizeIndex N i false = Outcome.value i
      ∧ normalizeIndex N i true =
          Outcome.raised (Exception.out_of_range ("Invalid index: " ++ toString i)) := by
  have hsz : toDifference_T (N : Int) = N :=
    toDifference_T_of_range _ (by omega) (by omega)
  have h0 : (0 : Int) ≤ i := by omega
  have hf := normalizeIndex_nonneg N i false h0
  have ht := normalizeIndex_nonneg N i true h0
  rw [hsz] at hf ht
  have hge : i ≥ (N : Int) := hi
  rw [if_neg (fun h => Bool.false_ne_true h.1)] at hf
  rw [if_pos ⟨rfl, hge⟩] at ht
  exact ⟨hsz, hf, ht⟩

theorem brackets_past_end {α : Type} (self : List α) (i : Int)
    (hi : (self.length : Int) ≤ i) (hrange : i < 2 ^ 63) :
    brackets self i = Result.ok none self := by
  obtain ⟨hsz, hf, _⟩ := normalizeIndex_past_end self.length i hi hrange
  have hge : i ≥ (self.length : Int) := hi
  unfold brackets
  rw [hf, hsz]
  simp only [hge, or_true, if_true]

theorem brackets_assign_past_end {α : Type} (self : List α) (i : Int) (e : α)
    (hi : (self.length : Int) ≤ i) (hrange : i < 2 ^ 63) :
    brackets_assign self i e =
      Result.raised (Exception.out_of_range ("Invalid index: " ++ toString i)) self := by
  obtain ⟨_, _, ht⟩ := normalizeIndex_past_end self.length i hi hrange
  unfold brackets_assign
  rw [ht]

theorem insert_past_end {α : Type} (self : List α) (i : Int) (e : α)
    (hi : (self.length : Int) ≤ i) (hrange : i < 2 ^ 63) :
    insert self i e =
      Result.raised (Exception.out_of_range ("Invalid index: " ++ toString i)) self := by
  obtain ⟨_, _, ht⟩ := normalizeIndex_past_end self.length i hi hrange
  unfold insert
  rw [ht]

end VectorHelper

end Rice

/-! ## Vector indexing -/

namespace Rice

namespace VectorHelper

/-- C1: for a vector size `N` with `1 ≤ N` (at most `max_size`) and a negative
index `i` above the minimum `Difference_T`, `normalizeIndex N i` returns
`N - (|i| mod N)` when `|i| mod N ≠ 0` and `0` otherwise, a position in
`[0, N - 1]`; `-1` resolves to `N - 1` and `-N` to `0`; and for `-N ≤ i < 0`
the read `[]` returns the element at position `N + i`. -/
theorem normalizeIndex_negative (N : Nat) (i : Int) (hN : 1 ≤ N)
    (hmax : N ≤ vector_max_size) (hneg : i < 0) (hmin : -(2 ^ 63) < i) :
    normalizeIndex N i false =
        Outcome.value ((if i.natAbs % N ≠ 0 then N - i.natAbs % N else 0 : Nat) : Int)
      ∧ (if i.natAbs % N ≠ 0 then N - i.natAbs % N else 0 : Nat) ≤ N - 1
      ∧ normalizeIndex N (-1) false = Outcome.value ((N : Int) - 1)
      ∧ normalizeIndex N (-(N : Int)) false = Outcome.value 0
      ∧ ∀ {α : Type} (self : List α), self.length = N → -(N : Int) ≤ i →
          ∃ x, self[(N + i).toNat]? = some x ∧
            brackets self i = Result.ok (some x) self := by
  have hmax1 : N < 2 ^ 63 := by unfold vector_max_size at hmax; omega
  refine ⟨normalizeIndex_neg N i false hN hmax hneg hmin, ?_, ?_, ?_, ?_⟩
  · have := wrap_lt N i hN
    omega
  · rw [normalizeIndex_neg N (-1) false hN hmax (by omega) (by omega)]
    have h1 : (-1 : Int).natAbs = 1 := rfl
    rw [h1]
    by_cases hN1 : N = 1
    · subst hN1
      simp
    · have h2 : 1 % N = 1 := Nat.mod_eq_of_lt (by omega)
      rw [h2]
      simp only [ne_eq, one_ne_zero, not_false_eq_true, if_true]
      congr 1
      omega
  · rw [normalizeIndex_neg N (-(N : Int)) false hN hmax (by omega) (by omega)]
    have h1 : (-(N : Int)).natAbs = N := by omega
    rw [h1]
    simp
  · intro α self hlen hlow
    subst hlen
    have hlt := wrap_lt self.length i hN
    have hb := brackets_of_value self i _ hlt hmax
      (normalizeIndex_neg self.length i false hN hmax hneg hmin)
    have hpos : (if i.natAbs % self.length ≠ 0 then self.length - i.natAbs % self.length
        else 0 : Nat) = ((self.length : Int) + i).toNat := by
      clear hb hlt hmax hmax1 hmin
      by_cases hfull : i.natAbs = self.length
      · rw [hfull]
        simp only [Nat.mod_self, ne_eq, not_true_eq_false, if_false]
        omega
      · have h2 : i.natAbs % self.length = i.natAbs := Nat.mod_eq_of_lt (by omega)
        rw [h2]
        have h3 : i.natAbs ≠ 0 := by omega
        simp only [ne_eq, h3, not_false_eq_true, if_true]
        omega
    refine ⟨self.get ⟨_, hlt⟩, ?_, hb⟩
    rw [← hpos, List.getElem?_eq_getElem hlt]
    rfl

/-- Witness for C1: size `3`, index `-2`. -/
theorem normalizeIndex_negative_witness :
    normalizeIndex 3 (-2) false = Outcome.value 1 ∧
      brackets [10, 20, 30] (-2) = Result.ok (some 20) [10, 20, 30] := by
  have h := normalizeIndex_negative 3 (-2) (by decide) (by decide) (by decide) (by decide)
  refine ⟨by decide, ?_⟩
  obtain ⟨x, hx, hb⟩ := h.2.2.2.2 [10, 20, 30] rfl (by decide)
  rw [hb]
  have : x = 20 := by
    have h2 : ([10, 20, 30] : List Nat)[((3 : Nat) + (-2 : Int)).toNat]? = some 20 := by decide
    rw [h2] at hx
    exact (Option.some.inj hx).symm
  rw [this]

/-- C2: for a vector of size `N` and an index `i ≥ N`, the read `[]` returns
absent without raising, while `[]=` and `insert` raise `std::out_of_range` and
leave the vector unchanged; `insert` at `i = N` is included, so `insert(0, e)`
on the empty vector raises. -/
theorem index_at_or_past_end {α : Type} (self : List α) (i : Int) (e : α)
    (hi : (self.length : Int) ≤ i) (hrange : i < 2 ^ 63) :
    brackets self i = Result.ok none self
      ∧ brackets_assign self i e =
          Result.raised (Exception.out_of_range ("Invalid index: " ++ toString i)) self
      ∧ insert self i e =
          Result.raised (Exception.out_of_range ("Invalid index: " ++ toString i)) self
      ∧ insert ([] : List α) 0 e =
          Result.raised (Exception.out_of_range ("Invalid index: " ++ toString (0 : Int))) [] := by
  exact ⟨brackets_past_end self i hi hrange, brackets_assign_past_end self i e hi hrange,
    insert_past_end self i e hi hrange,
    insert_past_end [] 0 e (le_refl _) (by norm_num)⟩

/-- Witness for C2: size `3`, index `3`. -/
theorem index_at_or_past_end_witness :
    brackets [10, 20, 30] 3 = Result.ok none [10, 20, 30]
      ∧ brackets_assign [10, 20, 30] 3 7 =
          Result.raised (Exception.out_of_range "Invalid index: 3") [10, 20, 30]
      ∧ insert [10, 20, 30] 3 7 =
          Result.raised (Exception.out_of_range "Invalid index: 3") [10, 20, 30] :=
  have h := index_at_or_past_end [10, 20, 30] 3 7 (by decide) (by decide)
  ⟨h.1, h.2.1, h.2.2.1⟩

/-- Counterexample to C3: on a vector of size `3` the index `-4` is below `-3`,
yet the read returns the element at position `2`, and `[]=` and `insert` act at
position `2` without raising. -/
theorem index_below_minus_size_counterexample :
    brackets [10, 20, 30] (-4) = Result.ok (some 30) [10, 20, 30]
      ∧ brackets_assign [10, 20, 30] (-4) 7 = Result.ok 7 [10, 20, 7]
      ∧ insert [10, 20, 30] (-4) 7 = Result.ok [10, 20, 7, 30] [10, 20, 7, 30] := by
  decide

/-- C3 (amended): for a vector of size `N ≥ 1` and an index `i < -N` above the
minimum `Difference_T`, the index wraps around to the position
`p = N - (|i| mod N)` (or `0` when `|i| mod N = 0`), which is in range: the read
`[]` returns the element at `p`, `[]=` assigns at `p` and `insert` inserts
before `p`; none of them raises. -/
theorem index_below_minus_size_wraps {α : Type} (self : List α) (i : Int) (e : α)
    (hN : 1 ≤ self.length) (hmax : self.length ≤ vector_max_size)
    (hlow : i < -(self.length : Int)) (hmin : -(2 ^ 63) < i) :
    ∃ (p : Nat) (hp : p < self.length),
      p = (if i.natAbs % self.length ≠ 0 then self.length - i.natAbs % self.length else 0)
      ∧ brackets self i = Result.ok (some (self.get ⟨p, hp⟩)) self
      ∧ brackets_assign self i e = Result.ok e (self.set p e)
      ∧ insert self i e =
          Result.ok (self.take p ++ e :: self.drop p) (self.take p ++ e :: self.drop p) := by
  have hneg : i < 0 := by omega
  have hlt := wrap_lt self.length i hN
  refine ⟨_, hlt, rfl, ?_, ?_, ?_⟩
  · exact brackets_of_value self i _ hlt hmax
      (normalizeIndex_neg self.length i false hN hmax hneg hmin)
  · exact brackets_assign_of_value self i e _ hlt hmax
      (normalizeIndex_neg self.length i true hN hmax hneg hmin)
  · exact insert_of_value self i e _ hlt
      (normalizeIndex_neg self.length i true hN hmax hneg hmin)

/-- Witness for C3 (amended): size `3`, index `-5` wraps to position `1`. -/
theorem index_below_minus_size_wraps_witness :
    ∃ (p : Nat) (hp : p < [10, 20, 30].length),
      p = (if (-5 : Int).natAbs % [10, 20, 30].length ≠ 0
            then [10, 20, 30].length - (-5 : Int).natAbs % [10, 20, 30].length else 0)
      ∧ brackets [10, 20, 30] (-5) = Result.ok (some ([10, 20, 30].get ⟨p, hp⟩)) [10, 20, 30]
      ∧ brackets_assign [10, 20, 30] (-5) 7 = Result.ok 7 ([10, 20, 30].set p 7)
      ∧ insert [10, 20, 30] (-5) 7 =
          Result.ok ([10, 20, 30].take p ++ 7 :: [10, 20, 30].drop p)
            ([10, 20, 30].take p ++ 7 :: [10, 20, 30].drop p) :=
  index_below_minus_size_wraps [10, 20, 30] (-5) 7 (by decide) (by decide) (by decide)
    (by decide)

/-- C4 (failing input): on the empty vector the read `[]` at index `-1` takes
`(-index) % size` with `size == 0`, which is undefined behaviour; nothing is
returned. -/
theorem brackets_empty_negative_undefined :
    normalizeIndex 0 (-1) false = Outcome.undefined
      ∧ brackets ([] : List Nat) (-1) = Result.undefined := by
  decide

/-- C5 (failing input): `delete_at` dereferences `self.begin() + pos` without
a bounds check, so at `pos = size` (here `0` on the empty vector and `3` on a
vector of three) it is undefined behaviour; no exception is raised. -/
theorem delete_at_past_end_undefined :
    delete_at ([] : List Nat) 0 = Result.undefined
      ∧ delete_at [10, 20, 30] 3 = Result.undefined := by
  decide

end VectorHelper

end Rice

/-! ## Map lookup and store -/

namespace Rice

theorem MapHelper.map_find_missing {K V : Type} [LinearOrder K] (m : List (K × V)) (k : K)
    (h : ∀ p ∈ m, p.1 ≠ k) : MapHelper.find m k = none := by
  induction m with
  | nil => rfl
  | cons p rest ih =>
    obtain ⟨k1, v1⟩ := p
    have hne : k1 ≠ k := h (k1, v1) (List.mem_cons_self _ _)
    have hrest : ∀ q ∈ rest, q.1 ≠ k := fun q hq => h q (List.mem_cons_of_mem _ hq)
    unfold MapHelper.find
    by_cases h1 : k1 < k
    · rw [if_pos h1]
      exact ih hrest
    · rw [if_neg h1]
      have h2 : k < k1 := lt_of_le_of_ne (not_lt.mp h1) (Ne.symm hne)
      rw [if_pos h2]

theorem MapHelper.map_find_subscript_assign {K V : Type} [LinearOrder K] (m : List (K × V))
    (k : K) (v : V) :
    ∃ k1, MapHelper.find (MapHelper.subscript_assign m k v) k = some (k1, v) := by
  induction m with
  | nil =>
    refine ⟨k, ?_⟩
    simp [MapHelper.subscript_assign, MapHelper.find]
  | cons p rest ih =>
    obtain ⟨k1, v1⟩ := p
    unfold MapHelper.subscript_assign
    by_cases h1 : k1 < k
    · rw [if_pos h1]
      unfold MapHelper.find
      rw [if_pos h1]
      exact ih
    · rw [if_neg h1]
      by_cases h2 : k < k1
      · rw [if_pos h2]
        refine ⟨k, ?_⟩
        unfold MapHelper.find
        rw [if_neg (lt_irrefl k), if_neg (lt_irrefl k)]
      · rw [if_neg h2]
        refine ⟨k1, ?_⟩
        unfold MapHelper.find
        rw [if_neg h1, if_neg h2]

theorem UnorderedMapHelper.unordered_find_missing {K V : Type} [DecidableEq K] (m : List (K × V))
    (k : K) (h : ∀ p ∈ m, p.1 ≠ k) : UnorderedMapHelper.find m k = none := by
  induction m with
  | nil => rfl
  | cons p rest ih =>
    obtain ⟨k1, v1⟩ := p
    have hne : k1 ≠ k := h (k1, v1) (List.mem_cons_self _ _)
    have hrest : ∀ q ∈ rest, q.1 ≠ k := fun q hq => h q (List.mem_cons_of_mem _ hq)
    unfold UnorderedMapHelper.find
    rw [if_neg hne]
    exact ih hrest

theorem UnorderedMapHelper.unordered_find_subscript_assign {K V : Type} [DecidableEq K]
    (m : List (K × V)) (k : K) (v : V) :
    ∃ k1, UnorderedMapHelper.find (UnorderedMapHelper.subscript_assign m k v) k
      = some (k1, v) := by
  induction m with
  | nil =>
    refine ⟨k, ?_⟩
    simp [UnorderedMapHelper.subscript_assign, UnorderedMapHelper.find]
  | cons p rest ih =>
    obtain ⟨k1, v1⟩ := p
    unfold UnorderedMapHelper.subscript_assign
    by_cases h1 : k1 = k
    · rw [if_pos h1]
      refine ⟨k1, ?_⟩
      unfold UnorderedMapHelper.find
      rw [if_pos h1]
    · rw [if_neg h1]
      unfold UnorderedMapHelper.find
      rw [if_neg h1]
      exact ih

/-- C6: for a map (`std::map` and `std::unordered_map` bindings) and a key `k`
that is not in it, the lookup `[]` returns absent, does not raise, and leaves
the map unchanged. -/
theorem map_lookup_missing_key {K V K2 V2 : Type} [LinearOrder K] [DecidableEq K2]
    (m : List (K × V)) (k : K) (u : List (K2 × V2)) (k2 : K2)
    (hm : ∀ p ∈ m, p.1 ≠ k) (hu : ∀ p ∈ u, p.1 ≠ k2) :
    MapHelper.brackets m k = Result.ok none m
      ∧ UnorderedMapHelper.brackets u k2 = Result.ok none u := by
  constructor
  · unfold MapHelper.brackets
    rw [MapHelper.map_find_missing m k hm]
  · unfold UnorderedMapHelper.brackets
    rw [UnorderedMapHelper.unordered_find_missing u k2 hu]

/-- Witness for C6: the key `2` is in neither map. -/
theorem map_lookup_missing_key_witness :
    MapHelper.brackets [((1 : Nat), "a"), (3, "c")] 2 = Result.ok none [(1, "a"), (3, "c")]
      ∧ UnorderedMapHelper.brackets [((3 : Nat), "c"), (1, "a")] 2
          = Result.ok none [(3, "c"), (1, "a")] :=
  map_lookup_missing_key [((1 : Nat), "a"), (3, "c")] 2 [((3 : Nat), "c"), (1, "a")] 2
    (by decide) (by decide)

/-- C7: for a map `m`, key `k` and value `v`, store (`[]=`) returns `v`, and a
following lookup `[]` of `k` on the resulting map returns `v`, whether or not
`k` was present before (for `std::map` and for `std::unordered_map`). -/
theorem map_store_then_lookup {K V K2 V2 : Type} [LinearOrder K] [DecidableEq K2]
    (m : List (K × V)) (k : K) (v : V) (u : List (K2 × V2)) (k2 : K2) (v2 : V2) :
    (∃ m1, MapHelper.brackets_assign m k v = Result.ok v m1
        ∧ MapHelper.brackets m1 k = Result.ok (some v) m1)
      ∧ (∃ u1, UnorderedMapHelper.brackets_assign u k2 v2 = Result.ok v2 u1
        ∧ UnorderedMapHelper.brackets u1 k2 = Result.ok (some v2) u1) := by
  constructor
  · refine ⟨MapHelper.subscript_assign m k v, rfl, ?_⟩
    obtain ⟨k1, h⟩ := MapHelper.map_find_subscript_assign m k v
    unfold MapHelper.brackets
    rw [h]
  · refine ⟨UnorderedMapHelper.subscript_assign u k2 v2, rfl, ?_⟩
    obtain ⟨k1, h⟩ := UnorderedMapHelper.unordered_find_subscript_assign u k2 v2
    unfold UnorderedMapHelper.brackets
    rw [h]

end Rice

/-! ## Variant conversion -/

namespace Rice

theorem From_Ruby_variant.convertInternal_accept {VALUE : Type} {Types : List Type}
    (from_ruby : (i : Fin Types.length) → From_Ruby VALUE (Types.get i))
    (I : Nat) (hI : I < Types.length) (value : VALUE)
    (hacc : (from_ruby ⟨I, hI⟩).is_convertible value = true) :
    From_Ruby_variant.convertInternal from_ruby I value =
      ((from_ruby ⟨I, hI⟩).convert value).map (fun x => (⟨⟨I, hI⟩, x⟩ : variant Types)) := by
  rw [From_Ruby_variant.convertInternal]
  simp only [hI, dif_pos, hacc, if_true]

theorem From_Ruby_variant.convertInternal_reject {VALUE : Type} {Types : List Type}
    (from_ruby : (i : Fin Types.length) → From_Ruby VALUE (Types.get i))
    (I : Nat) (hI : I < Types.length) (value : VALUE)
    (hrej : (from_ruby ⟨I, hI⟩).is_convertible value = false) :
    From_Ruby_variant.convertInternal from_ruby I value =
      From_Ruby_variant.convertInternal from_ruby (I + 1) value := by
  rw [From_Ruby_variant.convertInternal]
  simp only [hI, dif_pos, hrej, Bool.false_eq_true, if_false]

theorem From_Ruby_variant.convertInternal_end {VALUE : Type} {Types : List Type}
    (from_ruby : (i : Fin Types.length) → From_Ruby VALUE (Types.get i))
    (I : Nat) (hI : Types.length ≤ I) (value : VALUE) :
    From_Ruby_variant.convertInternal from_ruby I value =
      Except.error (Exception.runtime_error "Could not find converter for variant") := by
  rw [From_Ruby_variant.convertInternal]
  simp only [Nat.not_lt.mpr hI, dif_neg, not_false_eq_true]

theorem From_Ruby_variant.convertInternal_first {VALUE : Type} {Types : List Type}
    (from_ruby : (i : Fin Types.length) → From_Ruby VALUE (Types.get i))
    (value : VALUE) (I : Fin Types.length)
    (hacc : (from_ruby I).is_convertible value = true)
    (hrej : ∀ J : Fin Types.length, J < I → (from_ruby J).is_convertible value = false)
    (d S : Nat) (hd : S + d = I.val) :
    From_Ruby_variant.convertInternal from_ruby S value =
      ((from_ruby I).convert value).map (fun x => (⟨I, x⟩ : variant Types)) := by
  induction d generalizing S with
  | zero =>
    have hS : S = I.val := by omega
    subst hS
    exact From_Ruby_variant.convertInternal_accept from_ruby I.val I.isLt value hacc
  | succ d ih =>
    have hS : S < I.val := by omega
    have hlt : S < Types.length := lt_trans hS I.isLt
    rw [From_Ruby_variant.convertInternal_reject from_ruby S hlt value
      (hrej ⟨S, hlt⟩ (Fin.mk_lt_of_lt_val hS))]
    exact ih (S + 1) (by omega)

theorem From_Ruby_variant.convertInternal_none {VALUE : Type} {Types : List Type}
    (from_ruby : (i : Fin Types.length) → From_Ruby VALUE (Types.get i))
    (value : VALUE)
    (hrej : ∀ J : Fin Types.length, (from_ruby J).is_convertible value = false)
    (d S : Nat) (hd : S + d = Types.length) :
    From_Ruby_variant.convertInternal from_ruby S value =
      Except.error (Exception.runtime_error "Could not find converter for variant") := by
  induction d generalizing S with
  | zero => exact From_Ruby_variant.convertInternal_end from_ruby S (by omega) value
  | succ d ih =>
    have hlt : S < Types.length := by omega
    rw [From_Ruby_variant.convertInternal_reject from_ruby S hlt value (hrej ⟨S, hlt⟩)]
    exact ih (S + 1) (by omega)

theorem From_Ruby_variant.convertInternal_index {VALUE : Type} {Types : List Type}
    (from_ruby : (i : Fin Types.length) → From_Ruby VALUE (Types.get i))
    (value : VALUE) (r : variant Types) (d S : Nat) (hd : S + d = Types.length)
    (h : From_Ruby_variant.convertInternal from_ruby S value = Except.ok r) :
    (from_ruby r.1).is_convertible value = true := by
  induction d generalizing S with
  | zero =>
    rw [From_Ruby_variant.convertInternal_end from_ruby S (by omega) value] at h
    cases h
  | succ d ih =>
    have hlt : S < Types.length := by omega
    by_cases hacc : (from_ruby ⟨S, hlt⟩).is_convertible value = true
    · rw [From_Ruby_variant.convertInternal_accept from_ruby S hlt value hacc] at h
      cases hc : (from_ruby ⟨S, hlt⟩).convert value with
      | error e =>
        rw [hc] at h
        cases h
      | ok x =>
        rw [hc] at h
        have hr : (⟨⟨S, hlt⟩, x⟩ : variant Types) = r := Except.ok.inj h
        rw [← hr]
        exact hacc
    · rw [From_Ruby_variant.convertInternal_reject from_ruby S hlt value
        (Bool.eq_false_iff.mpr hacc)] at h
      exact ih (S + 1) (by omega) h

theorem To_Ruby_variant.convertIteratorFrom_held {VALUE : Type} {Types : List Type}
    (to_ruby : (i : Fin Types.length) → To_Ruby VALUE (Types.get i))
    (i : Fin Types.length) (x : Types.get i) (result : VALUE) (d S : Nat)
    (hd : S + d = i.val) :
    To_Ruby_variant.convertIteratorFrom to_ruby (⟨i, x⟩ : variant Types) result S =
      Except.ok ((to_ruby i).convert x) := by
  induction d generalizing S with
  | zero =>
    have hS : S = i.val := by omega
    subst hS
    rw [To_Ruby_variant.convertIteratorFrom]
    simp [holds_alternative, To_Ruby_variant.convertElement, variant_get, Except.map]
  | succ d ih =>
    have hS : S < i.val := by omega
    have hlt : S < Types.length := lt_trans hS i.isLt
    have hne : ¬ (i = ⟨S, hlt⟩) := by
      intro h
      have := congrArg Fin.val h
      simp at this
      omega
    rw [To_Ruby_variant.convertIteratorFrom]
    simp only [hlt, dif_pos, holds_alternative, hne, decide_False, Bool.false_eq_true, if_false]
    exact ih (S + 1) (by omega)

end Rice

namespace Rice

/-- C8: `From_Ruby<std::variant<Types...>>::convert` uses the converter of the
first alternative, in declaration order, whose `is_convertible` accepts the host
value, and returns that converter's result held in that alternative; when no
alternative accepts the host value it fails with the runtime error
"Could not find converter for variant". -/
theorem variant_from_ruby_first_accepting {VALUE : Type} {Types : List Type}
    (from_ruby : (i : Fin Types.length) → From_Ruby VALUE (Types.get i))
    (value : VALUE) :
    (∀ I : Fin Types.length, (from_ruby I).is_convertible value = true →
        (∀ J : Fin Types.length, J < I → (from_ruby J).is_convertible value = false) →
        From_Ruby_variant.convert from_ruby value =
          ((from_ruby I).convert value).map (fun x => (⟨I, x⟩ : variant Types)))
      ∧ ((∀ J : Fin Types.length, (from_ruby J).is_convertible value = false) →
        From_Ruby_variant.convert from_ruby value =
          Except.error (Exception.runtime_error "Could not find converter for variant")) := by
  constructor
  · intro I hacc hrej
    exact From_Ruby_variant.convertInternal_first from_ruby value I hacc hrej I.val 0
      (Nat.zero_add _)
  · intro hrej
    exact From_Ruby_variant.convertInternal_none from_ruby value hrej Types.length 0
      (Nat.zero_add _)

/-- Witness for C8: a string goes to the second alternative of `IntOrString`,
and `nil` is accepted by neither alternative. -/
theorem variant_from_ruby_first_accepting_witness :
    From_Ruby_variant.convert intOrString_from_ruby (HostValue.string "a") =
        Except.ok (⟨⟨1, Nat.one_lt_two⟩, "a"⟩ : variant IntOrString)
      ∧ From_Ruby_variant.convert intOrString_from_ruby HostValue.nil =
        Except.error (Exception.runtime_error "Could not find converter for variant") :=
  ⟨(variant_from_ruby_first_accepting intOrString_from_ruby (HostValue.string "a")).1
      ⟨1, Nat.one_lt_two⟩ rfl (by decide),
    (variant_from_ruby_first_accepting intOrString_from_ruby HostValue.nil).2 (by decide)⟩

/-- C9: for a variant value holding alternative `i`, `To_Ruby<std::variant<Types...>>::convert`
equals `To_Ruby<T_i>::convert` applied to the held value, whatever the position
of `i` in the declaration order. -/
theorem variant_to_ruby_held {VALUE : Type} {Types : List Type} (Qnil : VALUE)
    (to_ruby : (i : Fin Types.length) → To_Ruby VALUE (Types.get i))
    (i : Fin Types.length) (x : Types.get i) :
    To_Ruby_variant.convert Qnil to_ruby (⟨i, x⟩ : variant Types) =
      Except.ok ((to_ruby i).convert x) :=
  To_Ruby_variant.convertIteratorFrom_held to_ruby i x Qnil i.val 0 (Nat.zero_add _)

/-- Counterexample to C10: `std::variant<std::monostate>` has a single
alternative; its value converts to `nil`, and converting `nil` back fails with
"Could not find converter for variant" because `From_Ruby<std::monostate>::is_convertible`
rejects every host value. -/
theorem variant_monostate_round_trip_counterexample :
    To_Ruby_variant.convert HostValue.nil monostateOnly_to_ruby
        (⟨⟨0, Nat.zero_lt_one⟩, monostate.mk⟩ : variant MonostateOnly) =
        Except.ok HostValue.nil
      ∧ From_Ruby_variant.convert monostateOnly_from_ruby HostValue.nil =
        Except.error (Exception.runtime_error "Could not find converter for variant") := by
  constructor
  · exact To_Ruby_variant.convertIteratorFrom_held monostateOnly_to_ruby
      ⟨0, Nat.zero_lt_one⟩ monostate.mk HostValue.nil 0 0 rfl
  · exact From_Ruby_variant.convertInternal_none monostateOnly_from_ruby HostValue.nil
      (by decide) 1 0 rfl

/-- C10 (amended): for a variant type in which every alternative's `From_Ruby`
converter accepts and converts the host values its own `To_Ruby` converter
produces and rejects those produced for the other alternatives, converting a
value to a host value and back succeeds and yields a variant holding the same
alternative.  A `std::monostate` alternative is not such an alternative: it
converts to `nil`, but `From_Ruby<std::monostate>::is_convertible` rejects every
host value, and an alternative whose converter rejects every host value is
never the one a conversion from a host value holds. -/
theorem variant_round_trip {VALUE : Type} {Types : List Type} (Qnil : VALUE)
    (to_ruby : (i : Fin Types.length) → To_Ruby VALUE (Types.get i))
    (from_ruby : (i : Fin Types.length) → From_Ruby VALUE (Types.get i)) :
    ((∀ (i : Fin Types.length) (x : Types.get i),
          (from_ruby i).is_convertible ((to_ruby i).convert x) = true
            ∧ ∃ y, (from_ruby i).convert ((to_ruby i).convert x) = Except.ok y) →
        (∀ (i j : Fin Types.length) (x : Types.get i), i ≠ j →
          (from_ruby j).is_convertible ((to_ruby i).convert x) = false) →
        ∀ v : variant Types, ∃ h y,
          To_Ruby_variant.convert Qnil to_ruby v = Except.ok h
            ∧ From_Ruby_variant.convert from_ruby h = Except.ok (⟨v.1, y⟩ : variant Types))
      ∧ (∀ i : Fin Types.length, (∀ h, (from_ruby i).is_convertible h = false) →
          ∀ h r, From_Ruby_variant.convert from_ruby h = Except.ok r → r.1 ≠ i)
      ∧ (∀ h : VALUE, (From_Ruby_monostate : From_Ruby VALUE monostate).is_convertible h = false)
      ∧ (To_Ruby_monostate Qnil).convert monostate.mk = Qnil := by
  refine ⟨?_, ?_, fun _ => rfl, rfl⟩
  · intro hown hdisj v
    obtain ⟨i, x⟩ := v
    obtain ⟨hacc, y, hy⟩ := hown i x
    refine ⟨(to_ruby i).convert x, y, To_Ruby_variant.convertIteratorFrom_held to_ruby i x Qnil i.val 0 (Nat.zero_add _), ?_⟩
    have h := From_Ruby_variant.convertInternal_first from_ruby ((to_ruby i).convert x) i hacc
      (fun J hJ => hdisj i J x (ne_of_gt hJ)) i.val 0 (Nat.zero_add _)
    unfold From_Ruby_variant.convert
    rw [h, hy]
    rfl
  · intro i hi h r hr hri
    have hacc := From_Ruby_variant.convertInternal_index from_ruby h r Types.length 0
      (Nat.zero_add _) hr
    rw [hri, hi h] at hacc
    cases hacc

/-- Witness for C10 (amended): the integer alternative of `IntOrString` makes
the round trip. -/
theorem variant_round_trip_witness :
    ∃ h y,
      To_Ruby_variant.convert HostValue.nil intOrString_to_ruby
          (⟨⟨0, Nat.zero_lt_two⟩, (5 : Int)⟩ : variant IntOrString) = Except.ok h
        ∧ From_Ruby_variant.convert intOrString_from_ruby h =
          Except.ok (⟨⟨0, Nat.zero_lt_two⟩, y⟩ : variant IntOrString) :=
  (variant_round_trip HostValue.nil intOrString_to_ruby intOrString_from_ruby).1
    (by
      intro i x
      match i, x with
      | ⟨0, _⟩, x => exact ⟨rfl, x, rfl⟩
      | ⟨1, _⟩, x => exact ⟨rfl, x, rfl⟩)
    (by
      intro i j x hij
      match i, j, x, hij with
      | ⟨0, _⟩, ⟨0, _⟩, _, hij => exact absurd rfl hij
      | ⟨0, _⟩, ⟨1, _⟩, _, _ => rfl
      | ⟨1, _⟩, ⟨0, _⟩, _, _ => rfl
      | ⟨1, _⟩, ⟨1, _⟩, _, hij => exact absurd rfl hij)
    ⟨⟨0, Nat.zero_lt_two⟩, (5 : Int)⟩

end Rice

/-! ## Conversions of strings, optionals and containers -/

namespace Rice

theorem rb_ary_entry_append {N : Type} (pre post : List (VALUE N)) (e : VALUE N) :
    rb_ary_entry (VALUE.array (pre ++ e :: post)) pre.length = e := by
  induction pre with
  | nil => simp [rb_ary_entry]
  | cons a rest ih => simpa [rb_ary_entry] using ih

theorem set_append_fill {T : Type} (ypre fill : List T) (f y : T) :
    (ypre ++ f :: fill).set ypre.length y = ypre ++ y :: fill := by
  induction ypre with
  | nil => rfl
  | cons a rest ih => simp [List.set, ih]

theorem vectorFromArray.loop_spec {N T : Type} (from_ruby : From_Ruby (VALUE N) T)
    (post : List (VALUE N)) (ypost : List T)
    (h : List.Forall₂ (fun e y => from_ruby.convert e = Except.ok y) post ypost) :
    ∀ (pre : List (VALUE N)) (ypre fill : List T), pre.length = ypre.length →
      fill.length = post.length →
      vectorFromArray.loop from_ruby (VALUE.array (pre ++ post)) post.length pre.length
        (ypre ++ fill) = Except.ok (ypre ++ ypost) := by
  induction h with
  | nil =>
    intro pre ypre fill _ hfill
    have : fill = [] := List.eq_nil_of_length_eq_zero hfill
    subst this
    rfl
  | @cons e y post1 ypost1 hey _ ih =>
    intro pre ypre fill hpre hfill
    cases fill with
    | nil => simp at hfill
    | cons f fill1 =>
      have hlen : fill1.length = post1.length := by simpa using hfill
      have h1 := ih (pre ++ [e]) (ypre ++ [y]) fill1 (by simp [hpre]) hlen
      simp only [List.append_assoc, List.singleton_append, List.length_append,
        List.length_singleton] at h1
      simp only [List.length_cons, vectorFromArray.loop, rb_ary_entry_append, hey]
      rw [hpre, set_append_fill, ← hpre]
      exact h1

theorem vectorFromArray_spec {N T : Type} (T_default : T) (from_ruby : From_Ruby (VALUE N) T)
    (entries : List (VALUE N)) (ys : List T)
    (h : List.Forall₂ (fun e y => from_ruby.convert e = Except.ok y) entries ys) :
    vectorFromArray T_default from_ruby (VALUE.array entries) = Except.ok ys := by
  have h1 := vectorFromArray.loop_spec from_ruby entries ys h [] []
    (List.replicate entries.length T_default) rfl (by simp)
  simpa [vectorFromArray, rb_array_len] using h1

theorem forall₂_map_round_trip {N T : Type} (to_ruby : To_Ruby (VALUE N) T)
    (from_ruby : From_Ruby (VALUE N) T)
    (h : ∀ x, from_ruby.convert (to_ruby.convert x) = Except.ok x) (xs : List T) :
    List.Forall₂ (fun e y => from_ruby.convert e = Except.ok y) (xs.map to_ruby.convert) xs := by
  induction xs with
  | nil => exact List.Forall₂.nil
  | cons x rest ih => exact List.Forall₂.cons (h x) ih

theorem MapHelper.subscript_assign_last {K V : Type} [LinearOrder K] (acc : List (K × V))
    (k : K) (v : V) (h : ∀ p ∈ acc, p.1 < k) :
    MapHelper.subscript_assign acc k v = acc ++ [(k, v)] := by
  induction acc with
  | nil => rfl
  | cons p rest ih =>
    obtain ⟨k1, v1⟩ := p
    have h1 : k1 < k := h (k1, v1) (List.mem_cons_self _ _)
    unfold MapHelper.subscript_assign
    rw [if_pos h1, ih (fun q hq => h q (List.mem_cons_of_mem _ hq))]
    rfl

theorem MapFromHash.foreach_sorted {N K V : Type} [LinearOrder K]
    (to_key : To_Ruby (VALUE N) K) (to_value : To_Ruby (VALUE N) V)
    (from_key : From_Ruby (VALUE N) K) (from_value : From_Ruby (VALUE N) V)
    (hk : ∀ x, from_key.convert (to_key.convert x) = Except.ok x)
    (hv : ∀ x, from_value.convert (to_value.convert x) = Except.ok x)
    (m : List (K × V)) :
    ∀ acc : List (K × V), (∀ p ∈ acc, ∀ q ∈ m, p.1 < q.1) →
      List.Pairwise (fun a b : K × V => a.1 < b.1) m →
      MapFromHash.foreach from_key from_value
        (m.map (fun p => (to_key.convert p.1, to_value.convert p.2))) acc =
        Except.ok (acc ++ m) := by
  induction m with
  | nil =>
    intro acc _ _
    simp [MapFromHash.foreach]
  | cons q rest ih =>
    intro acc hacc hsorted
    obtain ⟨k, v⟩ := q
    have hlast := MapHelper.subscript_assign_last acc k v
      (fun p hp => hacc p hp (k, v) (List.mem_cons_self _ _))
    have hrest := List.Pairwise.of_cons hsorted
    have hhead : ∀ r ∈ rest, k < r.1 := fun r hr => List.rel_of_pairwise_cons hsorted hr
    simp only [List.map_cons, MapFromHash.foreach, MapFromHash.convertPair, hk, hv, hlast]
    rw [ih (acc ++ [(k, v)]) ?_ hrest]
    · simp
    · intro p hp r hr
      rcases List.mem_append.mp hp with hp1 | hp1
      · exact hacc p hp1 r (List.mem_cons_of_mem _ hr)
      · have : p = (k, v) := by simpa using hp1
        subst this
        exact hhead r hr

theorem UnorderedMapHelper.subscript_assign_new {K V : Type} [DecidableEq K]
    (acc : List (K × V)) (k : K) (v : V) (h : ∀ p ∈ acc, p.1 ≠ k) :
    UnorderedMapHelper.subscript_assign acc k v = acc ++ [(k, v)] := by
  induction acc with
  | nil => rfl
  | cons p rest ih =>
    obtain ⟨k1, v1⟩ := p
    have h1 : k1 ≠ k := h (k1, v1) (List.mem_cons_self _ _)
    unfold UnorderedMapHelper.subscript_assign
    rw [if_neg h1, ih (fun q hq => h q (List.mem_cons_of_mem _ hq))]
    rfl

theorem UnorderedMapFromHash.foreach_distinct {N K V : Type} [DecidableEq K]
    (to_key : To_Ruby (VALUE N) K) (to_value : To_Ruby (VALUE N) V)
    (from_key : From_Ruby (VALUE N) K) (from_value : From_Ruby (VALUE N) V)
    (hk : ∀ x, from_key.convert (to_key.convert x) = Except.ok x)
    (hv : ∀ x, from_value.convert (to_value.convert x) = Except.ok x)
    (m : List (K × V)) :
    ∀ acc : List (K × V), (∀ p ∈ acc, ∀ q ∈ m, p.1 ≠ q.1) →
      List.Pairwise (fun a b : K × V => a.1 ≠ b.1) m →
      UnorderedMapFromHash.foreach from_key from_value
        (m.map (fun p => (to_key.convert p.1, to_value.convert p.2))) acc =
        Except.ok (acc ++ m) := by
  induction m with
  | nil =>
    intro acc _ _
    simp [UnorderedMapFromHash.foreach]
  | cons q rest ih =>
    intro acc hacc hdistinct
    obtain ⟨k, v⟩ := q
    have hlast := UnorderedMapHelper.subscript_assign_new acc k v
      (fun p hp => hacc p hp (k, v) (List.mem_cons_self _ _))
    have hrest := List.Pairwise.of_cons hdistinct
    have hhead : ∀ r ∈ rest, k ≠ r.1 := fun r hr => List.rel_of_pairwise_cons hdistinct hr
    simp only [List.map_cons, UnorderedMapFromHash.foreach, UnorderedMapFromHash.convertPair,
      hk, hv, hlast]
    rw [ih (acc ++ [(k, v)]) ?_ hrest]
    · simp
    · intro p hp r hr
      rcases List.mem_append.mp hp with hp1 | hp1
      · exact hacc p hp1 r (List.mem_cons_of_mem _ hr)
      · have : p = (k, v) := by simpa using hp1
        subst this
        exact hhead r hr

end Rice

namespace Rice

theorem From_Ruby_string.convert_string {N : Type} (rb_obj_classname : VALUE N → String)
    (arg_ : Option (Arg (List (Fin 256)))) (bytes : List (Fin 256)) :
    From_Ruby_string.convert rb_obj_classname arg_ (VALUE.string bytes) = Except.ok bytes := by
  cases h : arg_.bind Arg.defaultValue <;>
    simp [From_Ruby_string.convert, VALUE.isQnil, h, rb_check_type_T_STRING, rb_type, RSTRING]

/-- C16: for a default-constructible element type, `From_Ruby<std::vector<T>>::convert(v)`
is the copy of the wrapped vector when `v` is a wrapped native object; the
vector of length `n` whose `i`-th element is `From_Ruby<T>::convert` of the
`i`-th entry when `v` is a host array of length `n`; the configured default
when `v` is nil and a default value is configured; and a `TypeError` for nil
without a default and for every other kind of host value. -/
theorem from_ruby_vector_cases {N T : Type} (T_default : T)
    (rb_obj_classname : VALUE N → String)
    (data_object_from_ruby : VALUE N → Except Exception (List T))
    (from_ruby : From_Ruby (VALUE N) T) (arg_ : Option (Arg (List T))) (value : VALUE N) :
    (rb_type value = ruby_value_type.T_DATA →
        From_Ruby_vector.convert true T_default rb_obj_classname data_object_from_ruby
          from_ruby arg_ value = data_object_from_ruby value)
      ∧ (∀ (entries : List (VALUE N)) (ys : List T), value = VALUE.array entries →
          List.Forall₂ (fun e y => from_ruby.convert e = Except.ok y) entries ys →
          From_Ruby_vector.convert true T_default rb_obj_classname data_object_from_ruby
            from_ruby arg_ value = Except.ok ys ∧ ys.length = entries.length)
      ∧ (∀ (arg : Arg (List T)) (d : List T), value = VALUE.Qnil → arg_ = some arg →
          arg.defaultValue = some d →
          From_Ruby_vector.convert true T_default rb_obj_classname data_object_from_ruby
            from_ruby arg_ value = Except.ok d)
      ∧ (value = VALUE.Qnil → (∀ arg, arg_ = some arg → arg.defaultValue = none) →
          From_Ruby_vector.convert true T_default rb_obj_classname data_object_from_ruby
            from_ruby arg_ value = Except.error (Exception.rb_eTypeError
              ("wrong argument type " ++ rb_obj_classname value ++ " (expected " ++ "std::vector" ++ ")")))
      ∧ (rb_type value ≠ ruby_value_type.T_DATA → rb_type value ≠ ruby_value_type.T_ARRAY →
          rb_type value ≠ ruby_value_type.T_NIL →
          From_Ruby_vector.convert true T_default rb_obj_classname data_object_from_ruby
            from_ruby arg_ value = Except.error (Exception.rb_eTypeError
              ("wrong argument type " ++ rb_obj_classname value ++ " (expected " ++ "std::vector" ++ ")"))) := by
  refine ⟨?_, ?_, ?_, ?_, ?_⟩
  · intro h
    unfold From_Ruby_vector.convert
    rw [h]
  · intro entries ys hv h
    subst hv
    refine ⟨?_, (List.Forall₂.length_eq h).symm⟩
    simp only [From_Ruby_vector.convert, rb_type, if_true]
    exact vectorFromArray_spec T_default from_ruby entries ys h
  · intro arg d hv harg hd
    subst hv harg
    simp [From_Ruby_vector.convert, rb_type, container_nil_case, hd]
  · intro hv hno
    subst hv
    have hb : arg_.bind Arg.defaultValue = none := by
      cases arg_ with
      | none => rfl
      | some arg => simpa using hno arg rfl
    simp [From_Ruby_vector.convert, rb_type, container_nil_case, hb,
      container_wrong_argument_type]
  · intro h1 h2 h3
    cases value <;> simp_all [From_Ruby_vector.convert, rb_type, container_wrong_argument_type]

/-- Witness for C16: the host array `[1, 2]` converts to the vector `[1, 2]`. -/
theorem from_ruby_vector_cases_witness :
    From_Ruby_vector.convert true (0 : Int) plain_classname (Data_Object.from_ruby plain_classname)
        int_from_ruby none (VALUE.array [VALUE.fixnum 1, VALUE.fixnum 2] : VALUE (List Int))
      = Except.ok [1, 2] :=
  ((from_ruby_vector_cases (0 : Int) plain_classname
      (Data_Object.from_ruby plain_classname) int_from_ruby none
      (VALUE.array [VALUE.fixnum 1, VALUE.fixnum 2])).2.1
    [VALUE.fixnum 1, VALUE.fixnum 2] [1, 2] rfl
    (List.Forall₂.cons rfl (List.Forall₂.cons rfl List.Forall₂.nil))).1

/-- C17: `From_Ruby<std::string>::convert(v)` returns the configured default
when `v` is nil and a default value is configured; otherwise it returns a copy
of the bytes of `v` when `v` is a host string, and raises `TypeError` when `v`
is not a host string: nil with no default configured, and a value that is
neither nil nor a string, whether or not a default is configured. -/
theorem from_ruby_string_cases {N : Type} (rb_obj_classname : VALUE N → String)
    (arg_ : Option (Arg (List (Fin 256)))) (value : VALUE N) :
    (∀ (arg : Arg (List (Fin 256))) (d : List (Fin 256)), value = VALUE.Qnil →
        arg_ = some arg → arg.defaultValue = some d →
        From_Ruby_string.convert rb_obj_classname arg_ value = Except.ok d)
      ∧ (∀ bytes : List (Fin 256), value = VALUE.string bytes →
        From_Ruby_string.convert rb_obj_classname arg_ value = Except.ok bytes)
      ∧ (value = VALUE.Qnil → (∀ arg, arg_ = some arg → arg.defaultValue = none) →
        From_Ruby_string.convert rb_obj_classname arg_ value =
          Except.error (Exception.rb_eTypeError
            ("wrong argument type " ++ rb_obj_classname value ++ " (expected String)")))
      ∧ (value ≠ VALUE.Qnil → rb_type value ≠ ruby_value_type.T_STRING →
        From_Ruby_string.convert rb_obj_classname arg_ value =
          Except.error (Exception.rb_eTypeError
            ("wrong argument type " ++ rb_obj_classname value ++ " (expected String)"))) := by
  refine ⟨?_, ?_, ?_, ?_⟩
  · intro arg d hv harg hd
    subst hv harg
    simp [From_Ruby_string.convert, VALUE.isQnil, hd]
  · intro bytes hv
    subst hv
    exact From_Ruby_string.convert_string rb_obj_classname arg_ bytes
  · intro hv hno
    subst hv
    have hb : arg_.bind Arg.defaultValue = none := by
      cases arg_ with
      | none => rfl
      | some arg => simpa using hno arg rfl
    simp [From_Ruby_string.convert, VALUE.isQnil, hb, rb_check_type_T_STRING, rb_type]
  · intro hv ht
    cases value with
    | Qnil => exact absurd rfl hv
    | string bytes => exact absurd rfl ht
    | fixnum n => simp [From_Ruby_string.convert, VALUE.isQnil, rb_check_type_T_STRING, rb_type]
    | array entries =>
      simp [From_Ruby_string.convert, VALUE.isQnil, rb_check_type_T_STRING, rb_type]
    | hash entries =>
      simp [From_Ruby_string.convert, VALUE.isQnil, rb_check_type_T_STRING, rb_type]
    | data wrapped =>
      simp [From_Ruby_string.convert, VALUE.isQnil, rb_check_type_T_STRING, rb_type]
    | klass id => simp [From_Ruby_string.convert, VALUE.isQnil, rb_check_type_T_STRING, rb_type]

/-- Witness for C17: nil with the default `"A"` (the byte 65) configured gives
the default, and an integer raises `TypeError` although a default is
configured. -/
theorem from_ruby_string_cases_witness :
    From_Ruby_string.convert plain_classname (some { defaultValue := some [65] })
        (VALUE.Qnil : VALUE Unit) = Except.ok [65]
      ∧ From_Ruby_string.convert plain_classname (some { defaultValue := some [65] })
          (VALUE.fixnum 3 : VALUE Unit)
        = Except.error (Exception.rb_eTypeError
            ("wrong argument type " ++ plain_classname (VALUE.fixnum 3 : VALUE Unit)
              ++ " (expected String)")) :=
  ⟨(from_ruby_string_cases plain_classname (some { defaultValue := some [65] })
      (VALUE.Qnil : VALUE Unit)).1
      { defaultValue := some [65] } [65] rfl rfl rfl,
    (from_ruby_string_cases plain_classname (some { defaultValue := some [65] })
      (VALUE.fixnum 3)).2.2.2 (by intro h; cases h) (by decide)⟩

/-- C18: for a native byte string `s` (of a size a `std::string` can have),
the empty string and strings with zero bytes included,
`From_Ruby<std::string>::convert(To_Ruby<std::string>::convert(s)) == s`. -/
theorem string_round_trip {N : Type} (rb_obj_classname : VALUE N → String)
    (arg_ : Option (Arg (List (Fin 256)))) (s : List (Fin 256))
    (hsize : s.length ≤ string_max_size) :
    To_Ruby_string.convert s = Except.ok (VALUE.string s : VALUE N)
      ∧ From_Ruby_string.convert rb_obj_classname arg_ (VALUE.string s : VALUE N)
        = Except.ok s := by
  have hmax : s.length < 2 ^ 63 := by unfold string_max_size at hsize; omega
  have hlen : toDifference_T (s.length : Int) = s.length :=
    toDifference_T_of_range _ (by omega) (by omega)
  constructor
  · unfold To_Ruby_string.convert rb_external_str_new
    rw [hlen]
    have hneg : ¬ ((s.length : Int) < 0) := by omega
    simp [hneg]
  · exact From_Ruby_string.convert_string rb_obj_classname arg_ s

/-- Witness for C18: the three bytes `65, 0, 66`. -/
theorem string_round_trip_witness :
    To_Ruby_string.convert [65, 0, 66] = Except.ok (VALUE.string [65, 0, 66] : VALUE Unit)
      ∧ From_Ruby_string.convert plain_classname none (VALUE.string [65, 0, 66] : VALUE Unit)
        = Except.ok [65, 0, 66] :=
  string_round_trip plain_classname none [65, 0, 66] (by decide)

/-- C19: `To_Ruby` of an absent optional is nil and `From_Ruby` of nil is the
absent optional; `To_Ruby` of a present optional holding `x` is
`To_Ruby<T>::convert(x)`, and `From_Ruby` of a host value `h` other than nil is
the present optional holding `From_Ruby<T>::convert(h)`. -/
theorem optional_conversion {N T : Type} (to_ruby : To_Ruby (VALUE N) T)
    (from_ruby : From_Ruby (VALUE N) T) :
    To_Ruby_optional.convert to_ruby none = VALUE.Qnil
      ∧ From_Ruby_optional.convert from_ruby VALUE.Qnil = Except.ok none
      ∧ (∀ x : T, To_Ruby_optional.convert to_ruby (some x) = to_ruby.convert x)
      ∧ (∀ h : VALUE N, h ≠ VALUE.Qnil →
        From_Ruby_optional.convert from_ruby h = (from_ruby.convert h).map some) := by
  refine ⟨rfl, rfl, fun _ => rfl, ?_⟩
  intro h hne
  cases h with
  | Qnil => exact absurd rfl hne
  | fixnum n => rfl
  | string bytes => rfl
  | array entries => rfl
  | hash entries => rfl
  | data wrapped => rfl
  | klass id => rfl

/-- Witness for C19: the host integer `7` becomes the present optional `7`. -/
theorem optional_conversion_witness :
    From_Ruby_optional.convert (int_from_ruby : From_Ruby (VALUE Unit) Int) (VALUE.fixnum 7)
      = Except.ok (some 7) :=
  (optional_conversion (int_to_ruby : To_Ruby (VALUE Unit) Int) int_from_ruby).2.2.2
    (VALUE.fixnum 7) (by intro h; cases h)

end Rice

/-! ## Binding of native types -/

namespace Rice

theorem TypeRegistry.isDefined_add {N : Type} (types : TypeRegistry N) (T : type_index)
    (klass : VALUE N) (rbType : rb_data_type_t) :
    (types.add T klass rbType).isDefined T = true := by
  simp [TypeRegistry.add, TypeRegistry.isDefined]

theorem TypeRegistry.isDefined_remove {N : Type} (types : TypeRegistry N) (T : type_index) :
    (types.remove T).isDefined T = false := by
  simp [TypeRegistry.remove, TypeRegistry.isDefined]

theorem Data_Type.bind_unbound {N R : Type} (host : Host N R) (T : type_index)
    (klass : VALUE N) (ret : Nat) (w : World N R)
    (hunbound : Data_Type.is_bound T w = false) (hk : klass.isQnil = false) :
    Data_Type.bind host T none klass ret w = Result.ok klass
      { statics := fun U => if U = T then
          { klass_ := klass,
            rb_data_type_ := some (rb_data_type_t.mk (host.rb_class2name klass) T none),
            unbound_instances := [] }
          else w.statics U,
        types := w.types.add T klass (rb_data_type_t.mk (host.rb_class2name klass) T none),
        handles := fun a => if a = ret then klass
          else if a ∈ (w.statics T).unbound_instances then klass else w.handles a,
        ruby := w.ruby } := by
  have hq : (w.statics T).klass_.isQnil = true := by
    simpa [Data_Type.is_bound] using hunbound
  simp only [Data_Type.bind, hunbound, Data_Type.construct, World.setStatics,
    Data_Type.is_bound, hk, hq, if_true, if_false, Bool.not_false, Bool.not_true,
    Bool.false_eq_true]
  congr 2
  funext U
  by_cases h : U = T <;> simp [h]

/-- C12: for a native type `T` bound to a host class `c` and a host class `d`
different from `c`, `Data_Type<T>::bind(d)` fails with the error
"Type ... is already bound to a different type" and leaves the bound class, the
descriptor, the registry and everything else as they were. -/
theorem bind_when_bound_raises {N R : Type} (host : Host N R) (T : type_index)
    (Base_T : Option type_index) (c d : VALUE N) (ret : Nat) (w : World N R)
    (hbound : (w.statics T).klass_ = c) (hc : c.isQnil = false) (_hd : d ≠ c) :
    Data_Type.bind host T Base_T d ret w =
      Result.raised (Exception.runtime_error
        ("Type " ++ host.typeName T ++ " is already bound to a different type")) w := by
  have hb : Data_Type.is_bound T w = true := by
    simp [Data_Type.is_bound, hbound, hc]
  simp [Data_Type.bind, hb]

/-- Witness for C12: the type `1` is bound to the class `7`; binding it to the
class `8` raises. -/
theorem bind_when_bound_raises_witness :
    Data_Type.bind simple_host 1 none (VALUE.klass 8) 0 world_bound =
      Result.raised (Exception.runtime_error
        ("Type " ++ simple_host.typeName 1 ++ " is already bound to a different type"))
        world_bound :=
  bind_when_bound_raises simple_host 1 none (VALUE.klass 7) (VALUE.klass 8) 0 world_bound
    rfl rfl (by intro h; cases h)

end Rice

namespace Rice

theorem Data_Type.is_bound_unbind {N R : Type} (T : type_index) (w : World N R) :
    Data_Type.is_bound T (Data_Type.unbind T w) = false := by
  simp [Data_Type.is_bound, Data_Type.unbind, World.setStatics, VALUE.isQnil]

/-- C14: `klass()`, `ruby_data_type()`, `is_descendant` and `define_constructor`
raise the error "Type ... is not bound" when `T` is not bound and do not raise
when it is bound; after `unbind()` the type is not bound and has no entry in
the type registry, so these operations raise, and a following `bind(c)` to a
class `c` succeeds, after which `klass()` returns `c`. -/
theorem not_bound_iff_raises {N R : Type} (host : Host N R) (T : type_index)
    (value : VALUE N) (this : Nat) (w : World N R) :
    (Data_Type.is_bound T w = false →
        Data_Type.klass host T w = Except.error (Exception.runtime_error
            ("Type " ++ host.typeName T ++ " is not bound"))
          ∧ Data_Type.ruby_data_type host T w = Except.error (Exception.runtime_error
            ("Type " ++ host.typeName T ++ " is not bound"))
          ∧ Data_Type.is_descendant host T value w = Except.error (Exception.runtime_error
            ("Type " ++ host.typeName T ++ " is not bound"))
          ∧ Data_Type.define_constructor host T this w = Result.raised
            (Exception.runtime_error ("Type " ++ host.typeName T ++ " is not bound")) w)
      ∧ (Data_Type.is_bound T w = true →
        Data_Type.klass host T w = Except.ok (w.statics T).klass_
          ∧ Data_Type.ruby_data_type host T w = Except.ok (w.statics T).rb_data_type_
          ∧ Data_Type.is_descendant host T value w =
            Except.ok (host.rb_obj_is_kind_of w.ruby value (w.statics T).klass_)
          ∧ Data_Type.define_constructor host T this w = Result.ok ()
            { w with ruby := host.define_allocator_and_constructor w.ruby (w.handles this) })
      ∧ Data_Type.is_bound T (Data_Type.unbind T w) = false
      ∧ (Data_Type.unbind T w).types.isDefined T = false
      ∧ (∀ (c : VALUE N) (ret : Nat), c.isQnil = false →
        ∃ w1, Data_Type.bind host T none c ret (Data_Type.unbind T w) = Result.ok c w1
          ∧ Data_Type.is_bound T w1 = true
          ∧ w1.types.isDefined T = true
          ∧ Data_Type.klass host T w1 = Except.ok c) := by
  refine ⟨?_, ?_, Data_Type.is_bound_unbind T w, ?_, ?_⟩
  · intro h
    simp [Data_Type.klass, Data_Type.ruby_data_type, Data_Type.is_descendant,
      Data_Type.define_constructor, Data_Type.check_is_bound, h]
  · intro h
    simp [Data_Type.klass, Data_Type.ruby_data_type, Data_Type.is_descendant,
      Data_Type.define_constructor, Data_Type.check_is_bound, h]
  · simp [Data_Type.unbind, World.setStatics, TypeRegistry.isDefined_remove]
  · intro c ret hc
    refine ⟨_, Data_Type.bind_unbound host T c ret _ (Data_Type.is_bound_unbind T w) hc,
      ?_, ?_, ?_⟩
    · simp [Data_Type.is_bound, hc]
    · exact TypeRegistry.isDefined_add _ _ _ _
    · simp [Data_Type.klass, Data_Type.check_is_bound, Data_Type.is_bound, hc]

/-- Witness for C14: in the state before anything is bound `klass()` raises for
the type `1`, and after `unbind()` a `bind` to the class `7` succeeds. -/
theorem not_bound_iff_raises_witness :
    Data_Type.klass simple_host 1 (World.initial simple_ruby.start) =
        Except.error (Exception.runtime_error
          ("Type " ++ simple_host.typeName 1 ++ " is not bound"))
      ∧ ∃ w1, Data_Type.bind simple_host 1 none (VALUE.klass 7) 200
            (Data_Type.unbind 1 world_bound) = Result.ok (VALUE.klass 7) w1
          ∧ Data_Type.is_bound 1 w1 = true
          ∧ w1.types.isDefined 1 = true
          ∧ Data_Type.klass simple_host 1 w1 = Except.ok (VALUE.klass 7) :=
  ⟨((not_bound_iff_raises simple_host 1 VALUE.Qnil 0 (World.initial simple_ruby.start)).1
      rfl).1,
    (not_bound_iff_raises simple_host 1 VALUE.Qnil 0 world_bound).2.2.2.2
      (VALUE.klass 7) 200 rfl⟩

/-- C11: when the container type `T` is already registered and bound to the
class `c` (as a first `define_*` call leaves it), a second `define_*_under` or
`define_*` call, under any module and name, returns a handle holding `c`; the
registry and the static members of `Data_Type<T>` stay as they are, no class is
defined, and the host runtime is touched only by
`const_set_maybe(name, c)` on the module (`rb_cObject` for `define_*`).  A
second `Type<T>::verify` changes nothing.  The first call, which reaches
`define_class_under`, leaves `T` registered and bound to the class created. -/
theorem second_definition_same_class {N R : Type} (host : Host N R)
    (helper : World N R → Result Unit (World N R)) (T : type_index) (module : VALUE N)
    (name : String) (ret : Nat) (w : World N R) (c : VALUE N)
    (hdef : w.types.isDefined T = true) (hbound : (w.statics T).klass_ = c)
    (hc : c.isQnil = false) :
    define_container_under host helper T module name ret w = Result.ok c
        { w with ruby := host.const_set_maybe w.ruby module name c,
                 handles := fun a => if a = ret then c else w.handles a }
      ∧ define_container host helper T name ret w = Result.ok c
        { w with ruby := host.const_set_maybe w.ruby host.rb_cObject name c,
                 handles := fun a => if a = ret then c else w.handles a }
      ∧ (∀ (elements : List (World N R → Result Bool (World N R))) (tmp : Nat),
          verify_elements elements w = Result.ok () w →
          Type_container.verify host helper elements T tmp w = Result.ok true w)
      ∧ (∀ (w0 w1 : World N R) (r : VALUE N), w0.types.isDefined T = false →
          Data_Type.is_bound T w0 = false →
          (∀ ruby0 superKlass k ruby1,
            host.define_class_under ruby0 module name superKlass = Except.ok (k, ruby1) →
            k.isQnil = false) →
          define_class_under host T none module name ret w0 = Result.ok r w1 →
          w1.types.isDefined T = true ∧ (w1.statics T).klass_ = r)
      ∧ (define_vector_under host helper T module name ret w =
            define_container_under host helper T module name ret w
          ∧ define_map_under host helper T module name ret w =
            define_container_under host helper T module name ret w
          ∧ define_unordered_map_under host helper T module name ret w =
            define_container_under host helper T module name ret w
          ∧ define_pair_under host helper T module name ret w =
            define_container_under host helper T module name ret w
          ∧ define_vector host helper T name ret w = define_container host helper T name ret w
          ∧ define_map host helper T name ret w = define_container host helper T name ret w
          ∧ define_unordered_map host helper T name ret w =
            define_container host helper T name ret w
          ∧ define_pair host helper T name ret w = define_container host helper T name ret w) := by
  subst hbound
  refine ⟨?_, ?_, ?_, ?_, ⟨rfl, rfl, rfl, rfl, rfl, rfl, rfl, rfl⟩⟩
  · simp [define_container_under, hdef, Data_Type.klass, Data_Type.check_is_bound,
      Data_Type.is_bound, hc, Data_Type.construct]
  · simp [define_container, hdef, Data_Type.klass, Data_Type.check_is_bound,
      Data_Type.is_bound, hc, Data_Type.construct]
  · intro elements tmp hel
    simp [Type_container.verify, hel, hdef]
  · intro w0 w1 r hundef hunbound hhost hcall
    simp only [define_class_under, hundef, Bool.false_eq_true, if_false] at hcall
    cases hd : host.define_class_under w0.ruby module name host.rb_cObject with
    | error e =>
      rw [hd] at hcall
      cases hcall
    | ok p =>
      obtain ⟨k, ruby1⟩ := p
      rw [hd] at hcall
      have hk := hhost _ _ _ _ hd
      have hb := Data_Type.bind_unbound host T k ret
        { w0 with ruby := host.undef_creation_funcs ruby1 k } hunbound hk
      simp only [hb] at hcall
      injection hcall with h1 h2
      subst h1 h2
      exact ⟨TypeRegistry.isDefined_add _ _ _ _, by simp⟩

/-- Witness for C11: the type `1` is registered and bound to the class `7`; a
further `define_vector_under` under the module `3` with the name `IntVector`
returns the class `7`. -/
theorem second_definition_same_class_witness :
    define_vector_under simple_host no_helper 1 (VALUE.klass 3) "IntVector" 50 world_bound =
      Result.ok (VALUE.klass 7)
        { world_bound with
          ruby := simple_host.const_set_maybe world_bound.ruby (VALUE.klass 3) "IntVector"
            (VALUE.klass 7),
          handles := fun a => if a = 50 then VALUE.klass 7 else world_bound.handles a } :=
  (second_definition_same_class simple_host no_helper 1 (VALUE.klass 3) "IntVector" 50
    world_bound (VALUE.klass 7) rfl rfl rfl).1

end Rice

namespace Rice

theorem Data_Type.construct_types {N R : Type} (host : Host N R) (T : type_index)
    (this : Nat) (w : World N R) : (Data_Type.construct host T this w).types = w.types := by
  unfold Data_Type.construct
  simp only []
  split
  · split <;> rfl
  · split <;> rfl

theorem Data_Type.bind_ok_isDefined {N R : Type} (host : Host N R) (T : type_index)
    (Base_T : Option type_index) (klass : VALUE N) (ret : Nat) (w w1 : World N R)
    (r : VALUE N) (h : Data_Type.bind host T Base_T klass ret w = Result.ok r w1) :
    w1.types.isDefined T = true := by
  unfold Data_Type.bind at h
  split at h
  · cases h
  · simp only [] at h
    split at h
    · cases h
    · injection h with _ h2
      rw [← h2, Data_Type.construct_types]
      exact TypeRegistry.isDefined_add _ _ _ _

theorem define_class_under_ok_isDefined {N R : Type} (host : Host N R) (T : type_index)
    (Base_T : Option type_index) (module : VALUE N) (name : String) (ret : Nat)
    (w w1 : World N R) (r : VALUE N)
    (h : define_class_under host T Base_T module name ret w = Result.ok r w1) :
    w1.types.isDefined T = true := by
  unfold define_class_under at h
  split at h
  · rename_i hdef
    injection h with _ h2
    rw [← h2, Data_Type.construct_types]
    exact hdef
  · simp only [] at h
    split at h
    · cases h
    · split at h
      · cases h
      · exact Data_Type.bind_ok_isDefined host T Base_T _ ret _ w1 r h

theorem define_container_auto_ok_isDefined {N R : Type} (host : Host N R)
    (helper : World N R → Result Unit (World N R)) (T : type_index) (ret : Nat)
    (w w1 : World N R) (r : VALUE N)
    (hhelper : ∀ u u1, helper u = Result.ok () u1 → u.types.isDefined T = true →
      u1.types.isDefined T = true)
    (h : define_container_auto host helper T ret w = Result.ok r w1) :
    w1.types.isDefined T = true := by
  unfold define_container_auto define_container_under at h
  simp only [] at h
  split at h
  · rename_i hdef
    split at h
    · cases h
    · injection h with _ h2
      rw [← h2, Data_Type.construct_types]
      exact hdef
  · split at h
    · cases h
    · cases h
    · rename_i result w2 hclass
      split at h
      · cases h
      · cases h
      · rename_i u w3 hh
        injection h with _ h2
        subst h2
        exact hhelper w2 w3 hh
          (define_class_under_ok_isDefined host T none _ _ ret _ w2 result hclass)

theorem TypeRegistry.isDefined_add_keeps {N : Type} (types : TypeRegistry N)
    (T E : type_index) (klass : VALUE N) (rbType : rb_data_type_t)
    (h : types.isDefined E = true) : (types.add T klass rbType).isDefined E = true := by
  by_cases hE : T = E
  · subst hE
    exact TypeRegistry.isDefined_add _ _ _ _
  · simp only [TypeRegistry.isDefined, List.any_eq_true, decide_eq_true_eq] at h
    obtain ⟨entry, hmem, hentry⟩ := h
    simp only [TypeRegistry.add, TypeRegistry.remove, TypeRegistry.isDefined, List.any_cons,
      Bool.or_eq_true, decide_eq_true_eq, List.any_eq_true]
    right
    refine ⟨entry, List.mem_filter.2 ⟨hmem, ?_⟩, hentry⟩
    simp only [decide_eq_true_eq]
    intro hT
    exact hE (hT.symm.trans hentry)

theorem Data_Type.bind_ok_keeps {N R : Type} (host : Host N R) (T E : type_index)
    (Base_T : Option type_index) (klass : VALUE N) (ret : Nat) (w w1 : World N R)
    (r : VALUE N) (h : Data_Type.bind host T Base_T klass ret w = Result.ok r w1)
    (hE : w.types.isDefined E = true) : w1.types.isDefined E = true := by
  unfold Data_Type.bind at h
  split at h
  · cases h
  · simp only [] at h
    split at h
    · cases h
    · injection h with _ h2
      rw [← h2, Data_Type.construct_types]
      exact TypeRegistry.isDefined_add_keeps _ _ _ _ _ hE

theorem define_class_under_ok_keeps {N R : Type} (host : Host N R) (T E : type_index)
    (Base_T : Option type_index) (module : VALUE N) (name : String) (ret : Nat)
    (w w1 : World N R) (r : VALUE N)
    (h : define_class_under host T Base_T module name ret w = Result.ok r w1)
    (hE : w.types.isDefined E = true) : w1.types.isDefined E = true := by
  unfold define_class_under at h
  split at h
  · injection h with _ h2
    rw [← h2, Data_Type.construct_types]
    exact hE
  · simp only [] at h
    split at h
    · cases h
    · split at h
      · cases h
      · exact Data_Type.bind_ok_keeps host T E Base_T _ ret _ w1 r h hE

theorem define_container_auto_ok_keeps {N R : Type} (host : Host N R)
    (helper : World N R → Result Unit (World N R)) (T E : type_index) (ret : Nat)
    (w w1 : World N R) (r : VALUE N)
    (hhelper : ∀ F u u1, helper u = Result.ok () u1 → u.types.isDefined F = true →
      u1.types.isDefined F = true)
    (h : define_container_auto host helper T ret w = Result.ok r w1)
    (hE : w.types.isDefined E = true) : w1.types.isDefined E = true := by
  unfold define_container_auto define_container_under at h
  simp only [] at h
  split at h
  · split at h
    · cases h
    · injection h with _ h2
      rw [← h2, Data_Type.construct_types]
      exact hE
  · split at h
    · cases h
    · cases h
    · rename_i result w2 hclass
      split at h
      · cases h
      · cases h
      · rename_i u w3 hh
        injection h with _ h2
        subst h2
        exact hhelper E w2 w3 hh
          (define_class_under_ok_keeps host T E none _ _ ret _ w2 result hclass hE)

theorem Type_container.verify_after_elements {N R : Type} (host : Host N R)
    (helper : World N R → Result Unit (World N R)) (T : type_index) (tmp : Nat)
    (w1 w3 : World N R) (r : Bool)
    (hhelper : ∀ F u u1, helper u = Result.ok () u1 → u.types.isDefined F = true →
      u1.types.isDefined F = true)
    (h : (if !w1.types.isDefined T then
        match define_container_auto host helper T tmp w1 with
        | Result.raised e w2 => Result.raised e w2
        | Result.undefined => Result.undefined
        | Result.ok _ w2 => Result.ok true (Data_Type.destroy T tmp w2)
      else Result.ok true w1) = Result.ok r w3) :
    r = true ∧ w3.types.isDefined T = true
      ∧ ∀ E, w1.types.isDefined E = true → w3.types.isDefined E = true := by
  split at h
  · split at h
    · cases h
    · cases h
    · rename_i v w2 hauto
      injection h with h1 h2
      subst h2
      refine ⟨h1.symm, ?_, ?_⟩
      · have := define_container_auto_ok_isDefined host helper T tmp w1 w2 v
          (hhelper T) hauto
        simpa [Data_Type.destroy, World.setStatics] using this
      · intro E hE
        have := define_container_auto_ok_keeps host helper T E tmp w1 w2 v hhelper hauto hE
        simpa [Data_Type.destroy, World.setStatics] using this
  · rename_i hdef
    injection h with h1 h2
    subst h2
    exact ⟨h1.symm, by simpa using hdef, fun E hE => hE⟩

/-- C20: `Type<composite>::verify` for `std::vector<T>` (one element type) and
for `std::map<T, U>`, `std::unordered_map<T, U>` and `std::pair<T1, T2>` (two
element types, verified in order).  The element verifications `Type<T>::verify`
and `Type<U>::verify` run first: when one of them throws, the call ends with
that exception in the state it left, the later element is not verified and
`define_*_auto` is not reached.  When they return, the composite is looked up
in the state they left: if it is defined `verify` returns `true` in that
state, and otherwise `define_*_auto` is called on that state and `true` is
returned.  A call that returns returns `true`; the element verifications have
returned before; afterwards the composite is defined and every type that was
defined after the element verifications still is (the helper that defines the
methods removing no type); and a second call in the state reached, with
element verifications that change nothing then, returns `true` and changes
nothing. -/
theorem verify_composite {N R : Type} (host : Host N R)
    (helper : World N R → Result Unit (World N R))
    (verify_T verify_U : World N R → Result Bool (World N R)) (T : type_index) (tmp : Nat)
    (w : World N R) :
    (∀ e w1, verify_T w = Result.raised e w1 →
        Type_vector.verify host helper verify_T T tmp w = Result.raised e w1
        ∧ Type_map.verify host helper verify_T verify_U T tmp w = Result.raised e w1)
    ∧ (∀ b w1 e w2, verify_T w = Result.ok b w1 → verify_U w1 = Result.raised e w2 →
        Type_map.verify host helper verify_T verify_U T tmp w = Result.raised e w2)
    ∧ (∀ b w1, verify_T w = Result.ok b w1 →
        Type_vector.verify host helper verify_T T tmp w
          = if w1.types.isDefined T then Result.ok true w1
            else
              match define_vector_auto host helper T tmp w1 with
              | Result.raised e w2 => Result.raised e w2
              | Result.undefined => Result.undefined
              | Result.ok _ w2 => Result.ok true (Data_Type.destroy T tmp w2))
    ∧ (∀ b w1 b1 w2, verify_T w = Result.ok b w1 → verify_U w1 = Result.ok b1 w2 →
        Type_map.verify host helper verify_T verify_U T tmp w
          = if w2.types.isDefined T then Result.ok true w2
            else
              match define_map_auto host helper T tmp w2 with
              | Result.raised e w3 => Result.raised e w3
              | Result.undefined => Result.undefined
              | Result.ok _ w3 => Result.ok true (Data_Type.destroy T tmp w3))
    ∧ (∀ r w3, Type_vector.verify host helper verify_T T tmp w = Result.ok r w3 →
        (∀ F u u1, helper u = Result.ok () u1 → u.types.isDefined F = true →
          u1.types.isDefined F = true) →
        r = true
        ∧ w3.types.isDefined T = true
        ∧ (∃ b w1, verify_T w = Result.ok b w1
            ∧ ∀ E, w1.types.isDefined E = true → w3.types.isDefined E = true)
        ∧ (∀ b, verify_T w3 = Result.ok b w3 →
            Type_vector.verify host helper verify_T T tmp w3 = Result.ok true w3))
    ∧ (∀ r w3, Type_map.verify host helper verify_T verify_U T tmp w = Result.ok r w3 →
        (∀ F u u1, helper u = Result.ok () u1 → u.types.isDefined F = true →
          u1.types.isDefined F = true) →
        r = true
        ∧ w3.types.isDefined T = true
        ∧ (∃ b w1 b1 w2, verify_T w = Result.ok b w1 ∧ verify_U w1 = Result.ok b1 w2
            ∧ ∀ E, w2.types.isDefined E = true → w3.types.isDefined E = true)
        ∧ (∀ b b1, verify_T w3 = Result.ok b w3 → verify_U w3 = Result.ok b1 w3 →
            Type_map.verify host helper verify_T verify_U T tmp w3 = Result.ok true w3))
    ∧ Type_unordered_map.verify host helper verify_T verify_U T tmp w
        = Type_map.verify host helper verify_T verify_U T tmp w
    ∧ Type_pair.verify host helper verify_T verify_U T tmp w
        = Type_map.verify host helper verify_T verify_U T tmp w := by
  refine ⟨?_, ?_, ?_, ?_, ?_, ?_, rfl, rfl⟩
  · intro e w1 h
    simp only [Type_vector.verify, Type_map.verify, Type_container.verify, verify_elements, h,
      and_self]
  · intro b w1 e w2 h h1
    simp only [Type_map.verify, Type_container.verify, verify_elements, h, h1]
  · intro b w1 h
    simp only [Type_vector.verify, Type_container.verify, verify_elements, h,
      define_vector_auto]
    cases w1.types.isDefined T <;> rfl
  · intro b w1 b1 w2 h h1
    simp only [Type_map.verify, Type_container.verify, verify_elements, h, h1,
      define_map_auto]
    cases w2.types.isDefined T <;> rfl
  · intro r w3 hv hhelper
    simp only [Type_vector.verify, Type_container.verify, verify_elements] at hv
    cases hT : verify_T w with
    | raised e w1 => rw [hT] at hv; cases hv
    | undefined => rw [hT] at hv; cases hv
    | ok b w1 =>
      rw [hT] at hv
      obtain ⟨h1, h2, h3⟩ :=
        Type_container.verify_after_elements host helper T tmp w1 w3 r hhelper hv
      refine ⟨h1, h2, ⟨b, w1, rfl, h3⟩, ?_⟩
      intro b2 hb2
      simp [Type_vector.verify, Type_container.verify, verify_elements, hb2, h2]
  · intro r w3 hv hhelper
    simp only [Type_map.verify, Type_container.verify, verify_elements] at hv
    cases hT : verify_T w with
    | raised e w1 => rw [hT] at hv; cases hv
    | undefined => rw [hT] at hv; cases hv
    | ok b w1 =>
      rw [hT] at hv
      simp only at hv
      cases hU : verify_U w1 with
      | raised e w2 => rw [hU] at hv; cases hv
      | undefined => rw [hU] at hv; cases hv
      | ok b1 w2 =>
        rw [hU] at hv
        obtain ⟨h1, h2, h3⟩ :=
          Type_container.verify_after_elements host helper T tmp w2 w3 r hhelper hv
        refine ⟨h1, h2, ⟨b, w1, b1, w2, rfl, hU, h3⟩, ?_⟩
        intro b2 b3 hb2 hb3
        simp [Type_map.verify, Type_container.verify, verify_elements, hb2, hb3, h2]

/-- Witness for C20: in the state before anything is bound, `verify` of the
vector type `6` whose element type is the vector type `5` (its `verify` being
that of a vector over an element type whose verification changes nothing).
The call returns `true`; the element type `5` is registered first and the
composite `6` after it; and a second call returns `true` and changes
nothing. -/
theorem verify_composite_witness :
    ∃ w3,
      Type_vector.verify simple_host no_helper
          (Type_vector.verify simple_host no_helper (fun u => Result.ok true u) 5 9) 6 10
          (World.initial simple_ruby.start) = Result.ok true w3
        ∧ w3.types.registry_.map (fun entry => entry.1) = [6, 5]
        ∧ w3.types.isDefined 5 = true
        ∧ w3.types.isDefined 6 = true
        ∧ Type_vector.verify simple_host no_helper
            (Type_vector.verify simple_host no_helper (fun u => Result.ok true u) 5 9) 6 10
            w3 = Result.ok true w3 := by
  have h := (verify_composite simple_host no_helper
    (Type_vector.verify simple_host no_helper (fun u => Result.ok true u) 5 9)
    (fun u => Result.ok true u) 6 10 (World.initial simple_ruby.start)).2.2.2.2.1 true _ rfl
    (fun F u u1 hu hd => by
      have : u = u1 := by
        unfold no_helper at hu
        injection hu
      rw [← this]
      exact hd)
  exact ⟨_, rfl, rfl, rfl, h.2.1, h.2.2.2 true rfl⟩

end Rice

namespace Rice

theorem Data_Type.bind_unbound_nil {N R : Type} (host : Host N R) (T : type_index)
    (klass : VALUE N) (ret : Nat) (w : World N R)
    (hunbound : Data_Type.is_bound T w = false) (hk : klass.isQnil = true) :
    Data_Type.bind host T none klass ret w = Result.ok host.rb_cObject
      { statics := fun U => if U = T then
          { klass_ := klass,
            rb_data_type_ := some (rb_data_type_t.mk (host.rb_class2name klass) T none),
            unbound_instances := [ret] }
          else w.statics U,
        types := w.types.add T klass (rb_data_type_t.mk (host.rb_class2name klass) T none),
        handles := fun a => if a = ret then host.rb_cObject
          else if a ∈ (w.statics T).unbound_instances then klass else w.handles a,
        ruby := w.ruby } := by
  have hq : (w.statics T).klass_.isQnil = true := by
    simpa [Data_Type.is_bound] using hunbound
  simp only [Data_Type.bind, hunbound, Data_Type.construct, World.setStatics,
    Data_Type.is_bound, hk, hq, if_true, if_false, Bool.not_false, Bool.not_true,
    Bool.false_eq_true]
  congr 2
  funext U
  by_cases h : U = T <;> simp [h]

theorem Data_Type.bind_no_base_statics {N R : Type} (host : Host N R) (T : type_index)
    (klass : VALUE N) (ret : Nat) (w w1 : World N R) (r : VALUE N)
    (h : Data_Type.bind host T none klass ret w = Result.ok r w1) (U : type_index) :
    (U ≠ T → w1.statics U = w.statics U)
      ∧ (Data_Type.is_bound T w1 = true → (w1.statics T).unbound_instances = []) := by
  cases hb : Data_Type.is_bound T w with
  | true =>
    simp [Data_Type.bind, hb] at h
  | false =>
    cases hk : klass.isQnil with
    | true =>
      rw [Data_Type.bind_unbound_nil host T klass ret w hb hk] at h
      injection h with _ h2
      subst h2
      constructor
      · intro hne
        simp [hne]
      · intro hb1
        simp [Data_Type.is_bound, hk] at hb1
    | false =>
      rw [Data_Type.bind_unbound host T klass ret w hb hk] at h
      injection h with _ h2
      subst h2
      constructor
      · intro hne
        simp [hne]
      · intro _
        simp

theorem Data_Type.construct_statics_other {N R : Type} (host : Host N R)
    (T U : type_index) (this : Nat) (w : World N R) (hne : T ≠ U) :
    (Data_Type.construct host U this w).statics T = w.statics T := by
  cases hq : (w.statics U).klass_.isQnil <;>
    simp [Data_Type.construct, Data_Type.is_bound, World.setStatics, hq, hne]

theorem Data_Type.construct_klass {N R : Type} (host : Host N R)
    (T : type_index) (this : Nat) (w : World N R) :
    ((Data_Type.construct host T this w).statics T).klass_ = (w.statics T).klass_ := by
  cases hq : (w.statics T).klass_.isQnil <;>
    simp [Data_Type.construct, Data_Type.is_bound, World.setStatics, hq]

theorem Data_Type.construct_bound {N R : Type} (host : Host N R)
    (T : type_index) (this : Nat) (w : World N R) (hb : Data_Type.is_bound T w = true) :
    ((Data_Type.construct host T this w).statics T).unbound_instances =
      (w.statics T).unbound_instances := by
  have hq : (w.statics T).klass_.isQnil = false := by
    simpa [Data_Type.is_bound] using hb
  simp [Data_Type.construct, Data_Type.is_bound, World.setStatics, hq]

/-- Without the base type path of `bind`, the set of unbound instances is empty
whenever the type is bound. -/
theorem Data_Type.unbound_instances_empty_of_bound {N R : Type} (host : Host N R) (ruby : R)
    (w : World N R) (hw : Data_Type.Reachable host ruby w) (T : type_index)
    (hb : Data_Type.is_bound T w = true) : (w.statics T).unbound_instances = [] := by
  induction hw generalizing T with
  | initial => rfl
  | construct U this w _ ih =>
    by_cases hu : T = U
    · subst hu
      have hb0 : Data_Type.is_bound T w = true := by
        unfold Data_Type.is_bound at hb
        rw [Data_Type.construct_klass] at hb
        exact hb
      rw [Data_Type.construct_bound host T this w hb0]
      exact ih T hb0
    · have hs := Data_Type.construct_statics_other host T U this w hu
      rw [hs]
      apply ih
      simpa [Data_Type.is_bound, hs] using hb
  | destroy U this w _ ih =>
    by_cases hu : T = U
    · subst hu
      have hb0 : Data_Type.is_bound T w = true := by
        simpa [Data_Type.is_bound, Data_Type.destroy, World.setStatics] using hb
      simp [Data_Type.destroy, World.setStatics, ih T hb0]
    · have hs : (Data_Type.destroy U this w).statics T = w.statics T := by
        simp [Data_Type.destroy, World.setStatics, hu]
      rw [hs]
      apply ih
      simpa [Data_Type.is_bound, hs] using hb
  | unbind U w _ ih =>
    by_cases hu : T = U
    · subst hu
      rw [Data_Type.is_bound_unbind] at hb
      cases hb
    · have hs : (Data_Type.unbind U w).statics T = w.statics T := by
        simp [Data_Type.unbind, World.setStatics, hu]
      rw [hs]
      apply ih
      simpa [Data_Type.is_bound, hs] using hb
  | bind_returns U klass ret w w1 r _ hbind ih =>
    by_cases hu : T = U
    · subst hu
      exact (Data_Type.bind_no_base_statics host T klass ret w w1 r hbind T).2 hb
    · have hs := (Data_Type.bind_no_base_statics host U klass ret w w1 r hbind T).1 hu
      rw [hs]
      apply ih
      simpa [Data_Type.is_bound, hs] using hb
  | bind_throws U klass ret w w1 e _ hbind ih =>
    have hw1 : w1 = w := by
      unfold Data_Type.bind at hbind
      split at hbind
      · injection hbind with _ h2
        exact h2.symm
      · simp only [] at hbind
        cases hbind
    subst hw1
    exact ih T hb

end Rice

namespace Rice

/-- C15: round trip of containers.  A vector, map, unordered map or pair
converted to a host value (the host object wrapping it) and read back through
`From_Ruby` (`Data_Object<T>::from_ruby` for a pair) is the value itself.  A
vector rendered element by element as a host array and read back through
`From_Ruby<std::vector<T>>` is the same vector, same length and same elements
in the same order, given that each element makes the round trip; likewise a
map, with its entries in key order, and an unordered map, with distinct keys,
rendered entry by entry as a host hash. -/
theorem container_round_trip {T K V K2 V2 A B : Type} [LinearOrder K] [DecidableEq K2] :
    (∀ (b : Bool) (d : T) (cn : VALUE (List T) → String) (fr : From_Ruby (VALUE (List T)) T)
        (arg_ : Option (Arg (List T))) (x : List T),
        From_Ruby_vector.convert b d cn (Data_Object.from_ruby cn) fr arg_
          (Data_Object.to_ruby x) = Except.ok x)
      ∧ (∀ (b : Bool) (cn : VALUE (List (K × V)) → String)
        (fk : From_Ruby (VALUE (List (K × V))) K) (fv : From_Ruby (VALUE (List (K × V))) V)
        (arg_ : Option (Arg (List (K × V)))) (x : List (K × V)),
        From_Ruby_map.convert b cn (Data_Object.from_ruby cn) fk fv arg_
          (Data_Object.to_ruby x) = Except.ok x)
      ∧ (∀ (b : Bool) (cn : VALUE (List (K2 × V2)) → String)
        (fk : From_Ruby (VALUE (List (K2 × V2))) K2)
        (fv : From_Ruby (VALUE (List (K2 × V2))) V2)
        (arg_ : Option (Arg (List (K2 × V2)))) (x : List (K2 × V2)),
        From_Ruby_unordered_map.convert b cn (Data_Object.from_ruby cn) fk fv arg_
          (Data_Object.to_ruby x) = Except.ok x)
      ∧ (∀ (cn : VALUE (A × B) → String) (x : A × B),
        Data_Object.from_ruby cn (Data_Object.to_ruby x) = Except.ok x)
      ∧ (∀ (N : Type) (d : T) (cn : VALUE N → String)
        (dofr : VALUE N → Except Exception (List T)) (tr : To_Ruby (VALUE N) T)
        (fr : From_Ruby (VALUE N) T) (arg_ : Option (Arg (List T))) (xs : List T),
        (∀ x, fr.convert (tr.convert x) = Except.ok x) →
        From_Ruby_vector.convert true d cn dofr fr arg_ (VALUE.array (xs.map tr.convert))
          = Except.ok xs)
      ∧ (∀ (N : Type) (cn : VALUE N → String)
        (dofr : VALUE N → Except Exception (List (K × V)))
        (tk : To_Ruby (VALUE N) K) (tv : To_Ruby (VALUE N) V)
        (fk : From_Ruby (VALUE N) K) (fv : From_Ruby (VALUE N) V)
        (arg_ : Option (Arg (List (K × V)))) (m : List (K × V)),
        (∀ x, fk.convert (tk.convert x) = Except.ok x) →
        (∀ x, fv.convert (tv.convert x) = Except.ok x) →
        List.Pairwise (fun a b : K × V => a.1 < b.1) m →
        From_Ruby_map.convert true cn dofr fk fv arg_
          (VALUE.hash (m.map (fun p => (tk.convert p.1, tv.convert p.2)))) = Except.ok m)
      ∧ (∀ (N : Type) (cn : VALUE N → String)
        (dofr : VALUE N → Except Exception (List (K2 × V2)))
        (tk : To_Ruby (VALUE N) K2) (tv : To_Ruby (VALUE N) V2)
        (fk : From_Ruby (VALUE N) K2) (fv : From_Ruby (VALUE N) V2)
        (arg_ : Option (Arg (List (K2 × V2)))) (m : List (K2 × V2)),
        (∀ x, fk.convert (tk.convert x) = Except.ok x) →
        (∀ x, fv.convert (tv.convert x) = Except.ok x) →
        List.Pairwise (fun a b : K2 × V2 => a.1 ≠ b.1) m →
        From_Ruby_unordered_map.convert true cn dofr fk fv arg_
          (VALUE.hash (m.map (fun p => (tk.convert p.1, tv.convert p.2)))) = Except.ok m) := by
  refine ⟨?_, ?_, ?_, ?_, ?_, ?_, ?_⟩
  · intro b d cn fr arg_ x
    rfl
  · intro b cn fk fv arg_ x
    rfl
  · intro b cn fk fv arg_ x
    rfl
  · intro cn x
    rfl
  · intro N d cn dofr tr fr arg_ xs h
    simp only [From_Ruby_vector.convert, rb_type, if_true]
    exact vectorFromArray_spec d fr _ xs (forall₂_map_round_trip tr fr h xs)
  · intro N cn dofr tk tv fk fv arg_ m hk hv hsorted
    simp only [From_Ruby_map.convert, rb_type, if_true, MapFromHash.convert, rb_hash_entries]
    have := MapFromHash.foreach_sorted tk tv fk fv hk hv m [] (by simp) hsorted
    simpa using this
  · intro N cn dofr tk tv fk fv arg_ m hk hv hdistinct
    simp only [From_Ruby_unordered_map.convert, rb_type, if_true,
      UnorderedMapFromHash.convert, rb_hash_entries]
    have := UnorderedMapFromHash.foreach_distinct tk tv fk fv hk hv m [] (by simp) hdistinct
    simpa using this

/-- Witness for C15: the vector `[3, 1, 2]` as a host array of integers reads
back as `[3, 1, 2]`. -/
theorem container_round_trip_witness :
    From_Ruby_vector.convert true (0 : Int) plain_classname
        (Data_Object.from_ruby plain_classname) int_from_ruby none
        (VALUE.array ([3, 1, 2].map int_to_ruby.convert) : VALUE (List Int))
      = Except.ok [3, 1, 2] :=
  (@container_round_trip Int Nat Nat Nat Nat Nat Nat _ _).2.2.2.2.1
    (List Int) 0 plain_classname (Data_Object.from_ruby plain_classname) int_to_ruby
    int_from_ruby none [3, 1, 2] (fun _ => rfl)

end Rice

/-! ## Copy, search, rendering, iteration and end access of the containers -/

namespace Rice

theorem VectorHelper.to_s_loop_go {α : Type} (render : α → String) (rest : List α)
    (position : Nat) (stream : String) :
    VectorHelper.to_s.loop render rest (position + 1) stream
      = String.intercalate.go stream ", " (rest.map render) := by
  induction rest generalizing position stream with
  | nil => rfl
  | cons x rest ih =>
    simp only [VectorHelper.to_s.loop, Nat.add_one_ne_zero, if_false, List.map_cons,
      String.intercalate.go]
    exact ih (position + 1) _

theorem intercalate_go_append (pre acc sep : String) (l : List String) :
    String.intercalate.go (pre ++ acc) sep l = pre ++ String.intercalate.go acc sep l := by
  induction l generalizing acc with
  | nil => rfl
  | cons a rest ih =>
    simp only [String.intercalate.go]
    rw [String.append_assoc, String.append_assoc, ih, String.append_assoc]

theorem VectorHelper.to_s_loop_intercalate {α : Type} (render : α → String) (l : List α) :
    VectorHelper.to_s.loop render l 0 "["
      = "[" ++ String.intercalate ", " (l.map render) := by
  cases l with
  | nil => rfl
  | cons x rest =>
    simp only [VectorHelper.to_s.loop, if_true, List.map_cons, String.intercalate]
    rw [VectorHelper.to_s_loop_go, intercalate_go_append]

theorem VectorHelper.to_s_finish {α : Type} (self : List α) :
    self.take (if self.length > 1000 then 1000 else self.length) = self.take 1000 := by
  split
  · rfl
  · rw [List.take_length, List.take_of_length_le (by omega)]

theorem VectorHelper.to_s_closed {α : Type} (render : α → String) (self : List α) :
    VectorHelper.to_s (some render) self
      = Result.ok ("[" ++ String.intercalate ", " ((self.take 1000).map render) ++ "]")
          self := by
  simp only [VectorHelper.to_s]
  rw [VectorHelper.to_s_finish, VectorHelper.to_s_loop_intercalate]

theorem VectorHelper.each_loop_foldl {V α σ : Type} (to_ruby : To_Ruby V α)
    (rb_yield : σ → V → σ) (self : List α) (host : σ) :
    VectorHelper.each.loop to_ruby rb_yield self host
      = (self.map to_ruby.convert).foldl rb_yield host := by
  induction self generalizing host with
  | nil => rfl
  | cons item rest ih => simp only [VectorHelper.each.loop, List.map_cons, List.foldl_cons, ih]

theorem foldl_append_singleton {β : Type} (l pre : List β) :
    l.foldl (fun yielded element => yielded ++ [element]) pre = pre ++ l := by
  induction l generalizing pre with
  | nil => simp
  | cons x rest ih => simp [ih]

theorem MapHelper.map_each_loop_foldl {VAL K V σ : Type} (key_to_ruby : To_Ruby VAL K)
    (mapped_to_ruby : To_Ruby VAL V) (rb_yield_values2 : σ → List VAL → σ)
    (self : List (K × V)) (host : σ) :
    MapHelper.each.loop key_to_ruby mapped_to_ruby rb_yield_values2 self host
      = (self.map (fun pair => [key_to_ruby.convert pair.1, mapped_to_ruby.convert pair.2])).foldl
          rb_yield_values2 host := by
  induction self generalizing host with
  | nil => rfl
  | cons pair rest ih => simp only [MapHelper.each.loop, List.map_cons, List.foldl_cons, ih]

theorem MapHelper.subscript_assign_keys {K V : Type} [Preorder K]
    [DecidableRel (fun (a b : K) => a < b)] (self : List (K × V)) (key : K) (value : V)
    (bound : K) (hkey : bound < key) (hself : ∀ e ∈ self, bound < e.1) :
    ∀ e ∈ MapHelper.subscript_assign self key value, bound < e.1 := by
  induction self with
  | nil =>
    intro e he
    simp only [MapHelper.subscript_assign, List.mem_singleton] at he
    subst he
    exact hkey
  | cons head rest ih =>
    obtain ⟨k, v⟩ := head
    intro e he
    simp only [MapHelper.subscript_assign] at he
    split at he
    · rcases List.mem_cons.1 he with h | h
      · subst h
        exact hself (k, v) (List.mem_cons_self _ _)
      · exact ih (fun e he => hself e (List.mem_cons_of_mem _ he)) e h
    · split at he
      · rcases List.mem_cons.1 he with h | h
        · subst h
          exact hkey
        · exact hself e h
      · rcases List.mem_cons.1 he with h | h
        · subst h
          exact hself (k, v) (List.mem_cons_self _ _)
        · exact hself e (List.mem_cons_of_mem _ h)

theorem MapHelper.subscript_assign_ascending {K V : Type} [Preorder K]
    [DecidableRel (fun (a b : K) => a < b)] (self : List (K × V)) (key : K) (value : V)
    (hself : MapHelper.ascending self) :
    MapHelper.ascending (MapHelper.subscript_assign self key value) := by
  induction self with
  | nil => simp [MapHelper.subscript_assign, MapHelper.ascending]
  | cons head rest ih =>
    obtain ⟨k, v⟩ := head
    unfold MapHelper.ascending at hself ih ⊢
    have hrest := (List.pairwise_cons.1 hself).2
    have hhead : ∀ e ∈ rest, k < e.1 := (List.pairwise_cons.1 hself).1
    simp only [MapHelper.subscript_assign]
    split
    · rename_i hlt
      exact List.pairwise_cons.2
        ⟨MapHelper.subscript_assign_keys rest key value k hlt hhead, ih hrest⟩
    · split
      · rename_i hlt
        refine List.pairwise_cons.2 ⟨?_, hself⟩
        intro e he
        rcases List.mem_cons.1 he with h | h
        · subst h
          exact hlt
        · exact lt_trans hlt (hhead e h)
      · exact List.pairwise_cons.2 ⟨hhead, hrest⟩

theorem MapHelper.stores_ascending {K V : Type} [Preorder K]
    [DecidableRel (fun (a b : K) => a < b)] (stores : List (K × V)) (start : List (K × V))
    (hstart : MapHelper.ascending start) :
    MapHelper.ascending
      (stores.foldl (fun self e => MapHelper.subscript_assign self e.1 e.2) start) := by
  induction stores generalizing start with
  | nil => exact hstart
  | cons e rest ih =>
    exact ih _ (MapHelper.subscript_assign_ascending start e.1 e.2 hstart)

theorem VectorHelper.last_index {α : Type} (init : List α) (x : α) :
    (init ++ [x])[(init ++ [x]).length - 1]? = some x := by
  simp

/-- C23: the method `copy` is defined for a copy-constructible and for a
non-copy-constructible element type alike, on vectors, maps, unordered maps
and pairs.  In the copy-constructible case it returns a container equal to the
receiver and leaves the receiver unchanged; in the other case it raises the
runtime error "Cannot copy ... with non-copy constructible types" of its
container for every receiver. -/
theorem copy_always_bound {α K V A B : Type} (is_copy_constructible : Bool)
    (v : List α) (m : List (K × V)) (p : A × B) :
    ((VectorHelper.define_copyable_methods is_copy_constructible).map
        (fun method => (method.1, method.2 v))
        = [("copy", VectorHelper.copy is_copy_constructible v)]
      ∧ VectorHelper.copy true v = Result.ok v v
      ∧ VectorHelper.copy false v
          = Result.raised
              (Exception.runtime_error "Cannot copy vectors with non-copy constructible types")
              v)
    ∧ ((MapHelper.define_copyable_methods is_copy_constructible).map
        (fun method => (method.1, method.2 m))
        = [("copy", MapHelper.copy is_copy_constructible m)]
      ∧ MapHelper.copy true m = Result.ok m m
      ∧ MapHelper.copy false m
          = Result.raised
              (Exception.runtime_error "Cannot copy maps with non-copy constructible types") m)
    ∧ ((UnorderedMapHelper.define_copyable_methods is_copy_constructible).map
        (fun method => (method.1, method.2 m))
        = [("copy", UnorderedMapHelper.copy is_copy_constructible m)]
      ∧ UnorderedMapHelper.copy true m = Result.ok m m
      ∧ UnorderedMapHelper.copy false m
          = Result.raised
              (Exception.runtime_error
                "Cannot copy unordered_maps with non-copy constructible types") m)
    ∧ ((PairHelper.define_copyable_methods is_copy_constructible).map
        (fun method => (method.1, method.2 p))
        = [("copy", PairHelper.copy is_copy_constructible p)]
      ∧ PairHelper.copy true p = Result.ok p p
      ∧ PairHelper.copy false p
          = Result.raised
              (Exception.runtime_error "Cannot copy pair with non-copy constructible types")
              p) := by
  cases is_copy_constructible <;>
    simp [VectorHelper.define_copyable_methods, VectorHelper.copy,
      MapHelper.define_copyable_methods, MapHelper.copy,
      UnorderedMapHelper.define_copyable_methods, UnorderedMapHelper.copy,
      PairHelper.define_copyable_methods, PairHelper.copy]

/-- C24: for an element type without `operator==` the search methods never
find anything, whatever the container and the argument: `delete` returns
absent and leaves the vector as it was, `include?` returns false, `index`
returns absent, and `value?` of a map or unordered map returns false.  This
holds in particular for a vector that stores the searched element itself. -/
theorem search_without_equality {α K V : Type} (self : List α) (element : α)
    (m : List (K × V)) (key : K) (value : V) :
    VectorHelper.delete none self element = Result.ok none self
    ∧ VectorHelper.include? none self element = Result.ok false self
    ∧ VectorHelper.index none self element = Result.ok none self
    ∧ MapHelper.value? none m value = Result.ok false m
    ∧ UnorderedMapHelper.value? none m value = Result.ok false m
    ∧ VectorHelper.delete none (self ++ [element]) element
        = Result.ok none (self ++ [element])
    ∧ VectorHelper.include? none (self ++ [element]) element
        = Result.ok false (self ++ [element])
    ∧ VectorHelper.index none (self ++ [element]) element
        = Result.ok none (self ++ [element])
    ∧ MapHelper.value? none (m ++ [(key, value)]) value
        = Result.ok false (m ++ [(key, value)]) :=
  ⟨rfl, rfl, rfl, rfl, rfl, rfl, rfl, rfl, rfl⟩

/-- C25: for a streamable element type `to_s` of a vector of `N` elements is
"[", the renderings of the first `min N 1000` elements in order separated by
", ", and "]"; it is "[]" for the empty vector; and the vector renders exactly
as its prefix of 1000 elements does. -/
theorem to_s_rendering {α : Type} (render : α → String) (self : List α) :
    VectorHelper.to_s (some render) self
        = Result.ok
            ("[" ++ String.intercalate ", "
              ((self.take (min self.length 1000)).map render) ++ "]") self
    ∧ VectorHelper.to_s (some render) ([] : List α) = Result.ok "[]" []
    ∧ VectorHelper.to_s (some render) (self.take 1000)
        = Result.ok
            ("[" ++ String.intercalate ", "
              ((self.take (min self.length 1000)).map render) ++ "]") (self.take 1000) := by
  have hmin : self.take (min self.length 1000) = self.take 1000 := by
    rcases Nat.le_total self.length 1000 with h | h
    · rw [Nat.min_eq_left h, List.take_length, List.take_of_length_le h]
    · rw [Nat.min_eq_right h]
  refine ⟨?_, rfl, ?_⟩
  · rw [hmin]
    exact VectorHelper.to_s_closed render self
  · rw [hmin, VectorHelper.to_s_closed, List.take_take, Nat.min_self]

/-- C26: `each` of a vector calls the block once per element, in order, on the
conversion of the element, and returns the receiver: with a block that records
what it is given, the record after the call is the list of the `N`
conversions.  `each` of a map calls the block once per entry with the
converted key and value and returns the receiver; for a `std::map` built by
any sequence of stores the entries, and so the calls, are in strictly
ascending key order. -/
theorem each_yields_in_order {VAL α K V σ : Type} [Preorder K]
    [DecidableRel (fun (a b : K) => a < b)]
    (to_ruby : To_Ruby VAL α) (key_to_ruby : To_Ruby VAL K) (mapped_to_ruby : To_Ruby VAL V)
    (rb_yield : σ → VAL → σ) (rb_yield_values2 : σ → List VAL → σ) (host : σ)
    (self : List α) (stores : List (K × V)) (u : List (K × V)) :
    VectorHelper.each to_ruby rb_yield self host
        = Result.ok self (self, (self.map to_ruby.convert).foldl rb_yield host)
    ∧ VectorHelper.each to_ruby (fun yielded element => yielded ++ [element]) self []
        = Result.ok self (self, self.map to_ruby.convert)
    ∧ (self.map to_ruby.convert).length = self.length
    ∧ MapHelper.each key_to_ruby mapped_to_ruby rb_yield_values2
          (stores.foldl (fun m e => MapHelper.subscript_assign m e.1 e.2) []) host
        = Result.ok (stores.foldl (fun m e => MapHelper.subscript_assign m e.1 e.2) [])
            (stores.foldl (fun m e => MapHelper.subscript_assign m e.1 e.2) [],
              ((stores.foldl (fun m e => MapHelper.subscript_assign m e.1 e.2) []).map
                (fun pair => [key_to_ruby.convert pair.1, mapped_to_ruby.convert pair.2])).foldl
                rb_yield_values2 host)
    ∧ MapHelper.each key_to_ruby mapped_to_ruby (fun yielded argv => yielded ++ [argv])
          (stores.foldl (fun m e => MapHelper.subscript_assign m e.1 e.2) []) []
        = Result.ok (stores.foldl (fun m e => MapHelper.subscript_assign m e.1 e.2) [])
            (stores.foldl (fun m e => MapHelper.subscript_assign m e.1 e.2) [],
              (stores.foldl (fun m e => MapHelper.subscript_assign m e.1 e.2) []).map
                (fun pair => [key_to_ruby.convert pair.1, mapped_to_ruby.convert pair.2]))
    ∧ ((stores.foldl (fun m e => MapHelper.subscript_assign m e.1 e.2) []).map
          Prod.fst).Pairwise (fun a b => a < b)
    ∧ UnorderedMapHelper.each key_to_ruby mapped_to_ruby (fun yielded argv => yielded ++ [argv])
          u []
        = Result.ok u
            (u, u.map (fun pair => [key_to_ruby.convert pair.1, mapped_to_ruby.convert pair.2])) := by
  refine ⟨?_, ?_, ?_, ?_, ?_, ?_, ?_⟩
  · simp only [VectorHelper.each, VectorHelper.each_loop_foldl]
  · simp only [VectorHelper.each, VectorHelper.each_loop_foldl, foldl_append_singleton,
      List.nil_append]
  · simp
  · simp only [MapHelper.each, MapHelper.map_each_loop_foldl]
  · simp only [MapHelper.each, MapHelper.map_each_loop_foldl, foldl_append_singleton,
      List.nil_append]
  · have h := MapHelper.stores_ascending stores ([] : List (K × V)) List.Pairwise.nil
    exact List.pairwise_map.2 h
  · simp only [UnorderedMapHelper.each, MapHelper.map_each_loop_foldl, foldl_append_singleton,
      List.nil_append]

/-- C27: on the empty vector `first`, `last` and `pop` return absent, raise
nothing and leave the vector empty.  On a non-empty vector `first` returns
element 0, `last` returns the last element, and `pop` returns the last element
and removes exactly it: the vector that remains is the elements before it,
unchanged and in order. -/
theorem empty_and_end_access {α : Type} (x : α) (rest init : List α) :
    VectorHelper.first ([] : List α) = Result.ok none []
    ∧ VectorHelper.last ([] : List α) = Result.ok none []
    ∧ VectorHelper.pop ([] : List α) = Result.ok none []
    ∧ VectorHelper.first (x :: rest) = Result.ok (some x) (x :: rest)
    ∧ VectorHelper.last (init ++ [x]) = Result.ok (some x) (init ++ [x])
    ∧ VectorHelper.pop (init ++ [x]) = Result.ok (some x) init
    ∧ (init ++ [x])[(init ++ [x]).length - 1]? = some x
    ∧ init.length = (init ++ [x]).length - 1 := by
  refine ⟨rfl, rfl, rfl, ?_, ?_, ?_, VectorHelper.last_index init x, by simp⟩
  · simp [VectorHelper.first]
  · have h := VectorHelper.last_index init x
    simp only [VectorHelper.last, h]
    simp
  · have h := VectorHelper.last_index init x
    simp only [VectorHelper.pop, h]
    simp

end Rice

/-! ## Smart pointers -/

namespace Rice

theorem From_Ruby_smart_ptr.convert_exact {N W R : Type} (SmartPointer : SmartPointer_T)
    (host : Host N R)
    (getWrapper : VALUE N → Option rb_data_type_t → Except Exception (Option (Wrapper W)))
    (T : type_index) (value : VALUE N) (w : World N R)
    (rb_data_type : Option rb_data_type_t) (data_ : Option Nat)
    (hbound : Data_Type.ruby_data_type host T w = Except.ok rb_data_type)
    (hwrapper : getWrapper value rb_data_type
      = Except.ok (some (Wrapper.WrapperSmartPointer SmartPointer T data_))) :
    From_Ruby_smart_ptr.convert SmartPointer host getWrapper T value w = Except.ok data_ := by
  simp [From_Ruby_smart_ptr.convert, hbound, hwrapper, dynamic_cast_WrapperSmartPointer,
    WrapperSmartPointer.data]

theorem From_Ruby_smart_ptr.convert_other {N W R : Type} (SmartPointer : SmartPointer_T)
    (host : Host N R)
    (getWrapper : VALUE N → Option rb_data_type_t → Except Exception (Option (Wrapper W)))
    (T : type_index) (value : VALUE N) (w : World N R)
    (rb_data_type : Option rb_data_type_t) (wrapper : Option (Wrapper W))
    (hbound : Data_Type.ruby_data_type host T w = Except.ok rb_data_type)
    (hwrapper : getWrapper value rb_data_type = Except.ok wrapper)
    (hother : ∀ data_, wrapper ≠ some (Wrapper.WrapperSmartPointer SmartPointer T data_)) :
    From_Ruby_smart_ptr.convert SmartPointer host getWrapper T value w
      = Except.error (Exception.runtime_error "Invalid smart pointer wrapper") := by
  simp only [From_Ruby_smart_ptr.convert, hbound, hwrapper]
  cases wrapper with
  | none => rfl
  | some wr =>
    cases wr with
    | plain o => rfl
    | WrapperSmartPointer SmartPointer1 T1 data_ =>
      by_cases h : SmartPointer1 = SmartPointer ∧ T1 = T
      · obtain ⟨h1, h2⟩ := h
        subst h1
        subst h2
        exact absurd rfl (hother data_)
      · simp [dynamic_cast_WrapperSmartPointer, h]

/-- C21: let `T` be bound and let `detail::getWrapper` return the Wrapper of the
host value.  When that Wrapper is a `WrapperSmartPointer<std::shared_ptr, T>`
the conversions to `std::shared_ptr<T>` and `std::shared_ptr<T>&` return the
handle it holds, and when it is anything else (a unique-ownership Wrapper, a
smart pointer Wrapper of another type, a plain Wrapper, or none) they throw the
runtime error "Invalid smart pointer wrapper"; the conversion to
`std::unique_ptr<T>&` does the same with `WrapperSmartPointer<std::unique_ptr, T>`. -/
theorem from_ruby_smart_ptr_wrapper_kind {N W R : Type} (host : Host N R)
    (getWrapper : VALUE N → Option rb_data_type_t → Except Exception (Option (Wrapper W)))
    (T : type_index) (value : VALUE N) (w : World N R)
    (rb_data_type : Option rb_data_type_t) (wrapper : Option (Wrapper W))
    (hbound : Data_Type.ruby_data_type host T w = Except.ok rb_data_type)
    (hwrapper : getWrapper value rb_data_type = Except.ok wrapper) :
    (∀ data_, wrapper = some (Wrapper.WrapperSmartPointer SmartPointer_T.shared_ptr T data_) →
      From_Ruby_shared_ptr.convert host getWrapper T value w = Except.ok data_
      ∧ From_Ruby_shared_ptr_ref.convert host getWrapper T value w = Except.ok data_)
    ∧ ((∀ data_, wrapper ≠ some (Wrapper.WrapperSmartPointer SmartPointer_T.shared_ptr T data_)) →
      From_Ruby_shared_ptr.convert host getWrapper T value w
        = Except.error (Exception.runtime_error "Invalid smart pointer wrapper")
      ∧ From_Ruby_shared_ptr_ref.convert host getWrapper T value w
        = Except.error (Exception.runtime_error "Invalid smart pointer wrapper"))
    ∧ (∀ data_, wrapper = some (Wrapper.WrapperSmartPointer SmartPointer_T.unique_ptr T data_) →
      From_Ruby_unique_ptr_ref.convert host getWrapper T value w = Except.ok data_)
    ∧ ((∀ data_, wrapper ≠ some (Wrapper.WrapperSmartPointer SmartPointer_T.unique_ptr T data_)) →
      From_Ruby_unique_ptr_ref.convert host getWrapper T value w
        = Except.error (Exception.runtime_error "Invalid smart pointer wrapper")) := by
  refine ⟨?_, ?_, ?_, ?_⟩
  · intro data_ h
    subst h
    exact ⟨From_Ruby_smart_ptr.convert_exact _ host getWrapper T value w _ _ hbound hwrapper,
      From_Ruby_smart_ptr.convert_exact _ host getWrapper T value w _ _ hbound hwrapper⟩
  · intro h
    exact ⟨From_Ruby_smart_ptr.convert_other _ host getWrapper T value w _ _ hbound hwrapper h,
      From_Ruby_smart_ptr.convert_other _ host getWrapper T value w _ _ hbound hwrapper h⟩
  · intro data_ h
    subst h
    exact From_Ruby_smart_ptr.convert_exact _ host getWrapper T value w _ _ hbound hwrapper
  · intro h
    exact From_Ruby_smart_ptr.convert_other _ host getWrapper T value w _ _ hbound hwrapper h

/-- Witness of C21: the type `1` is bound and the host value carries a
unique-ownership Wrapper of the object at address 5. -/
theorem from_ruby_smart_ptr_wrapper_kind_witness :
    From_Ruby_unique_ptr_ref.convert simple_host
        (fun _ _ => Except.ok (some (Wrapper.WrapperSmartPointer SmartPointer_T.unique_ptr 1
          (some 5) : Wrapper Unit)))
        1 (VALUE.data ()) world_bound = Except.ok (some 5)
    ∧ From_Ruby_shared_ptr.convert simple_host
        (fun _ _ => Except.ok (some (Wrapper.WrapperSmartPointer SmartPointer_T.unique_ptr 1
          (some 5) : Wrapper Unit)))
        1 (VALUE.data ()) world_bound
      = Except.error (Exception.runtime_error "Invalid smart pointer wrapper") :=
  have h := from_ruby_smart_ptr_wrapper_kind simple_host
    (fun _ _ => Except.ok (some (Wrapper.WrapperSmartPointer SmartPointer_T.unique_ptr 1
      (some 5) : Wrapper Unit)))
    1 (VALUE.data ()) world_bound (some (rb_data_type_t.mk "C7" 1 none))
    (some (Wrapper.WrapperSmartPointer SmartPointer_T.unique_ptr 1 (some 5))) rfl rfl
  ⟨h.2.2.1 (some 5) rfl, (h.2.1 (fun data_ hd => by simp at hd)).1⟩

/-- C22, as the code has it: the Wrapper is constructed from the handle, and
its constructor moves from its argument.  After
`To_Ruby<std::shared_ptr<T>>::convert(p)` for a handle `p` referring to an
object, the new Wrapper holds the object, `p` is empty and every use count is
what it was before: the share of `p` is transferred to the Wrapper, not
duplicated. -/
theorem shared_ptr_to_ruby_transfers {W : Type}
    (figureType : type_index → Nat →
      Except Exception (VALUE (Wrapper W) × Option rb_data_type_t))
    (T : type_index) (object : Nat) (use_count : Nat → Nat)
    (rubyTypeInfo : VALUE (Wrapper W) × Option rb_data_type_t)
    (hfigure : figureType T object = Except.ok rubyTypeInfo) :
    To_Ruby_shared_ptr.convert figureType T (some object) use_count
        = Result.ok
            (VALUE.data (Wrapper.WrapperSmartPointer SmartPointer_T.shared_ptr T (some object)))
            (none, use_count)
    ∧ WrapperSmartPointer.construct SmartPointer_T.shared_ptr T (some object) use_count
        = ((Wrapper.WrapperSmartPointer SmartPointer_T.shared_ptr T (some object) : Wrapper W),
            none, use_count) := by
  refine ⟨?_, rfl⟩
  simp only [To_Ruby_shared_ptr.convert, To_Ruby_smart_ptr.convert, hfigure]
  rfl

/-- Witness of C22: the handle refers to the object at address 7, whose use
count is 1. -/
theorem shared_ptr_to_ruby_transfers_witness :
    To_Ruby_shared_ptr.convert
        (fun _ _ => Except.ok ((VALUE.klass 1 : VALUE (Wrapper Unit)), none)) 0 (some 7)
        (fun _ => 1)
      = Result.ok
          (VALUE.data (Wrapper.WrapperSmartPointer SmartPointer_T.shared_ptr 0 (some 7)))
          (none, fun _ => 1) :=
  (shared_ptr_to_ruby_transfers
    (fun _ _ => Except.ok ((VALUE.klass 1 : VALUE (Wrapper Unit)), none)) 0 7 (fun _ => 1)
    (VALUE.klass 1, none) rfl).1

/-- Counterexample to C22 as stated: a handle to the object at address 7 with
use count 1 is converted; afterwards the handle does not refer to the object
and the use count is not 2. -/
theorem shared_ptr_to_ruby_counterexample :
    ¬ ∃ (value : VALUE (Wrapper Unit)) (after : Nat → Nat),
      To_Ruby_shared_ptr.convert
          (fun _ _ => Except.ok ((VALUE.klass 1 : VALUE (Wrapper Unit)), none)) 0 (some 7)
          (fun _ => 1)
        = Result.ok value (some 7, after) ∧ after 7 = 2 := by
  rintro ⟨value, after, h, _⟩
  simp [To_Ruby_shared_ptr.convert, To_Ruby_smart_ptr.convert, wrap_smart_pointer,
    WrapperSmartPointer.construct, smart_ptr_move] at h

end Rice

/-! ## The ownership scenario -/

namespace Rice

theorem ruby_free_internal_fields (wrapper : PlainWrapper) (s : Ownership) :
    (ruby_free_internal wrapper s).constructorCalls = s.constructorCalls
    ∧ (ruby_free_internal wrapper s).copyConstructorCalls = s.copyConstructorCalls
    ∧ (ruby_free_internal wrapper s).moveConstructorCalls = s.moveConstructorCalls
    ∧ (ruby_free_internal wrapper s).destructorCalls
        = s.destructorCalls + (if wrapper.isOwned then 1 else 0)
    ∧ (ruby_free_internal wrapper s).instance_ = s.instance_
    ∧ (ruby_free_internal wrapper s).wrappers = s.wrappers
    ∧ (ruby_free_internal wrapper s).next = s.next := by
  unfold ruby_free_internal PlainWrapper.destructor
  cases h : wrapper.isOwned <;> simp [MyClass.destructor]

theorem ruby_free_internal_flag (wrapper : PlainWrapper) (s : Ownership) (a : Nat) :
    (wrapper.isOwned = true → wrapper.get ≠ a →
      (ruby_free_internal wrapper s).flag a = s.flag a)
    ∧ (wrapper.isOwned = false → (ruby_free_internal wrapper s).flag a = s.flag a)
    ∧ (wrapper.isOwned = true → wrapper.get = a →
      (ruby_free_internal wrapper s).flag a = none)
    ∧ (s.flag a = none → (ruby_free_internal wrapper s).flag a = none) := by
  unfold ruby_free_internal PlainWrapper.destructor
  cases h : wrapper.isOwned
  · simp
  · simp only [if_true, MyClass.destructor]
    refine ⟨?_, ?_, ?_, ?_⟩
    · intro _ hne
      simp [Ne.symm hne]
    · intro hf
      exact absurd hf (by simp)
    · intro _ heq
      simp [heq]
    · intro hnone
      by_cases ha : a = wrapper.get <;> simp [ha, hnone]

theorem foldl_free_fields (l : List PlainWrapper) (s : Ownership) :
    (l.foldl (fun s wrapper => ruby_free_internal wrapper s) s).constructorCalls
        = s.constructorCalls
    ∧ (l.foldl (fun s wrapper => ruby_free_internal wrapper s) s).copyConstructorCalls
        = s.copyConstructorCalls
    ∧ (l.foldl (fun s wrapper => ruby_free_internal wrapper s) s).moveConstructorCalls
        = s.moveConstructorCalls
    ∧ (l.foldl (fun s wrapper => ruby_free_internal wrapper s) s).destructorCalls
        = s.destructorCalls + (l.filter PlainWrapper.isOwned).length
    ∧ (l.foldl (fun s wrapper => ruby_free_internal wrapper s) s).instance_ = s.instance_
    ∧ (l.foldl (fun s wrapper => ruby_free_internal wrapper s) s).wrappers = s.wrappers := by
  induction l generalizing s with
  | nil => simp
  | cons w rest ih =>
    simp only [List.foldl_cons]
    obtain ⟨h1, h2, h3, h4, h5, h6⟩ := ih (ruby_free_internal w s)
    obtain ⟨g1, g2, g3, g4, g5, g6, _⟩ := ruby_free_internal_fields w s
    refine ⟨h1.trans g1, h2.trans g2, h3.trans g3, ?_, h5.trans g5, h6.trans g6⟩
    rw [h4, g4]
    cases hw : w.isOwned <;> simp [List.filter_cons, hw]
    omega

theorem foldl_free_flag_kept (l : List PlainWrapper) (s : Ownership) (a : Nat)
    (hl : ∀ w ∈ l, w.isOwned = true → w.get ≠ a) :
    (l.foldl (fun s wrapper => ruby_free_internal wrapper s) s).flag a = s.flag a := by
  induction l generalizing s with
  | nil => rfl
  | cons w rest ih =>
    simp only [List.foldl_cons]
    rw [ih _ (fun w1 h1 => hl w1 (List.mem_cons_of_mem _ h1))]
    cases hw : w.isOwned
    · exact (ruby_free_internal_flag w s a).2.1 hw
    · exact (ruby_free_internal_flag w s a).1 hw (hl w (List.mem_cons_self _ _) hw)

theorem foldl_free_flag_none (l : List PlainWrapper) (s : Ownership) (a : Nat)
    (hs : s.flag a = none) :
    (l.foldl (fun s wrapper => ruby_free_internal wrapper s) s).flag a = none := by
  induction l generalizing s with
  | nil => exact hs
  | cons w rest ih =>
    simp only [List.foldl_cons]
    exact ih _ ((ruby_free_internal_flag w s a).2.2.2 hs)

theorem foldl_free_flag_destroyed (l : List PlainWrapper) (s : Ownership) (a : Nat)
    (w : PlainWrapper) (hw : w ∈ l) (howned : w.isOwned = true) (hget : w.get = a) :
    (l.foldl (fun s wrapper => ruby_free_internal wrapper s) s).flag a = none := by
  induction l generalizing s with
  | nil => exact absurd hw (List.not_mem_nil _)
  | cons w1 rest ih =>
    simp only [List.foldl_cons]
    rcases List.mem_cons.1 hw with h | h
    · subst h
      exact foldl_free_flag_none rest _ a ((ruby_free_internal_flag w s a).2.2.1 howned hget)
    · exact ih _ h

theorem GC_start_fields (s : Ownership) :
    (GC_start s).constructorCalls = s.constructorCalls
    ∧ (GC_start s).copyConstructorCalls = s.copyConstructorCalls
    ∧ (GC_start s).moveConstructorCalls = s.moveConstructorCalls
    ∧ (GC_start s).destructorCalls = s.destructorCalls + Ownership.owned s
    ∧ (GC_start s).instance_ = s.instance_
    ∧ (GC_start s).wrappers = [] := by
  obtain ⟨h1, h2, h3, h4, h5, h6⟩ := foldl_free_fields s.wrappers { s with wrappers := [] }
  exact ⟨h1, h2, h3, h4, h5, h6⟩

theorem Ownership.reset_fields (s : Ownership) :
    (MyClass.reset (Factory.reset s)).constructorCalls = 0
    ∧ (MyClass.reset (Factory.reset s)).copyConstructorCalls = 0
    ∧ (MyClass.reset (Factory.reset s)).moveConstructorCalls = 0
    ∧ (MyClass.reset (Factory.reset s)).destructorCalls = 0
    ∧ (MyClass.reset (Factory.reset s)).instance_ = none
    ∧ (MyClass.reset (Factory.reset s)).wrappers = s.wrappers
    ∧ (MyClass.reset (Factory.reset s)).next = s.next := by
  unfold MyClass.reset Factory.reset
  cases h : s.instance_ <;> simp [MyClass.destructor]

theorem Ownership.times_transfer_pointer (count i : Nat) (s : Ownership) :
    (Ownership.times Ownership.transfer_pointer count i s).constructorCalls
        = s.constructorCalls + count
    ∧ (Ownership.times Ownership.transfer_pointer count i s).copyConstructorCalls
        = s.copyConstructorCalls
    ∧ (Ownership.times Ownership.transfer_pointer count i s).moveConstructorCalls
        = s.moveConstructorCalls
    ∧ (Ownership.times Ownership.transfer_pointer count i s).destructorCalls
        = s.destructorCalls
    ∧ (Ownership.times Ownership.transfer_pointer count i s).instance_ = s.instance_
    ∧ Ownership.owned (Ownership.times Ownership.transfer_pointer count i s)
        = Ownership.owned s + count
    ∧ (Ownership.times Ownership.transfer_pointer count i s).wrappers.length
        = s.wrappers.length + count
    ∧ (∀ w ∈ s.wrappers, w ∈ (Ownership.times Ownership.transfer_pointer count i s).wrappers)
    ∧ (∀ j, j < count → PlainWrapper.WrapperPointer (s.next + j) true
        ∈ (Ownership.times Ownership.transfer_pointer count i s).wrappers) := by
  induction count generalizing i s with
  | zero => simp [Ownership.times]
  | succ k ih =>
    simp only [Ownership.times]
    obtain ⟨h1, h2, h3, h4, h5, h6, h7, h8, h9⟩ := ih (i + 1)
      (Ownership.set_flag (Ownership.transfer_pointer s).1 (i : Int)
        (Ownership.transfer_pointer s).2)
    refine ⟨?_, h2, h3, h4, h5, ?_, ?_, ?_, ?_⟩
    · rw [h1]
      show s.constructorCalls + 1 + k = s.constructorCalls + (k + 1)
      omega
    · rw [h6]
      show (List.filter PlainWrapper.isOwned
        (PlainWrapper.WrapperPointer s.next true :: s.wrappers)).length + k = _
      simp [Ownership.owned, List.filter_cons, PlainWrapper.isOwned]
      omega
    · rw [h7]
      show (PlainWrapper.WrapperPointer s.next true :: s.wrappers).length + k = _
      simp
      omega
    · intro w hw
      exact h8 w (List.mem_cons_of_mem _ hw)
    · intro j hj
      cases j with
      | zero => exact h8 _ (List.mem_cons_self _ _)
      | succ j =>
        have := h9 j (by omega)
        have hnext : (Ownership.set_flag (Ownership.transfer_pointer s).1 (i : Int)
          (Ownership.transfer_pointer s).2).next = s.next + 1 := rfl
        rw [hnext] at this
        rw [show s.next + (j + 1) = s.next + 1 + j by omega]
        exact this

/-- C28: the test case `TransferPointer` with `n` calls, started in a state with
no host object of `MyClass`.  After it there have been `n` constructions, no
copy or move construction and `n` destructions, and `Factory::instance_` is
null.  Before the collection each of the `n` returned objects has an Owned
Wrapper of its own and the `n` Wrappers are all there are; the collection
frees them all, and none of the returned objects is live after it. -/
theorem transfer_pointer_counts (n : Nat) (s : Ownership) (hs : s.wrappers = []) :
    (Ownership.TransferPointer n s).constructorCalls = n
    ∧ (Ownership.TransferPointer n s).copyConstructorCalls = 0
    ∧ (Ownership.TransferPointer n s).moveConstructorCalls = 0
    ∧ (Ownership.TransferPointer n s).destructorCalls = n
    ∧ (Ownership.TransferPointer n s).instance_ = none
    ∧ (Ownership.TransferPointer n s).wrappers = []
    ∧ (Ownership.times Ownership.transfer_pointer n 0
        (MyClass.reset (Factory.reset s))).wrappers.length = n
    ∧ (∀ j, j < n → PlainWrapper.WrapperPointer (s.next + j) true
        ∈ (Ownership.times Ownership.transfer_pointer n 0
            (MyClass.reset (Factory.reset s))).wrappers)
    ∧ (Ownership.times Ownership.transfer_pointer n 0
        (MyClass.reset (Factory.reset s))).destructorCalls = 0
    ∧ (∀ j, j < n → (Ownership.TransferPointer n s).flag (s.next + j) = none) := by
  obtain ⟨r1, r2, r3, r4, r5, r6, r7⟩ := Ownership.reset_fields s
  obtain ⟨t1, t2, t3, t4, t5, t6, t7, _, t9⟩ :=
    Ownership.times_transfer_pointer n 0 (MyClass.reset (Factory.reset s))
  obtain ⟨g1, g2, g3, g4, g5, g6⟩ :=
    GC_start_fields (Ownership.times Ownership.transfer_pointer n 0
      (MyClass.reset (Factory.reset s)))
  have howned : Ownership.owned (MyClass.reset (Factory.reset s)) = 0 := by
    simp [Ownership.owned, r6, hs]
  rw [r7] at t9
  unfold Ownership.TransferPointer Ownership.testcase
  refine ⟨?_, ?_, ?_, ?_, ?_, g6, ?_, t9, ?_, ?_⟩
  · rw [g1, t1, r1]; omega
  · rw [g2, t2, r2]
  · rw [g3, t3, r3]
  · rw [g4, t4, r4, t6, howned]; omega
  · rw [g5, t5, r5]
  · rw [t7, r6, hs]; simp
  · rw [t4, r4]
  · intro j hj
    exact foldl_free_flag_destroyed _ _ _ _ (t9 j hj) rfl rfl

/-- Witness of C28: ten calls from the state of a process that has created no
object. -/
theorem transfer_pointer_counts_witness :
    (Ownership.TransferPointer 10 Ownership.start).constructorCalls = 10
    ∧ (Ownership.TransferPointer 10 Ownership.start).destructorCalls = 10 :=
  have h := transfer_pointer_counts 10 Ownership.start rfl
  ⟨h.1, h.2.2.2.1⟩

theorem Ownership.keep_step_bound (mk : Nat → PlainWrapper)
    (method : Ownership → PlainWrapper × Ownership)
    (hmethod : ∀ s, method s = (mk (Factory.getInstance s).1,
      { (Factory.getInstance s).2 with
        wrappers := mk (Factory.getInstance s).1 :: (Factory.getInstance s).2.wrappers }))
    (hget : ∀ d, (mk d).get = d) (howned : ∀ d, (mk d).isOwned = false)
    (i : Nat) (s : Ownership) (a : Nat) (hinst : s.instance_ = some a) :
    (Ownership.set_flag (method s).1 (i : Int) (method s).2).constructorCalls
        = s.constructorCalls
    ∧ (Ownership.set_flag (method s).1 (i : Int) (method s).2).copyConstructorCalls
        = s.copyConstructorCalls
    ∧ (Ownership.set_flag (method s).1 (i : Int) (method s).2).moveConstructorCalls
        = s.moveConstructorCalls
    ∧ (Ownership.set_flag (method s).1 (i : Int) (method s).2).destructorCalls
        = s.destructorCalls
    ∧ (Ownership.set_flag (method s).1 (i : Int) (method s).2).instance_ = some a
    ∧ Ownership.owned (Ownership.set_flag (method s).1 (i : Int) (method s).2)
        = Ownership.owned s
    ∧ (Ownership.set_flag (method s).1 (i : Int) (method s).2).flag a = some (i : Int) := by
  have hg : Factory.getInstance s = (a, s) := by simp [Factory.getInstance, hinst]
  rw [hmethod s, hg]
  simp [Ownership.set_flag, MyClass.setFlag, hget, hinst, Ownership.owned, List.filter_cons,
    howned]

theorem Ownership.keep_step_first (mk : Nat → PlainWrapper)
    (method : Ownership → PlainWrapper × Ownership)
    (hmethod : ∀ s, method s = (mk (Factory.getInstance s).1,
      { (Factory.getInstance s).2 with
        wrappers := mk (Factory.getInstance s).1 :: (Factory.getInstance s).2.wrappers }))
    (hget : ∀ d, (mk d).get = d) (howned : ∀ d, (mk d).isOwned = false)
    (i : Nat) (s : Ownership) (hinst : s.instance_ = none) :
    (Ownership.set_flag (method s).1 (i : Int) (method s).2).constructorCalls
        = s.constructorCalls + 1
    ∧ (Ownership.set_flag (method s).1 (i : Int) (method s).2).copyConstructorCalls
        = s.copyConstructorCalls
    ∧ (Ownership.set_flag (method s).1 (i : Int) (method s).2).moveConstructorCalls
        = s.moveConstructorCalls
    ∧ (Ownership.set_flag (method s).1 (i : Int) (method s).2).destructorCalls
        = s.destructorCalls
    ∧ (Ownership.set_flag (method s).1 (i : Int) (method s).2).instance_ = some s.next
    ∧ Ownership.owned (Ownership.set_flag (method s).1 (i : Int) (method s).2)
        = Ownership.owned s
    ∧ (Ownership.set_flag (method s).1 (i : Int) (method s).2).flag s.next
        = some (i : Int) := by
  rw [hmethod s]
  simp [Factory.getInstance, hinst, MyClass.new, MyClass.constructor, Ownership.set_flag,
    MyClass.setFlag, hget, Ownership.owned, List.filter_cons, howned]

theorem Ownership.times_keep (mk : Nat → PlainWrapper)
    (method : Ownership → PlainWrapper × Ownership)
    (hmethod : ∀ s, method s = (mk (Factory.getInstance s).1,
      { (Factory.getInstance s).2 with
        wrappers := mk (Factory.getInstance s).1 :: (Factory.getInstance s).2.wrappers }))
    (hget : ∀ d, (mk d).get = d) (howned : ∀ d, (mk d).isOwned = false)
    (count i : Nat) (s : Ownership) (a : Nat) (f : Int) (hinst : s.instance_ = some a)
    (hflag : s.flag a = some f) :
    (Ownership.times method count i s).constructorCalls = s.constructorCalls
    ∧ (Ownership.times method count i s).copyConstructorCalls = s.copyConstructorCalls
    ∧ (Ownership.times method count i s).moveConstructorCalls = s.moveConstructorCalls
    ∧ (Ownership.times method count i s).destructorCalls = s.destructorCalls
    ∧ (Ownership.times method count i s).instance_ = some a
    ∧ Ownership.owned (Ownership.times method count i s) = Ownership.owned s
    ∧ (Ownership.times method count i s).flag a
        = some (if count = 0 then f else ((i + count - 1 : Nat) : Int)) := by
  induction count generalizing i s f with
  | zero => simp [Ownership.times, hinst, hflag]
  | succ k ih =>
    simp only [Ownership.times]
    obtain ⟨b1, b2, b3, b4, b5, b6, b7⟩ :=
      Ownership.keep_step_bound mk method hmethod hget howned i s a hinst
    obtain ⟨h1, h2, h3, h4, h5, h6, h7⟩ := ih (i + 1) _ (i : Int) b5 b7
    refine ⟨h1.trans b1, h2.trans b2, h3.trans b3, h4.trans b4, h5, h6.trans b6, ?_⟩
    rw [h7]
    cases k with
    | zero => simp
    | succ k =>
      simp only [Nat.add_one_ne_zero, if_false]
      congr 2
      omega

theorem Ownership.testcase_keep (mk : Nat → PlainWrapper)
    (method : Ownership → PlainWrapper × Ownership)
    (hmethod : ∀ s, method s = (mk (Factory.getInstance s).1,
      { (Factory.getInstance s).2 with
        wrappers := mk (Factory.getInstance s).1 :: (Factory.getInstance s).2.wrappers }))
    (hget : ∀ d, (mk d).get = d) (howned : ∀ d, (mk d).isOwned = false)
    (n : Nat) (s : Ownership) (hn : 1 ≤ n) (hs : s.wrappers = []) :
    (Ownership.testcase method n s).constructorCalls = 1
    ∧ (Ownership.testcase method n s).copyConstructorCalls = 0
    ∧ (Ownership.testcase method n s).moveConstructorCalls = 0
    ∧ (Ownership.testcase method n s).destructorCalls = 0
    ∧ (Ownership.testcase method n s).instance_ = some s.next
    ∧ (Ownership.testcase method n s).flag s.next = some ((n - 1 : Nat) : Int)
    ∧ Ownership.owned (Ownership.times method n 0 (MyClass.reset (Factory.reset s))) = 0 := by
  obtain ⟨m, rfl⟩ : ∃ m, n = m + 1 := ⟨n - 1, by omega⟩
  obtain ⟨r1, r2, r3, r4, r5, r6, r7⟩ := Ownership.reset_fields s
  obtain ⟨f1, f2, f3, f4, f5, f6, f7⟩ :=
    Ownership.keep_step_first mk method hmethod hget howned 0
      (MyClass.reset (Factory.reset s)) r5
  have howned0 : Ownership.owned (MyClass.reset (Factory.reset s)) = 0 := by
    simp [Ownership.owned, r6, hs]
  obtain ⟨t1, t2, t3, t4, t5, t6, t7⟩ :=
    Ownership.times_keep mk method hmethod hget howned m (0 + 1) _ _ _ f5 f7
  have htimes : Ownership.times method (m + 1) 0 (MyClass.reset (Factory.reset s))
      = Ownership.times method m (0 + 1)
          (Ownership.set_flag (method (MyClass.reset (Factory.reset s))).1 ((0 : Nat) : Int)
            (method (MyClass.reset (Factory.reset s))).2) := rfl
  obtain ⟨g1, g2, g3, g4, g5, _⟩ :=
    GC_start_fields (Ownership.times method (m + 1) 0 (MyClass.reset (Factory.reset s)))
  have hzero : Ownership.owned
      (Ownership.times method (m + 1) 0 (MyClass.reset (Factory.reset s))) = 0 := by
    rw [htimes, t6, f6, howned0]
  have hnone : ∀ w ∈ (Ownership.times method (m + 1) 0
      (MyClass.reset (Factory.reset s))).wrappers, w.isOwned = true →
      w.get ≠ (MyClass.reset (Factory.reset s)).next := by
    intro w hw ho
    have hmem : w ∈ List.filter PlainWrapper.isOwned (Ownership.times method (m + 1) 0
        (MyClass.reset (Factory.reset s))).wrappers := List.mem_filter.2 ⟨hw, ho⟩
    unfold Ownership.owned at hzero
    rw [List.length_eq_zero.1 hzero] at hmem
    exact absurd hmem (List.not_mem_nil _)
  unfold Ownership.testcase
  refine ⟨?_, ?_, ?_, ?_, ?_, ?_, hzero⟩
  · rw [g1, htimes, t1, f1, r1]
  · rw [g2, htimes, t2, f2, r2]
  · rw [g3, htimes, t3, f3, r3]
  · rw [g4, hzero, htimes, t4, f4, r4]
  · rw [g5, htimes, t5, r7]
  · rw [← r7]
    unfold GC_start
    rw [foldl_free_flag_kept _ _ _ hnone]
    show (Ownership.times method (m + 1) 0 (MyClass.reset (Factory.reset s))).flag _ = _
    rw [htimes, t7]
    cases m with
    | zero => simp
    | succ m => simp

/-- C29: the test cases `KeepPointer` and `KeepReference` with `n` calls, for
`n` at least 1, started in a state with no host object of `MyClass`.  After each
there have been one construction, no copy or move construction and no
destruction; no Wrapper made by the calls is Owned; the singleton
`Factory::instance_` is the object constructed by the first call, it is live,
and its flag is `n - 1`, the value set through the last host handle. -/
theorem keep_pointer_and_reference_counts (n : Nat) (s : Ownership) (hn : 1 ≤ n)
    (hs : s.wrappers = []) :
    ((Ownership.KeepPointer n s).constructorCalls = 1
      ∧ (Ownership.KeepPointer n s).copyConstructorCalls = 0
      ∧ (Ownership.KeepPointer n s).moveConstructorCalls = 0
      ∧ (Ownership.KeepPointer n s).destructorCalls = 0
      ∧ (Ownership.KeepPointer n s).instance_ = some s.next
      ∧ (Ownership.KeepPointer n s).flag s.next = some ((n - 1 : Nat) : Int)
      ∧ Ownership.owned (Ownership.times Ownership.keep_pointer n 0
          (MyClass.reset (Factory.reset s))) = 0)
    ∧ ((Ownership.KeepReference n s).constructorCalls = 1
      ∧ (Ownership.KeepReference n s).copyConstructorCalls = 0
      ∧ (Ownership.KeepReference n s).moveConstructorCalls = 0
      ∧ (Ownership.KeepReference n s).destructorCalls = 0
      ∧ (Ownership.KeepReference n s).instance_ = some s.next
      ∧ (Ownership.KeepReference n s).flag s.next = some ((n - 1 : Nat) : Int)
      ∧ Ownership.owned (Ownership.times Ownership.keep_reference n 0
          (MyClass.reset (Factory.reset s))) = 0) :=
  ⟨Ownership.testcase_keep (fun d => PlainWrapper.WrapperPointer d false)
      Ownership.keep_pointer (fun _ => rfl) (fun _ => rfl) (fun _ => rfl) n s hn hs,
    Ownership.testcase_keep (fun d => PlainWrapper.WrapperReference d)
      Ownership.keep_reference (fun _ => rfl) (fun _ => rfl) (fun _ => rfl) n s hn hs⟩

/-- Witness of C29: ten calls from the state of a process that has created no
object. -/
theorem keep_pointer_and_reference_counts_witness :
    (Ownership.KeepPointer 10 Ownership.start).constructorCalls = 1
    ∧ (Ownership.KeepPointer 10 Ownership.start).destructorCalls = 0
    ∧ (Ownership.KeepPointer 10 Ownership.start).flag 0 = some 9
    ∧ (Ownership.KeepReference 10 Ownership.start).flag 0 = some 9 :=
  have h := keep_pointer_and_reference_counts 10 Ownership.start (by decide) rfl
  ⟨h.1.1, h.1.2.2.2.1, h.1.2.2.2.2.2.1, h.2.2.2.2.2.2.1⟩

theorem Ownership.copy_step_bound (i : Nat) (s : Ownership) (a : Nat)
    (hinst : s.instance_ = some a) (hlt : a < s.next)
    (hw : ∀ w ∈ s.wrappers, w.get ≠ a) :
    (Ownership.set_flag (Ownership.copy_reference s).1 (i : Int)
        (Ownership.copy_reference s).2).constructorCalls = s.constructorCalls
    ∧ (Ownership.set_flag (Ownership.copy_reference s).1 (i : Int)
        (Ownership.copy_reference s).2).copyConstructorCalls = s.copyConstructorCalls + 1
    ∧ (Ownership.set_flag (Ownership.copy_reference s).1 (i : Int)
        (Ownership.copy_reference s).2).moveConstructorCalls = s.moveConstructorCalls
    ∧ (Ownership.set_flag (Ownership.copy_reference s).1 (i : Int)
        (Ownership.copy_reference s).2).destructorCalls = s.destructorCalls
    ∧ (Ownership.set_flag (Ownership.copy_reference s).1 (i : Int)
        (Ownership.copy_reference s).2).instance_ = some a
    ∧ Ownership.owned (Ownership.set_flag (Ownership.copy_reference s).1 (i : Int)
        (Ownership.copy_reference s).2) = Ownership.owned s + 1
    ∧ (Ownership.set_flag (Ownership.copy_reference s).1 (i : Int)
        (Ownership.copy_reference s).2).flag a = s.flag a
    ∧ a < (Ownership.set_flag (Ownership.copy_reference s).1 (i : Int)
        (Ownership.copy_reference s).2).next
    ∧ (∀ w ∈ (Ownership.set_flag (Ownership.copy_reference s).1 (i : Int)
        (Ownership.copy_reference s).2).wrappers, w.get ≠ a) := by
  have hg : Factory.getInstance s = (a, s) := by simp [Factory.getInstance, hinst]
  have hne : a ≠ s.next := Nat.ne_of_lt hlt
  simp only [Ownership.copy_reference, Factory.keepReference, hg, to_ruby_reference, if_true,
    Ownership.set_flag, MyClass.setFlag, MyClass.copy, PlainWrapper.get, Ownership.owned]
  refine ⟨trivial, trivial, trivial, trivial, hinst, ?_, ?_, ?_, ?_⟩
  · simp [List.filter_cons, PlainWrapper.isOwned]
  · simp [hne]
  · show a < s.next + 1
    omega
  · intro w hmem
    rcases List.mem_cons.1 hmem with h | h
    · subst h
      exact fun h => hne h.symm
    · exact hw w h

theorem Ownership.copy_step_first (i : Nat) (s : Ownership) (hinst : s.instance_ = none)
    (hs : s.wrappers = []) :
    (Ownership.set_flag (Ownership.copy_reference s).1 (i : Int)
        (Ownership.copy_reference s).2).constructorCalls = s.constructorCalls + 1
    ∧ (Ownership.set_flag (Ownership.copy_reference s).1 (i : Int)
        (Ownership.copy_reference s).2).copyConstructorCalls = s.copyConstructorCalls + 1
    ∧ (Ownership.set_flag (Ownership.copy_reference s).1 (i : Int)
        (Ownership.copy_reference s).2).moveConstructorCalls = s.moveConstructorCalls
    ∧ (Ownership.set_flag (Ownership.copy_reference s).1 (i : Int)
        (Ownership.copy_reference s).2).destructorCalls = s.destructorCalls
    ∧ (Ownership.set_flag (Ownership.copy_reference s).1 (i : Int)
        (Ownership.copy_reference s).2).instance_ = some s.next
    ∧ Ownership.owned (Ownership.set_flag (Ownership.copy_reference s).1 (i : Int)
        (Ownership.copy_reference s).2) = 1
    ∧ (Ownership.set_flag (Ownership.copy_reference s).1 (i : Int)
        (Ownership.copy_reference s).2).flag s.next = some 0
    ∧ s.next < (Ownership.set_flag (Ownership.copy_reference s).1 (i : Int)
        (Ownership.copy_reference s).2).next
    ∧ (∀ w ∈ (Ownership.set_flag (Ownership.copy_reference s).1 (i : Int)
        (Ownership.copy_reference s).2).wrappers, w.get ≠ s.next) := by
  simp [Ownership.copy_reference, Factory.keepReference, Factory.getInstance, hinst,
    MyClass.new, MyClass.constructor, to_ruby_reference, Ownership.set_flag, MyClass.setFlag,
    MyClass.copy, PlainWrapper.get, Ownership.owned, List.filter_cons, PlainWrapper.isOwned, hs]
  omega

theorem Ownership.times_copy_reference (count i : Nat) (s : Ownership) (a : Nat)
    (hinst : s.instance_ = some a) (hlt : a < s.next)
    (hw : ∀ w ∈ s.wrappers, w.get ≠ a) :
    (Ownership.times Ownership.copy_reference count i s).constructorCalls
        = s.constructorCalls
    ∧ (Ownership.times Ownership.copy_reference count i s).copyConstructorCalls
        = s.copyConstructorCalls + count
    ∧ (Ownership.times Ownership.copy_reference count i s).moveConstructorCalls
        = s.moveConstructorCalls
    ∧ (Ownership.times Ownership.copy_reference count i s).destructorCalls
        = s.destructorCalls
    ∧ (Ownership.times Ownership.copy_reference count i s).instance_ = some a
    ∧ Ownership.owned (Ownership.times Ownership.copy_reference count i s)
        = Ownership.owned s + count
    ∧ (Ownership.times Ownership.copy_reference count i s).flag a = s.flag a
    ∧ (∀ w ∈ (Ownership.times Ownership.copy_reference count i s).wrappers, w.get ≠ a) := by
  induction count generalizing i s with
  | zero => exact ⟨rfl, rfl, rfl, rfl, hinst, rfl, rfl, hw⟩
  | succ k ih =>
    simp only [Ownership.times]
    obtain ⟨b1, b2, b3, b4, b5, b6, b7, b8, b9⟩ := Ownership.copy_step_bound i s a hinst hlt hw
    obtain ⟨h1, h2, h3, h4, h5, h6, h7, h8⟩ := ih (i + 1) _ b5 b8 b9
    refine ⟨h1.trans b1, ?_, h3.trans b3, h4.trans b4, h5, ?_, h7.trans b7, h8⟩
    · rw [h2, b2]; omega
    · rw [h6, b6]; omega

/-- C30: the test case `CopyReference` with `n` calls, for `n` at least 1,
started in a state with no host object of `MyClass`.  After it there have been
one construction, `n` copy constructions, no move construction and `n`
destructions, none of them before the collection; the singleton
`Factory::instance_` is the object constructed by the first call, it is live,
and its flag is 0, whatever was set through the host handles. -/
theorem copy_reference_counts (n : Nat) (s : Ownership) (hn : 1 ≤ n)
    (hs : s.wrappers = []) :
    (Ownership.CopyReference n s).constructorCalls = 1
    ∧ (Ownership.CopyReference n s).copyConstructorCalls = n
    ∧ (Ownership.CopyReference n s).moveConstructorCalls = 0
    ∧ (Ownership.CopyReference n s).destructorCalls = n
    ∧ (Ownership.CopyReference n s).instance_ = some s.next
    ∧ (Ownership.CopyReference n s).flag s.next = some 0
    ∧ (Ownership.times Ownership.copy_reference n 0
        (MyClass.reset (Factory.reset s))).destructorCalls = 0 := by
  obtain ⟨m, rfl⟩ : ∃ m, n = m + 1 := ⟨n - 1, by omega⟩
  obtain ⟨r1, r2, r3, r4, r5, r6, r7⟩ := Ownership.reset_fields s
  obtain ⟨f1, f2, f3, f4, f5, f6, f7, f8, f9⟩ :=
    Ownership.copy_step_first 0 (MyClass.reset (Factory.reset s)) r5 (r6.trans hs)
  obtain ⟨t1, t2, t3, t4, t5, t6, t7, t8⟩ :=
    Ownership.times_copy_reference m (0 + 1) _ _ f5 f8 f9
  have htimes : Ownership.times Ownership.copy_reference (m + 1) 0
      (MyClass.reset (Factory.reset s))
      = Ownership.times Ownership.copy_reference m (0 + 1)
          (Ownership.set_flag (Ownership.copy_reference (MyClass.reset (Factory.reset s))).1
            ((0 : Nat) : Int)
            (Ownership.copy_reference (MyClass.reset (Factory.reset s))).2) := rfl
  obtain ⟨g1, g2, g3, g4, g5, _⟩ :=
    GC_start_fields (Ownership.times Ownership.copy_reference (m + 1) 0
      (MyClass.reset (Factory.reset s)))
  unfold Ownership.CopyReference Ownership.testcase
  refine ⟨?_, ?_, ?_, ?_, ?_, ?_, ?_⟩
  · rw [g1, htimes, t1, f1, r1]
  · rw [g2, htimes, t2, f2, r2]; omega
  · rw [g3, htimes, t3, f3, r3]
  · rw [g4, htimes, t4, f4, r4, t6, f6]; omega
  · rw [g5, htimes, t5, r7]
  · rw [← r7]
    unfold GC_start
    rw [foldl_free_flag_kept _ _ _ (fun w hw _ => by rw [htimes] at hw; exact t8 w hw)]
    show (Ownership.times Ownership.copy_reference (m + 1) 0
      (MyClass.reset (Factory.reset s))).flag _ = _
    rw [htimes, t7, f7]
  · rw [htimes, t4, f4, r4]

/-- Witness of C30: ten calls from the state of a process that has created no
object. -/
theorem copy_reference_counts_witness :
    (Ownership.CopyReference 10 Ownership.start).constructorCalls = 1
    ∧ (Ownership.CopyReference 10 Ownership.start).copyConstructorCalls = 10
    ∧ (Ownership.CopyReference 10 Ownership.start).destructorCalls = 10
    ∧ (Ownership.CopyReference 10 Ownership.start).flag 0 = some 0 :=
  have h := copy_reference_counts 10 Ownership.start (by decide) rfl
  ⟨h.1, h.2.1, h.2.2.2.1, h.2.2.2.2.2.1⟩

end Rice

/-! ## Default ownership, fall-through of the container converters, and `bind` -/

namespace Rice

/-- Counterexample to C31: the singleton exists at address 0 and
`copy_reference`, which the test binds with no annotation, is called.  The
Wrapper of the result is Owned, its payload is a new object at address 1 and
not the singleton, and one copy construction has taken place. -/
theorem reference_default_counterexample :
    (Ownership.copy_reference (Factory.getInstance Ownership.start).2).1
        = PlainWrapper.WrapperValue 1
    ∧ (Ownership.copy_reference (Factory.getInstance Ownership.start).2).1.isOwned = true
    ∧ (Factory.getInstance Ownership.start).2.instance_ = some 0
    ∧ (Ownership.copy_reference (Factory.getInstance Ownership.start).2).2.copyConstructorCalls
        = 1 := by
  decide

/-- C31 (amended): a method that returns a reference to the singleton and is
bound with no annotation (`copy_reference`) yields an Owned Wrapper of a copy:
one copy construction, a payload at a fresh address with the flag of the
singleton, a mutation through the host handle leaves the singleton as it was,
and freeing the Wrapper destroys the copy.  The annotation `Return(false)`
(`keep_reference`) yields a Borrowed Wrapper: no copy, the payload is the
singleton itself, a mutation through the host handle is made on the singleton,
and freeing the Wrapper destroys nothing. -/
theorem reference_default_is_owned_copy (s : Ownership) (a : Nat) (value : Int)
    (hinst : s.instance_ = some a) (hlt : a < s.next) :
    ((Ownership.copy_reference s).1 = PlainWrapper.WrapperValue s.next
      ∧ (Ownership.copy_reference s).1.isOwned = true
      ∧ (Ownership.copy_reference s).1.get ≠ a
      ∧ (Ownership.copy_reference s).2.copyConstructorCalls = s.copyConstructorCalls + 1
      ∧ (Ownership.copy_reference s).2.flag s.next = s.flag a
      ∧ (Ownership.set_flag (Ownership.copy_reference s).1 value
          (Ownership.copy_reference s).2).flag a = s.flag a
      ∧ (ruby_free_internal (Ownership.copy_reference s).1
          (Ownership.copy_reference s).2).destructorCalls = s.destructorCalls + 1)
    ∧ ((Ownership.keep_reference s).1 = PlainWrapper.WrapperReference a
      ∧ (Ownership.keep_reference s).1.isOwned = false
      ∧ (Ownership.keep_reference s).1.get = a
      ∧ (Ownership.keep_reference s).2.copyConstructorCalls = s.copyConstructorCalls
      ∧ (Ownership.set_flag (Ownership.keep_reference s).1 value
          (Ownership.keep_reference s).2).flag a = some value
      ∧ (ruby_free_internal (Ownership.keep_reference s).1
          (Ownership.keep_reference s).2).destructorCalls = s.destructorCalls) := by
  have hg : Factory.getInstance s = (a, s) := by simp [Factory.getInstance, hinst]
  have hne : a ≠ s.next := Nat.ne_of_lt hlt
  constructor
  · simp only [Ownership.copy_reference, Factory.keepReference, hg, to_ruby_reference, if_true,
      Ownership.set_flag, MyClass.setFlag, MyClass.copy, PlainWrapper.get,
      PlainWrapper.isOwned, ruby_free_internal, PlainWrapper.destructor, MyClass.destructor]
    simp [hne, Ne.symm hne]
  · simp only [Ownership.keep_reference, Factory.keepReference, hg, to_ruby_reference,
      Ownership.set_flag, MyClass.setFlag, PlainWrapper.get,
      PlainWrapper.isOwned, ruby_free_internal, PlainWrapper.destructor]
    simp

/-- Witness of C31 (amended): the singleton exists at address 0. -/
theorem reference_default_is_owned_copy_witness :
    (Ownership.copy_reference (Factory.getInstance Ownership.start).2).1.get ≠ 0
    ∧ (Ownership.keep_reference (Factory.getInstance Ownership.start).2).1.get = 0 :=
  have h := reference_default_is_owned_copy (Factory.getInstance Ownership.start).2 0 5 rfl
    (by decide)
  ⟨h.1.2.2.1, h.2.2.2.1⟩

/-- C32: when `T` is not default-constructible, `From_Ruby<std::vector<T>>::convert`
on a host array converts no element: it returns the default value when one is
configured and raises the `TypeError` otherwise, as it does for `nil`; the same
holds for `From_Ruby<std::map<K, V>>::convert` on a host hash when `V` is not
default-constructible.  With a default-constructible type the array or hash is
converted entry by entry. -/
theorem from_ruby_container_fall_through {N T K V : Type} [LT K]
    [DecidableRel (fun (a b : K) => a < b)] (T_default : T)
    (rb_obj_classname : VALUE N → String)
    (vector_from_ruby : VALUE N → Except Exception (List T))
    (map_from_ruby : VALUE N → Except Exception (List (K × V)))
    (from_ruby : From_Ruby (VALUE N) T) (from_ruby_key : From_Ruby (VALUE N) K)
    (from_ruby_value : From_Ruby (VALUE N) V)
    (entries : List (VALUE N)) (pairs : List (VALUE N × VALUE N))
    (vector_default : List T) (map_default : List (K × V)) :
    From_Ruby_vector.convert false T_default rb_obj_classname vector_from_ruby from_ruby
        (some { defaultValue := some vector_default }) (VALUE.array entries)
      = Except.ok vector_default
    ∧ From_Ruby_vector.convert false T_default rb_obj_classname vector_from_ruby from_ruby
        (some { defaultValue := none }) (VALUE.array entries)
      = Except.error (Exception.rb_eTypeError
          ("wrong argument type " ++ rb_obj_classname (VALUE.array entries)
            ++ " (expected " ++ "std::vector" ++ ")"))
    ∧ From_Ruby_vector.convert false T_default rb_obj_classname vector_from_ruby from_ruby
        none (VALUE.array entries)
      = Except.error (Exception.rb_eTypeError
          ("wrong argument type " ++ rb_obj_classname (VALUE.array entries)
            ++ " (expected " ++ "std::vector" ++ ")"))
    ∧ (∀ arg_, From_Ruby_vector.convert false T_default rb_obj_classname vector_from_ruby
          from_ruby arg_ (VALUE.array entries)
        = container_nil_case rb_obj_classname "std::vector" arg_ (VALUE.array entries))
    ∧ (∀ arg_, From_Ruby_vector.convert true T_default rb_obj_classname vector_from_ruby
          from_ruby arg_ (VALUE.array entries)
        = vectorFromArray T_default from_ruby (VALUE.array entries))
    ∧ From_Ruby_map.convert false rb_obj_classname map_from_ruby from_ruby_key from_ruby_value
        (some { defaultValue := some map_default }) (VALUE.hash pairs)
      = Except.ok map_default
    ∧ From_Ruby_map.convert false rb_obj_classname map_from_ruby from_ruby_key from_ruby_value
        (some { defaultValue := none }) (VALUE.hash pairs)
      = Except.error (Exception.rb_eTypeError
          ("wrong argument type " ++ rb_obj_classname (VALUE.hash pairs)
            ++ " (expected " ++ "std::map" ++ ")"))
    ∧ From_Ruby_map.convert false rb_obj_classname map_from_ruby from_ruby_key from_ruby_value
        none (VALUE.hash pairs)
      = Except.error (Exception.rb_eTypeError
          ("wrong argument type " ++ rb_obj_classname (VALUE.hash pairs)
            ++ " (expected " ++ "std::map" ++ ")"))
    ∧ (∀ arg_, From_Ruby_map.convert false rb_obj_classname map_from_ruby from_ruby_key
          from_ruby_value arg_ (VALUE.hash pairs)
        = container_nil_case rb_obj_classname "std::map" arg_ (VALUE.hash pairs))
    ∧ (∀ arg_, From_Ruby_map.convert true rb_obj_classname map_from_ruby from_ruby_key
          from_ruby_value arg_ (VALUE.hash pairs)
        = MapFromHash.convert from_ruby_key from_ruby_value (VALUE.hash pairs)) :=
  ⟨rfl, rfl, rfl, fun _ => rfl, fun _ => rfl, rfl, rfl, rfl, fun _ => rfl, fun _ => rfl⟩

/-- C40: for a host class `c`, `Data_Type<T>::bind(c)` raises if and only if `T`
is bound.  When `T` is bound it raises the error "Type ... is already bound to
a different type" and changes nothing, also when `c` is the class `T` is bound
to and whatever the base type.  When `T` is not bound it returns, and
afterwards `is_bound()` holds and `klass()` returns `c`. -/
theorem bind_raises_iff_bound {N R : Type} (host : Host N R) (T : type_index)
    (c : VALUE N) (ret : Nat) (w : World N R) (hc : c.isQnil = false) :
    ((∃ e s, Data_Type.bind host T none c ret w = Result.raised e s)
        ↔ Data_Type.is_bound T w = true)
    ∧ (Data_Type.is_bound T w = true → ∀ Base_T,
        Data_Type.bind host T Base_T c ret w
          = Result.raised (Exception.runtime_error
              ("Type " ++ host.typeName T ++ " is already bound to a different type")) w)
    ∧ ((w.statics T).klass_ = c →
        Data_Type.bind host T none c ret w
          = Result.raised (Exception.runtime_error
              ("Type " ++ host.typeName T ++ " is already bound to a different type")) w)
    ∧ (Data_Type.is_bound T w = false →
        ∃ w1, Data_Type.bind host T none c ret w = Result.ok c w1
          ∧ Data_Type.is_bound T w1 = true
          ∧ Data_Type.klass host T w1 = Except.ok c) := by
  have hraise : Data_Type.is_bound T w = true → ∀ Base_T,
      Data_Type.bind host T Base_T c ret w
        = Result.raised (Exception.runtime_error
            ("Type " ++ host.typeName T ++ " is already bound to a different type")) w := by
    intro hb Base_T
    simp [Data_Type.bind, hb]
  have hok : Data_Type.is_bound T w = false →
      ∃ w1, Data_Type.bind host T none c ret w = Result.ok c w1
        ∧ Data_Type.is_bound T w1 = true
        ∧ Data_Type.klass host T w1 = Except.ok c := by
    intro hu
    refine ⟨_, Data_Type.bind_unbound host T c ret w hu hc, ?_, ?_⟩
    · simp [Data_Type.is_bound, hc]
    · simp [Data_Type.klass, Data_Type.check_is_bound, Data_Type.is_bound, hc]
  refine ⟨⟨?_, ?_⟩, hraise, ?_, hok⟩
  · rintro ⟨e, s, h⟩
    cases hb : Data_Type.is_bound T w
    · obtain ⟨w1, h1, _⟩ := hok hb
      rw [h1] at h
      cases h
    · rfl
  · intro hb
    exact ⟨_, _, hraise hb none⟩
  · intro hk
    exact hraise (by simp [Data_Type.is_bound, hk, hc]) none

/-- Witness of C40: the type `1` is bound to the class `7`, and binding it to
the class `7` again raises. -/
theorem bind_raises_iff_bound_witness :
    Data_Type.bind simple_host 1 none (VALUE.klass 7) 200 world_bound
      = Result.raised (Exception.runtime_error
          ("Type " ++ simple_host.typeName 1 ++ " is already bound to a different type"))
          world_bound :=
  (bind_raises_iff_bound simple_host 1 (VALUE.klass 7) 200 world_bound rfl).2.2.1 rfl

end Rice

/-! ## Insertion and assignment in a vector -/

namespace Rice

theorem VectorHelper.wrap_eq_of_ge (N : Nat) (i : Int) (hN : 1 ≤ N) (hneg : i < 0)
    (hlow : -(N : Int) ≤ i) :
    (if i.natAbs % N ≠ 0 then N - i.natAbs % N else 0 : Nat) = ((N : Int) + i).toNat := by
  by_cases hfull : i.natAbs = N
  · rw [hfull]
    simp only [Nat.mod_self, ne_eq, not_true_eq_false, if_false]
    omega
  · have h2 : i.natAbs % N = i.natAbs := Nat.mod_eq_of_lt (by omega)
    rw [h2]
    have h3 : i.natAbs ≠ 0 := by omega
    simp only [ne_eq, h3, not_false_eq_true, if_true]
    omega

theorem VectorHelper.normalizeIndex_in_range (N : Nat) (i : Int) (hN : 1 ≤ N)
    (hmax : N ≤ vector_max_size) (hlow : -(N : Int) ≤ i) (hhigh : i < N) :
    VectorHelper.normalizeIndex N i true
        = Outcome.value (((if 0 ≤ i then i else (N : Int) + i).toNat : Nat) : Int)
    ∧ (if 0 ≤ i then i else (N : Int) + i).toNat < N := by
  have hmax1 : N < 2 ^ 63 := by unfold vector_max_size at hmax; omega
  by_cases h0 : 0 ≤ i
  · rw [if_pos h0]
    have hsz := toDifference_T_size N hmax
    have hcast : ((i.toNat : Nat) : Int) = i := Int.toNat_of_nonneg h0
    refine ⟨?_, by omega⟩
    rw [VectorHelper.normalizeIndex_nonneg N i true h0, hsz, hcast]
    rw [if_neg (fun h => by have := h.2; omega)]
  · rw [if_neg h0]
    have hneg : i < 0 := by omega
    have hw := VectorHelper.wrap_eq_of_ge N i hN hneg hlow
    refine ⟨?_, by omega⟩
    rw [VectorHelper.normalizeIndex_neg N i true hN hmax hneg (by omega), hw]

theorem VectorHelper.insert_list_facts {α : Type} (self : List α) (e : α) (k : Nat)
    (hk : k ≤ self.length) :
    (self.take k ++ e :: self.drop k).length = self.length + 1
    ∧ (self.take k ++ e :: self.drop k)[k]? = some e
    ∧ (∀ j, j < k → (self.take k ++ e :: self.drop k)[j]? = self[j]?)
    ∧ (∀ j, k ≤ j → (self.take k ++ e :: self.drop k)[j + 1]? = self[j]?) := by
  have hlen : (self.take k).length = k := by simp [hk]
  refine ⟨?_, ?_, ?_, ?_⟩
  · simp
    omega
  · rw [List.getElem?_append_right (by omega), hlen]
    simp
  · intro j hj
    rw [List.getElem?_append_left (by omega), List.getElem?_take_of_lt hj]
  · intro j hj
    rw [List.getElem?_append_right (by omega), hlen]
    have h1 : j + 1 - k = (j - k) + 1 := by omega
    rw [h1, List.getElem?_cons_succ, List.getElem?_drop]
    congr 1
    omega

/-- C33: for a vector of size `N ≥ 1` (at most `max_size`), an element `e` and
an index `i` with `-N ≤ i < N`, let `k` be `i` when `i ≥ 0` and `N + i`
otherwise.  Then `insert(i, e)` makes the vector into its first `k` elements,
`e`, and its elements from `k` on, and returns it: the size is `N + 1`, `e` is
at position `k`, the positions before `k` are unchanged and every later
element is one position further.  So `insert(-1, e)` puts `e` before the last
element; and for every index (above the minimum `Difference_T`) `insert`
either raises or puts `e` at a position below `N`, never after the last
element. -/
theorem insert_in_range {α : Type} (self : List α) (i : Int) (e : α)
    (hN : 1 ≤ self.length) (hmax : self.length ≤ vector_max_size)
    (hlow : -(self.length : Int) ≤ i) (hhigh : i < self.length) :
    VectorHelper.insert self i e
        = Result.ok
            (self.take (if 0 ≤ i then i else (self.length : Int) + i).toNat
              ++ e :: self.drop (if 0 ≤ i then i else (self.length : Int) + i).toNat)
            (self.take (if 0 ≤ i then i else (self.length : Int) + i).toNat
              ++ e :: self.drop (if 0 ≤ i then i else (self.length : Int) + i).toNat)
    ∧ (if 0 ≤ i then i else (self.length : Int) + i).toNat < self.length
    ∧ (self.take (if 0 ≤ i then i else (self.length : Int) + i).toNat
        ++ e :: self.drop (if 0 ≤ i then i else (self.length : Int) + i).toNat).length
        = self.length + 1
    ∧ (self.take (if 0 ≤ i then i else (self.length : Int) + i).toNat
        ++ e :: self.drop (if 0 ≤ i then i else (self.length : Int) + i).toNat)[
          (if 0 ≤ i then i else (self.length : Int) + i).toNat]? = some e
    ∧ (∀ j, j < (if 0 ≤ i then i else (self.length : Int) + i).toNat →
        (self.take (if 0 ≤ i then i else (self.length : Int) + i).toNat
          ++ e :: self.drop (if 0 ≤ i then i else (self.length : Int) + i).toNat)[j]?
          = self[j]?)
    ∧ (∀ j, (if 0 ≤ i then i else (self.length : Int) + i).toNat ≤ j →
        (self.take (if 0 ≤ i then i else (self.length : Int) + i).toNat
          ++ e :: self.drop (if 0 ≤ i then i else (self.length : Int) + i).toNat)[j + 1]?
          = self[j]?)
    ∧ VectorHelper.insert self (-1) e
        = Result.ok (self.take (self.length - 1) ++ e :: self.drop (self.length - 1))
            (self.take (self.length - 1) ++ e :: self.drop (self.length - 1))
    ∧ (∀ j : Int, -(2 ^ 63) < j → j < 2 ^ 63 →
        VectorHelper.insert self j e
            = Result.raised (Exception.out_of_range ("Invalid index: " ++ toString j)) self
          ∨ ∃ k, k < self.length
            ∧ VectorHelper.insert self j e
              = Result.ok (self.take k ++ e :: self.drop k)
                  (self.take k ++ e :: self.drop k)) := by
  have hmax1 : self.length < 2 ^ 63 := by unfold vector_max_size at hmax; omega
  obtain ⟨hn, hk⟩ := VectorHelper.normalizeIndex_in_range self.length i hN hmax hlow hhigh
  obtain ⟨f1, f2, f3, f4⟩ := VectorHelper.insert_list_facts self e _ (Nat.le_of_lt hk)
  refine ⟨VectorHelper.insert_of_value self i e _ hk hn, hk, f1, f2, f3, f4, ?_, ?_⟩
  · obtain ⟨hn1, hk1⟩ :=
      VectorHelper.normalizeIndex_in_range self.length (-1) hN hmax (by omega) (by omega)
    have h := VectorHelper.insert_of_value self (-1) e _ hk1 hn1
    have hpos : (if (0 : Int) ≤ -1 then (-1 : Int) else (self.length : Int) + -1).toNat
        = self.length - 1 := by
      rw [if_neg (by omega)]
      omega
    rw [hpos] at h
    exact h
  · intro j hjlow hjhigh
    by_cases hge : (self.length : Int) ≤ j
    · exact Or.inl (VectorHelper.insert_past_end self j e hge hjhigh)
    · right
      by_cases h0 : 0 ≤ j
      · obtain ⟨hn2, hk2⟩ :=
          VectorHelper.normalizeIndex_in_range self.length j hN hmax (by omega) (by omega)
        exact ⟨_, hk2, VectorHelper.insert_of_value self j e _ hk2 hn2⟩
      · have hlt := VectorHelper.wrap_lt self.length j hN
        exact ⟨_, hlt, VectorHelper.insert_of_value self j e _ hlt
          (VectorHelper.normalizeIndex_neg self.length j true hN hmax (by omega) hjlow)⟩

/-- Witness of C33: size 3, index `-1`. -/
theorem insert_in_range_witness :
    VectorHelper.insert [10, 20, 30] (-1) 7 = Result.ok [10, 20, 7, 30] [10, 20, 7, 30] :=
  (insert_in_range [10, 20, 30] (-1) 7 (by decide) (by decide) (by decide) (by decide)).1

/-- C34: for a vector of size `N` (at most `max_size`), an element `e` and an
index `i` that `normalizeIndex` takes to a position `k` below `N`, the method
`[]=` returns `e` and assigns position `k` alone: the size is still `N`, the
element at `k` is `e`, and every other position holds what it held.  For
`-N ≤ i < N` the position is `i` when `i ≥ 0` and `N + i` otherwise. -/
theorem brackets_assign_changes_one {α : Type} (self : List α) (i : Int) (e : α) (k : Nat)
    (hk : k < self.length) (hmax : self.length ≤ vector_max_size)
    (h : VectorHelper.normalizeIndex self.length i true = Outcome.value (k : Int)) :
    VectorHelper.brackets_assign self i e = Result.ok e (self.set k e)
    ∧ (self.set k e).length = self.length
    ∧ (self.set k e)[k]? = some e
    ∧ (∀ j, j ≠ k → (self.set k e)[j]? = self[j]?)
    ∧ (-(self.length : Int) ≤ i → i < self.length →
        (k : Int) = if 0 ≤ i then i else (self.length : Int) + i) := by
  refine ⟨VectorHelper.brackets_assign_of_value self i e k hk hmax h, by simp, ?_, ?_, ?_⟩
  · simp [hk]
  · intro j hj
    exact List.getElem?_set_ne (Ne.symm hj)
  · intro hlow hhigh
    obtain ⟨hn, hk1⟩ :=
      VectorHelper.normalizeIndex_in_range self.length i (by omega) hmax hlow hhigh
    rw [hn] at h
    injection h with h
    rw [← h]
    split <;> omega

/-- Witness of C34: size 3, index `-2`, which is position 1. -/
theorem brackets_assign_changes_one_witness :
    VectorHelper.brackets_assign [10, 20, 30] (-2) 7 = Result.ok 7 [10, 7, 30] :=
  (brackets_assign_changes_one [10, 20, 30] (-2) 7 1 (by decide) (by decide)
    (by decide)).1

end Rice

/-! ## Search in a vector of a comparable element type -/

namespace Rice

theorem getElem?_some_mem {α : Type} (l : List α) (n : Nat) (a : α) (h : l[n]? = some a) :
    a ∈ l := by
  induction l generalizing n with
  | nil => simp at h
  | cons b rest ih =>
    cases n with
    | zero =>
      simp at h
      subst h
      exact List.mem_cons_self _ _
    | succ n =>
      simp at h
      exact List.mem_cons_of_mem _ (ih n h)

theorem getElem?_append_cons_length {α : Type} (pre post : List α) (y : α) :
    (pre ++ y :: post)[pre.length]? = some y := by
  induction pre with
  | nil => simp
  | cons b rest ih => simpa using ih

theorem eraseIdx_append_cons_length {α : Type} (pre post : List α) (y : α) :
    (pre ++ y :: post).eraseIdx pre.length = pre ++ post := by
  induction pre with
  | nil => rfl
  | cons b rest ih => simp [List.eraseIdx, ih]

theorem VectorHelper.std_find_append {α : Type} (eq : α → α → Bool) (pre post : List α)
    (y x : α) (hpre : ∀ z ∈ pre, eq z x = false) (hy : eq y x = true) :
    VectorHelper.std_find eq (pre ++ y :: post) x = pre.length := by
  induction pre with
  | nil => simp [VectorHelper.std_find, hy]
  | cons b rest ih =>
    have hb : eq b x = false := hpre b (List.mem_cons_self _ _)
    simp [VectorHelper.std_find, hb, ih (fun z hz => hpre z (List.mem_cons_of_mem _ hz))]

theorem VectorHelper.std_find_none {α : Type} (eq : α → α → Bool) (self : List α) (x : α)
    (h : ∀ y ∈ self, eq y x = false) :
    VectorHelper.std_find eq self x = self.length := by
  induction self with
  | nil => rfl
  | cons b rest ih =>
    have hb : eq b x = false := h b (List.mem_cons_self _ _)
    simp [VectorHelper.std_find, hb, ih (fun z hz => h z (List.mem_cons_of_mem _ hz))]

theorem VectorHelper.std_find_split {α : Type} (eq : α → α → Bool) (self : List α) (x : α) :
    (∀ y ∈ self, eq y x = false)
    ∨ ∃ pre y post, self = pre ++ y :: post ∧ (∀ z ∈ pre, eq z x = false) ∧ eq y x = true := by
  induction self with
  | nil => exact Or.inl (fun y hy => absurd hy (List.not_mem_nil _))
  | cons b rest ih =>
    cases hb : eq b x
    · rcases ih with h | ⟨pre, y, post, h1, h2, h3⟩
      · left
        intro y hy
        rcases List.mem_cons.1 hy with h0 | h0
        · rw [h0]; exact hb
        · exact h y h0
      · right
        refine ⟨b :: pre, y, post, by rw [h1]; rfl, ?_, h3⟩
        intro z hz
        rcases List.mem_cons.1 hz with h0 | h0
        · rw [h0]; exact hb
        · exact h2 z h0
    · exact Or.inr ⟨[], b, rest, rfl, fun z hz => absurd hz (List.not_mem_nil _), hb⟩

theorem VectorHelper.index_found {α : Type} (eq : α → α → Bool) (pre post : List α)
    (y x : α) (hmax : (pre ++ y :: post).length ≤ vector_max_size)
    (hpre : ∀ z ∈ pre, eq z x = false) (hy : eq y x = true) :
    VectorHelper.index (some eq) (pre ++ y :: post) x
        = Result.ok (some (pre.length : Int)) (pre ++ y :: post)
    ∧ VectorHelper.include? (some eq) (pre ++ y :: post) x
        = Result.ok true (pre ++ y :: post) := by
  have hf := VectorHelper.std_find_append eq pre post y x hpre hy
  have hlt : pre.length < (pre ++ y :: post).length := by simp
  have hne : pre.length ≠ (pre ++ y :: post).length := Nat.ne_of_lt hlt
  have hd : toDifference_T (pre.length : Int) = pre.length :=
    toDifference_T_size pre.length (by omega)
  constructor
  · simp only [VectorHelper.index, hf, if_neg hne, hd]
  · simp only [VectorHelper.include?, hf]
    simp

theorem VectorHelper.index_not_found {α : Type} (eq : α → α → Bool) (self : List α) (x : α)
    (h : ∀ y ∈ self, eq y x = false) :
    VectorHelper.index (some eq) self x = Result.ok none self
    ∧ VectorHelper.include? (some eq) self x = Result.ok false self := by
  have hf := VectorHelper.std_find_none eq self x h
  constructor
  · simp only [VectorHelper.index, hf, if_true]
  · simp only [VectorHelper.include?, hf]
    simp

/-- C35: for a vector `v` (of size at most `max_size`) of an element type with
`operator==` and an element `x`, `index(x)` returns the least position whose
element equals `x`, and returns absent exactly when no element equals `x`;
`include?(x)` is true exactly when `index(x)` is a position; both leave the
vector as it was. -/
theorem index_least_position {α : Type} (eq : α → α → Bool) (self : List α) (x : α)
    (hmax : self.length ≤ vector_max_size) :
    (∀ (i : Nat) (y : α), self[i]? = some y → eq y x = true →
        (∀ (j : Nat) (z : α), j < i → self[j]? = some z → eq z x = false) →
        VectorHelper.index (some eq) self x = Result.ok (some (i : Int)) self)
    ∧ ((∃ y ∈ self, eq y x = true) →
        ∃ (i : Nat) (y : α), self[i]? = some y ∧ eq y x = true
          ∧ (∀ (j : Nat) (z : α), j < i → self[j]? = some z → eq z x = false)
          ∧ VectorHelper.index (some eq) self x = Result.ok (some (i : Int)) self)
    ∧ ((∀ y ∈ self, eq y x = false)
        ↔ VectorHelper.index (some eq) self x = Result.ok none self)
    ∧ (VectorHelper.include? (some eq) self x = Result.ok true self
        ↔ ∃ i : Int, VectorHelper.index (some eq) self x = Result.ok (some i) self)
    ∧ (∃ b, VectorHelper.include? (some eq) self x = Result.ok b self)
    ∧ (∃ r, VectorHelper.index (some eq) self x = Result.ok r self) := by
  rcases VectorHelper.std_find_split eq self x with hnone | ⟨pre, y, post, hself, hpre, hy⟩
  · obtain ⟨hi, hinc⟩ := VectorHelper.index_not_found eq self x hnone
    refine ⟨?_, ?_, ?_, ?_, ⟨_, hinc⟩, ⟨_, hi⟩⟩
    · intro i y hiy hyx
      have := hnone y (getElem?_some_mem self i y hiy)
      rw [hyx] at this
      cases this
    · rintro ⟨y, hy, hyx⟩
      have := hnone y hy
      rw [hyx] at this
      cases this
    · exact ⟨fun _ => hi, fun _ => hnone⟩
    · rw [hinc, hi]
      constructor
      · intro h
        cases h
      · rintro ⟨i, h⟩
        cases h
  · subst hself
    obtain ⟨hi, hinc⟩ := VectorHelper.index_found eq pre post y x hmax hpre hy
    have hat := getElem?_append_cons_length pre post y
    have hbefore : ∀ (j : Nat) (z : α), j < pre.length → (pre ++ y :: post)[j]? = some z →
        eq z x = false := by
      intro j z hj hz
      rw [List.getElem?_append_left hj] at hz
      exact hpre z (getElem?_some_mem pre j z hz)
    refine ⟨?_, ?_, ?_, ?_, ⟨_, hinc⟩, ⟨_, hi⟩⟩
    · intro i y1 hiy hyx hleast
      have heq : i = pre.length := by
        rcases Nat.lt_trichotomy i pre.length with h | h | h
        · have := hbefore i y1 h hiy
          rw [hyx] at this
          cases this
        · exact h
        · have := hleast pre.length y h hat
          rw [hy] at this
          cases this
      rw [heq]
      exact hi
    · intro _
      exact ⟨pre.length, y, hat, hy, hbefore, hi⟩
    · constructor
      · intro h
        have := h y (by simp)
        rw [hy] at this
        cases this
      · intro h
        rw [hi] at h
        cases h
    · exact ⟨fun _ => ⟨_, hi⟩, fun _ => hinc⟩

/-- Witness of C35: the element 20 occurs at the positions 1 and 2. -/
theorem index_least_position_witness :
    VectorHelper.index (some (fun (a b : Nat) => decide (a = b))) [10, 20, 20] 20
      = Result.ok (some 1) [10, 20, 20] :=
  (index_least_position (fun (a b : Nat) => decide (a = b)) [10, 20, 20] 20
    (by decide)).1 1 20 rfl rfl
    (by
      intro j z hj hz
      have hj0 : j = 0 := by omega
      subst hj0
      simp at hz
      subst hz
      rfl)

/-- C36: for a vector of an element type with `operator==` and an element `x`.
When `x` occurs, the vector is some elements different from `x`, the first
element `y` equal to `x`, and the rest; `delete(x)` returns `y` and leaves the
elements before and the rest, in order: the size is one less and later
elements equal to `x` remain.  When `x` does not occur, `delete(x)` returns
absent and leaves the vector as it was. -/
theorem delete_first_occurrence {α : Type} (eq : α → α → Bool) (pre post self v : List α)
    (y x : α) (hpre : ∀ z ∈ pre, eq z x = false) (hy : eq y x = true)
    (hself : ∀ z ∈ self, eq z x = false) :
    VectorHelper.delete (some eq) (pre ++ y :: post) x = Result.ok (some y) (pre ++ post)
    ∧ (pre ++ post).length + 1 = (pre ++ y :: post).length
    ∧ VectorHelper.delete (some eq) self x = Result.ok none self
    ∧ ((∃ z ∈ v, eq z x = true) →
        ∃ pre1 y1 post1, v = pre1 ++ y1 :: post1 ∧ (∀ z ∈ pre1, eq z x = false)
          ∧ eq y1 x = true
          ∧ VectorHelper.delete (some eq) v x = Result.ok (some y1) (pre1 ++ post1)) := by
  have hdel : ∀ (pre post : List α) (y : α), (∀ z ∈ pre, eq z x = false) → eq y x = true →
      VectorHelper.delete (some eq) (pre ++ y :: post) x
        = Result.ok (some y) (pre ++ post) := by
    intro pre post y hpre hy
    have hf := VectorHelper.std_find_append eq pre post y x hpre hy
    have hne : pre.length ≠ (pre ++ y :: post).length := by simp
    simp only [VectorHelper.delete, hf, if_neg hne, getElem?_append_cons_length,
      eraseIdx_append_cons_length]
  refine ⟨hdel pre post y hpre hy, by simp; omega, ?_, ?_⟩
  · have hf := VectorHelper.std_find_none eq self x hself
    simp only [VectorHelper.delete, hf, if_true]
  · rintro ⟨z, hz, hzx⟩
    rcases VectorHelper.std_find_split eq v x with hnone | ⟨pre1, y1, post1, h1, h2, h3⟩
    · have := hnone z hz
      rw [hzx] at this
      cases this
    · exact ⟨pre1, y1, post1, h1, h2, h3, by rw [h1]; exact hdel pre1 post1 y1 h2 h3⟩

/-- Witness of C36: the element 20 occurs twice; the first occurrence goes. -/
theorem delete_first_occurrence_witness :
    VectorHelper.delete (some (fun (a b : Nat) => decide (a = b))) [10, 20, 30, 20] 20
      = Result.ok (some 20) [10, 30, 20] :=
  (delete_first_occurrence (fun (a b : Nat) => decide (a = b)) [10] [30, 20] [] [] 20 20
    (by decide) (by decide) (by decide)).1

end Rice

/-! ## Deletion, store and enumeration of the maps -/

namespace Rice

theorem MapHelper.brackets_eq {K V : Type} [LinearOrder K] (m : List (K × V)) (k : K) :
    MapHelper.brackets m k = Result.ok ((MapHelper.find m k).map Prod.snd) m := by
  unfold MapHelper.brackets
  cases MapHelper.find m k <;> rfl

theorem UnorderedMapHelper.unordered_brackets_eq {K V : Type} [DecidableEq K]
    (m : List (K × V)) (k : K) :
    UnorderedMapHelper.brackets m k
      = Result.ok ((UnorderedMapHelper.find m k).map Prod.snd) m := by
  unfold UnorderedMapHelper.brackets
  cases UnorderedMapHelper.find m k <;> rfl

theorem MapHelper.find_some_key {K V : Type} [LinearOrder K] (m : List (K × V)) (k : K)
    (p : K × V) (h : MapHelper.find m k = some p) : p ∈ m ∧ p.1 = k := by
  induction m with
  | nil => simp [MapHelper.find] at h
  | cons head rest ih =>
    obtain ⟨k1, v1⟩ := head
    unfold MapHelper.find at h
    by_cases h1 : k1 < k
    · rw [if_pos h1] at h
      exact ⟨List.mem_cons_of_mem _ (ih h).1, (ih h).2⟩
    · rw [if_neg h1] at h
      by_cases h2 : k < k1
      · rw [if_pos h2] at h
        cases h
      · rw [if_neg h2] at h
        injection h with h
        subst h
        exact ⟨List.mem_cons_self _ _, le_antisymm (not_lt.mp h2) (not_lt.mp h1)⟩

theorem MapHelper.find_above {K V : Type} [LinearOrder K] (m : List (K × V)) (k : K)
    (h : ∀ e ∈ m, k < e.1) : MapHelper.find m k = none :=
  MapHelper.map_find_missing m k (fun p hp => ne_of_gt (h p hp))

theorem MapHelper.find_of_mem {K V : Type} [LinearOrder K] (m : List (K × V)) (k : K) (v : V)
    (hm : MapHelper.ascending m) (hmem : (k, v) ∈ m) : MapHelper.find m k = some (k, v) := by
  induction m with
  | nil => exact absurd hmem (List.not_mem_nil _)
  | cons head rest ih =>
    obtain ⟨k1, v1⟩ := head
    unfold MapHelper.ascending at hm ih
    have hhead : ∀ e ∈ rest, k1 < e.1 := (List.pairwise_cons.1 hm).1
    have hrest := (List.pairwise_cons.1 hm).2
    unfold MapHelper.find
    rcases List.mem_cons.1 hmem with h | h
    · injection h with hk hv
      subst hk
      subst hv
      rw [if_neg (lt_irrefl _), if_neg (lt_irrefl _)]
    · have hlt : k1 < k := hhead (k, v) h
      rw [if_pos hlt]
      exact ih hrest h

theorem MapHelper.erase_length {K V : Type} [LinearOrder K] (m : List (K × V)) (k : K)
    (p : K × V) (h : MapHelper.find m k = some p) :
    (MapHelper.erase m k).length + 1 = m.length := by
  induction m with
  | nil => simp [MapHelper.find] at h
  | cons head rest ih =>
    obtain ⟨k1, v1⟩ := head
    unfold MapHelper.find at h
    unfold MapHelper.erase
    by_cases h1 : k1 < k
    · rw [if_pos h1] at h
      rw [if_pos h1]
      simp [ih h]
    · rw [if_neg h1] at h
      rw [if_neg h1]
      by_cases h2 : k < k1
      · rw [if_pos h2] at h
        cases h
      · rw [if_neg h2]
        simp

theorem MapHelper.erase_find_self {K V : Type} [LinearOrder K] (m : List (K × V)) (k : K)
    (hm : MapHelper.ascending m) : MapHelper.find (MapHelper.erase m k) k = none := by
  induction m with
  | nil => rfl
  | cons head rest ih =>
    obtain ⟨k1, v1⟩ := head
    unfold MapHelper.ascending at hm ih
    have hhead : ∀ e ∈ rest, k1 < e.1 := (List.pairwise_cons.1 hm).1
    have hrest := (List.pairwise_cons.1 hm).2
    unfold MapHelper.erase
    by_cases h1 : k1 < k
    · rw [if_pos h1]
      unfold MapHelper.find
      rw [if_pos h1]
      exact ih hrest
    · rw [if_neg h1]
      by_cases h2 : k < k1
      · rw [if_pos h2]
        unfold MapHelper.find
        rw [if_neg h1, if_pos h2]
      · rw [if_neg h2]
        have hk : k1 = k := le_antisymm (not_lt.mp h2) (not_lt.mp h1)
        subst hk
        exact MapHelper.find_above rest k1 hhead

theorem MapHelper.erase_find_other {K V : Type} [LinearOrder K] (m : List (K × V))
    (k k1 : K) (hm : MapHelper.ascending m) (hne : k1 ≠ k) :
    MapHelper.find (MapHelper.erase m k) k1 = MapHelper.find m k1 := by
  induction m with
  | nil => rfl
  | cons head rest ih =>
    obtain ⟨k0, v0⟩ := head
    unfold MapHelper.ascending at hm ih
    have hhead : ∀ e ∈ rest, k0 < e.1 := (List.pairwise_cons.1 hm).1
    have hrest := (List.pairwise_cons.1 hm).2
    unfold MapHelper.erase
    by_cases h1 : k0 < k
    · rw [if_pos h1]
      unfold MapHelper.find
      rw [ih hrest]
    · rw [if_neg h1]
      by_cases h2 : k < k0
      · rw [if_pos h2]
      · rw [if_neg h2]
        have hk : k0 = k := le_antisymm (not_lt.mp h2) (not_lt.mp h1)
        subst hk
        rw [MapHelper.find.eq_def (List.cons (k0, v0) rest)]
        simp only
        by_cases h3 : k0 < k1
        · rw [if_pos h3]
        · rw [if_neg h3]
          have h4 : k1 < k0 := lt_of_le_of_ne (not_lt.mp h3) hne
          rw [if_pos h4]
          exact MapHelper.find_above rest k1 (fun e he => lt_trans h4 (hhead e he))

theorem MapHelper.subscript_assign_find_other {K V : Type} [LinearOrder K]
    (m : List (K × V)) (k k1 : K) (v : V) (hne : k ≠ k1) :
    MapHelper.find (MapHelper.subscript_assign m k v) k1 = MapHelper.find m k1 := by
  induction m with
  | nil =>
    simp only [MapHelper.subscript_assign, MapHelper.find]
    by_cases h1 : k < k1
    · rw [if_pos h1]
    · rw [if_neg h1, if_pos (lt_of_le_of_ne (not_lt.mp h1) (Ne.symm hne))]
  | cons head rest ih =>
    obtain ⟨k0, v0⟩ := head
    unfold MapHelper.subscript_assign
    by_cases h1 : k0 < k
    · rw [if_pos h1]
      unfold MapHelper.find
      rw [ih]
    · rw [if_neg h1]
      by_cases h2 : k < k0
      · rw [if_pos h2]
        rw [MapHelper.find.eq_def (List.cons (k, v) (List.cons (k0, v0) rest))]
        simp only
        by_cases h3 : k < k1
        · rw [if_pos h3]
        · rw [if_neg h3]
          have h4 : k1 < k := lt_of_le_of_ne (not_lt.mp h3) (Ne.symm hne)
          rw [if_pos h4]
          unfold MapHelper.find
          rw [if_neg (not_lt.mpr (le_of_lt (lt_trans h4 h2))), if_pos (lt_trans h4 h2)]
      · rw [if_neg h2]
        have hk : k0 = k := le_antisymm (not_lt.mp h2) (not_lt.mp h1)
        subst hk
        unfold MapHelper.find
        by_cases h3 : k0 < k1
        · rw [if_pos h3, if_pos h3]
        · rw [if_neg h3, if_neg h3]
          have h4 : k1 < k0 := lt_of_le_of_ne (not_lt.mp h3) (Ne.symm hne)
          rw [if_pos h4, if_pos h4]

theorem MapHelper.subscript_assign_length {K V : Type} [LinearOrder K]
    (m : List (K × V)) (k : K) (v : V) :
    (MapHelper.subscript_assign m k v).length
      = m.length + (if (MapHelper.find m k).isSome then 0 else 1) := by
  induction m with
  | nil => simp [MapHelper.subscript_assign, MapHelper.find]
  | cons head rest ih =>
    obtain ⟨k0, v0⟩ := head
    unfold MapHelper.subscript_assign MapHelper.find
    by_cases h1 : k0 < k
    · rw [if_pos h1, if_pos h1]
      simp only [List.length_cons, ih]
      omega
    · rw [if_neg h1, if_neg h1]
      by_cases h2 : k < k0
      · rw [if_pos h2, if_pos h2]
        simp
      · rw [if_neg h2, if_neg h2]
        simp

theorem UnorderedMapHelper.unordered_find_of_mem {K V : Type} [DecidableEq K]
    (m : List (K × V)) (k : K) (v : V) (hm : UnorderedMapHelper.distinct m)
    (hmem : (k, v) ∈ m) : UnorderedMapHelper.find m k = some (k, v) := by
  induction m with
  | nil => exact absurd hmem (List.not_mem_nil _)
  | cons head rest ih =>
    obtain ⟨k1, v1⟩ := head
    unfold UnorderedMapHelper.distinct at hm ih
    have hhead : ∀ e ∈ rest, k1 ≠ e.1 := (List.pairwise_cons.1 hm).1
    have hrest := (List.pairwise_cons.1 hm).2
    unfold UnorderedMapHelper.find
    rcases List.mem_cons.1 hmem with h | h
    · injection h with hk hv
      subst hk
      subst hv
      rw [if_pos rfl]
    · rw [if_neg (hhead (k, v) h)]
      exact ih hrest h

theorem UnorderedMapHelper.unordered_erase_length {K V : Type} [DecidableEq K]
    (m : List (K × V)) (k : K) (p : K × V) (h : UnorderedMapHelper.find m k = some p) :
    (UnorderedMapHelper.erase m k).length + 1 = m.length := by
  induction m with
  | nil => simp [UnorderedMapHelper.find] at h
  | cons head rest ih =>
    obtain ⟨k1, v1⟩ := head
    unfold UnorderedMapHelper.find at h
    unfold UnorderedMapHelper.erase
    by_cases h1 : k1 = k
    · rw [if_pos h1]
      rfl
    · rw [if_neg h1] at h
      rw [if_neg h1]
      simp [ih h]

theorem UnorderedMapHelper.unordered_erase_find_self {K V : Type} [DecidableEq K]
    (m : List (K × V)) (k : K) (hm : UnorderedMapHelper.distinct m) :
    UnorderedMapHelper.find (UnorderedMapHelper.erase m k) k = none := by
  induction m with
  | nil => rfl
  | cons head rest ih =>
    obtain ⟨k1, v1⟩ := head
    unfold UnorderedMapHelper.distinct at hm ih
    have hhead : ∀ e ∈ rest, k1 ≠ e.1 := (List.pairwise_cons.1 hm).1
    have hrest := (List.pairwise_cons.1 hm).2
    unfold UnorderedMapHelper.erase
    by_cases h1 : k1 = k
    · rw [if_pos h1]
      subst h1
      exact UnorderedMapHelper.unordered_find_missing rest k1
        (fun p hp => Ne.symm (hhead p hp))
    · rw [if_neg h1]
      unfold UnorderedMapHelper.find
      rw [if_neg h1]
      exact ih hrest

theorem UnorderedMapHelper.unordered_erase_find_other {K V : Type} [DecidableEq K]
    (m : List (K × V)) (k k1 : K) (hne : k1 ≠ k) :
    UnorderedMapHelper.find (UnorderedMapHelper.erase m k) k1
      = UnorderedMapHelper.find m k1 := by
  induction m with
  | nil => rfl
  | cons head rest ih =>
    obtain ⟨k0, v0⟩ := head
    unfold UnorderedMapHelper.erase
    by_cases h1 : k0 = k
    · rw [if_pos h1]
      rw [UnorderedMapHelper.find.eq_def (List.cons (k0, v0) rest)]
      simp only
      rw [if_neg (fun h => hne (h.symm.trans h1))]
    · rw [if_neg h1]
      unfold UnorderedMapHelper.find
      rw [ih]

theorem UnorderedMapHelper.unordered_subscript_assign_find_other {K V : Type} [DecidableEq K]
    (m : List (K × V)) (k k1 : K) (v : V) (hne : k ≠ k1) :
    UnorderedMapHelper.find (UnorderedMapHelper.subscript_assign m k v) k1
      = UnorderedMapHelper.find m k1 := by
  induction m with
  | nil => simp [UnorderedMapHelper.subscript_assign, UnorderedMapHelper.find, hne]
  | cons head rest ih =>
    obtain ⟨k0, v0⟩ := head
    unfold UnorderedMapHelper.subscript_assign
    by_cases h1 : k0 = k
    · rw [if_pos h1]
      unfold UnorderedMapHelper.find
      rw [if_neg (fun h => hne (h1.symm.trans h)), if_neg (fun h => hne (h1.symm.trans h))]
    · rw [if_neg h1]
      unfold UnorderedMapHelper.find
      rw [ih]

theorem UnorderedMapHelper.unordered_subscript_assign_length {K V : Type} [DecidableEq K]
    (m : List (K × V)) (k : K) (v : V) :
    (UnorderedMapHelper.subscript_assign m k v).length
      = m.length + (if (UnorderedMapHelper.find m k).isSome then 0 else 1) := by
  induction m with
  | nil => simp [UnorderedMapHelper.subscript_assign, UnorderedMapHelper.find]
  | cons head rest ih =>
    obtain ⟨k0, v0⟩ := head
    unfold UnorderedMapHelper.subscript_assign UnorderedMapHelper.find
    by_cases h1 : k0 = k
    · rw [if_pos h1, if_pos h1]
      simp
    · rw [if_neg h1, if_neg h1]
      simp only [List.length_cons, ih]
      omega

theorem std_find_if_found {α : Type} (pred : α → Bool) (l : List α) :
    std_find_if pred l ≠ l.length ↔ ∃ y ∈ l, pred y = true := by
  induction l with
  | nil => simp [std_find_if]
  | cons b rest ih =>
    cases hb : pred b
    · simp only [std_find_if, hb, Bool.false_eq_true, if_false, List.length_cons, ne_eq,
        Nat.add_right_cancel_iff, List.mem_cons, exists_eq_or_imp, false_or]
      exact ih
    · simp [std_find_if, hb]

end Rice

namespace Rice

/-- C37: for a `std::map` (keys in strictly ascending order) and a
`std::unordered_map` (keys pairwise different).  When the key `k` is present
with the value `v`, `delete(k)` returns `v`; afterwards the lookup of `k` is
absent, the size is one less, and the lookup of every other key returns what it
returned before.  When `k` is missing, `delete(k)` returns absent and leaves
the map as it was. -/
theorem map_delete_present_or_missing {K V K2 V2 : Type} [LinearOrder K] [DecidableEq K2]
    (m m0 : List (K × V)) (k : K) (v : V)
    (u u0 : List (K2 × V2)) (k2 : K2) (v2 : V2)
    (hm : MapHelper.ascending m) (hmem : (k, v) ∈ m) (hm0 : ∀ p ∈ m0, p.1 ≠ k)
    (hu : UnorderedMapHelper.distinct u) (humem : (k2, v2) ∈ u)
    (hu0 : ∀ p ∈ u0, p.1 ≠ k2) :
    (MapHelper.brackets m k = Result.ok (some v) m
      ∧ MapHelper.delete m k = Result.ok (some v) (MapHelper.erase m k)
      ∧ MapHelper.brackets (MapHelper.erase m k) k = Result.ok none (MapHelper.erase m k)
      ∧ (MapHelper.erase m k).length + 1 = m.length
      ∧ (∀ k1, k1 ≠ k →
          MapHelper.brackets m k1 = Result.ok ((MapHelper.find m k1).map Prod.snd) m
          ∧ MapHelper.brackets (MapHelper.erase m k) k1
            = Result.ok ((MapHelper.find m k1).map Prod.snd) (MapHelper.erase m k))
      ∧ MapHelper.brackets m0 k = Result.ok none m0
      ∧ MapHelper.delete m0 k = Result.ok none m0)
    ∧ (UnorderedMapHelper.brackets u k2 = Result.ok (some v2) u
      ∧ UnorderedMapHelper.delete u k2 = Result.ok (some v2) (UnorderedMapHelper.erase u k2)
      ∧ UnorderedMapHelper.brackets (UnorderedMapHelper.erase u k2) k2
          = Result.ok none (UnorderedMapHelper.erase u k2)
      ∧ (UnorderedMapHelper.erase u k2).length + 1 = u.length
      ∧ (∀ k1, k1 ≠ k2 →
          UnorderedMapHelper.brackets u k1
            = Result.ok ((UnorderedMapHelper.find u k1).map Prod.snd) u
          ∧ UnorderedMapHelper.brackets (UnorderedMapHelper.erase u k2) k1
            = Result.ok ((UnorderedMapHelper.find u k1).map Prod.snd)
                (UnorderedMapHelper.erase u k2))
      ∧ UnorderedMapHelper.brackets u0 k2 = Result.ok none u0
      ∧ UnorderedMapHelper.delete u0 k2 = Result.ok none u0) := by
  have hf := MapHelper.find_of_mem m k v hm hmem
  have hf0 := MapHelper.map_find_missing m0 k hm0
  have hg := UnorderedMapHelper.unordered_find_of_mem u k2 v2 hu humem
  have hg0 := UnorderedMapHelper.unordered_find_missing u0 k2 hu0
  constructor
  · refine ⟨?_, ?_, ?_, MapHelper.erase_length m k _ hf, ?_, ?_, ?_⟩
    · rw [MapHelper.brackets_eq, hf]
      rfl
    · simp only [MapHelper.delete, hf]
    · rw [MapHelper.brackets_eq, MapHelper.erase_find_self m k hm]
      rfl
    · intro k1 hne
      refine ⟨MapHelper.brackets_eq m k1, ?_⟩
      rw [MapHelper.brackets_eq, MapHelper.erase_find_other m k k1 hm hne]
    · rw [MapHelper.brackets_eq, hf0]
      rfl
    · simp only [MapHelper.delete, hf0]
  · refine ⟨?_, ?_, ?_, UnorderedMapHelper.unordered_erase_length u k2 _ hg, ?_, ?_, ?_⟩
    · rw [UnorderedMapHelper.unordered_brackets_eq, hg]
      rfl
    · simp only [UnorderedMapHelper.delete, hg]
    · rw [UnorderedMapHelper.unordered_brackets_eq,
        UnorderedMapHelper.unordered_erase_find_self u k2 hu]
      rfl
    · intro k1 hne
      refine ⟨UnorderedMapHelper.unordered_brackets_eq u k1, ?_⟩
      rw [UnorderedMapHelper.unordered_brackets_eq,
        UnorderedMapHelper.unordered_erase_find_other u k2 k1 hne]
    · rw [UnorderedMapHelper.unordered_brackets_eq, hg0]
      rfl
    · simp only [UnorderedMapHelper.delete, hg0]

/-- Witness of C37: the key 2 is deleted from maps with the keys 1, 2 and 3,
and the key 5 is missing. -/
theorem map_delete_present_or_missing_witness :
    MapHelper.delete [((1 : Nat), "a"), (2, "b"), (3, "c")] 2
        = Result.ok (some "b") [(1, "a"), (3, "c")]
    ∧ UnorderedMapHelper.delete [((3 : Nat), "c"), (2, "b"), (1, "a")] 2
        = Result.ok (some "b") [(3, "c"), (1, "a")] :=
  have h := map_delete_present_or_missing
    [((1 : Nat), "a"), (2, "b"), (3, "c")] [(1, "a")] 2 "b"
    [((3 : Nat), "c"), (2, "b"), (1, "a")] [(1, "a")] 2 "b"
    (by simp [MapHelper.ascending]) (by simp) (by simp)
    (by simp [UnorderedMapHelper.distinct]) (by simp) (by simp)
  ⟨h.1.2.1, h.2.2.1⟩

/-- C38: for a map, two different keys `k` and `k1` and a value `v`, the store
of `v` under `k` returns `v` and leaves the lookup of `k1` as it was; the size
is one more when `k` was absent and the same when `k` was present (for
`std::map` and for `std::unordered_map`). -/
theorem map_store_leaves_other_keys {K V K2 V2 : Type} [LinearOrder K] [DecidableEq K2]
    (m : List (K × V)) (k k1 : K) (v : V)
    (u : List (K2 × V2)) (j j1 : K2) (v2 : V2) (hne : k ≠ k1) (hne2 : j ≠ j1) :
    (MapHelper.brackets_assign m k v = Result.ok v (MapHelper.subscript_assign m k v)
      ∧ MapHelper.brackets m k1 = Result.ok ((MapHelper.find m k1).map Prod.snd) m
      ∧ MapHelper.brackets (MapHelper.subscript_assign m k v) k1
          = Result.ok ((MapHelper.find m k1).map Prod.snd) (MapHelper.subscript_assign m k v)
      ∧ (MapHelper.brackets m k = Result.ok none m →
          (MapHelper.subscript_assign m k v).length = m.length + 1)
      ∧ (∀ r, MapHelper.brackets m k = Result.ok (some r) m →
          (MapHelper.subscript_assign m k v).length = m.length))
    ∧ (UnorderedMapHelper.brackets_assign u j v2
          = Result.ok v2 (UnorderedMapHelper.subscript_assign u j v2)
      ∧ UnorderedMapHelper.brackets u j1
          = Result.ok ((UnorderedMapHelper.find u j1).map Prod.snd) u
      ∧ UnorderedMapHelper.brackets (UnorderedMapHelper.subscript_assign u j v2) j1
          = Result.ok ((UnorderedMapHelper.find u j1).map Prod.snd)
              (UnorderedMapHelper.subscript_assign u j v2)
      ∧ (UnorderedMapHelper.brackets u j = Result.ok none u →
          (UnorderedMapHelper.subscript_assign u j v2).length = u.length + 1)
      ∧ (∀ r, UnorderedMapHelper.brackets u j = Result.ok (some r) u →
          (UnorderedMapHelper.subscript_assign u j v2).length = u.length)) := by
  constructor
  · refine ⟨rfl, MapHelper.brackets_eq m k1, ?_, ?_, ?_⟩
    · rw [MapHelper.brackets_eq, MapHelper.subscript_assign_find_other m k k1 v hne]
    · intro h
      rw [MapHelper.brackets_eq] at h
      rw [MapHelper.subscript_assign_length]
      cases hf : MapHelper.find m k with
      | none => simp
      | some p => rw [hf] at h; simp at h
    · intro r h
      rw [MapHelper.brackets_eq] at h
      rw [MapHelper.subscript_assign_length]
      cases hf : MapHelper.find m k with
      | none => rw [hf] at h; simp at h
      | some p => simp
  · refine ⟨rfl, UnorderedMapHelper.unordered_brackets_eq u j1, ?_, ?_, ?_⟩
    · rw [UnorderedMapHelper.unordered_brackets_eq,
        UnorderedMapHelper.unordered_subscript_assign_find_other u j j1 v2 hne2]
    · intro h
      rw [UnorderedMapHelper.unordered_brackets_eq] at h
      rw [UnorderedMapHelper.unordered_subscript_assign_length]
      cases hf : UnorderedMapHelper.find u j with
      | none => simp
      | some p => rw [hf] at h; simp at h
    · intro r h
      rw [UnorderedMapHelper.unordered_brackets_eq] at h
      rw [UnorderedMapHelper.unordered_subscript_assign_length]
      cases hf : UnorderedMapHelper.find u j with
      | none => rw [hf] at h; simp at h
      | some p => simp

/-- Witness of C38: a store under the key 2 and the lookup of the key 3. -/
theorem map_store_leaves_other_keys_witness :
    MapHelper.brackets (MapHelper.subscript_assign [((1 : Nat), "a"), (3, "c")] 2 "b") 3
      = Result.ok (some "c") [(1, "a"), (2, "b"), (3, "c")] :=
  (map_store_leaves_other_keys [((1 : Nat), "a"), (3, "c")] 2 3 "b"
    [((1 : Nat), "a")] 2 3 "b" (by decide) (by decide)).1.2.2.1

/-- C39: for a `std::map` (keys in strictly ascending order), `keys()` and
`values()` are the keys and the values of the entries in order, so both have
the length `size()`; the keys are strictly ascending and have no duplicates;
the lookup of the key at a position returns the value at that position;
`include?(k)` is true exactly when the lookup of `k` is present; and for a
mapped type with `operator==`, `value?(v)` is true exactly when some value in
`values()` equals `v`.  None of them changes the map. -/
theorem map_keys_and_values {K V : Type} [LinearOrder K] (eq : V → V → Bool)
    (m : List (K × V)) (k : K) (v : V) (hm : MapHelper.ascending m) :
    MapHelper.keys m = Result.ok (m.map Prod.fst) m
    ∧ MapHelper.values m = Result.ok (m.map Prod.snd) m
    ∧ (m.map Prod.fst).length = m.length
    ∧ (m.map Prod.snd).length = m.length
    ∧ (m.map Prod.fst).Pairwise (fun a b => a < b)
    ∧ (m.map Prod.fst).Nodup
    ∧ (∀ (i : Nat) (key : K) (value : V), (m.map Prod.fst)[i]? = some key →
        (m.map Prod.snd)[i]? = some value →
        MapHelper.brackets m key = Result.ok (some value) m)
    ∧ (MapHelper.include? m k = Result.ok true m
        ↔ ∃ value, MapHelper.brackets m k = Result.ok (some value) m)
    ∧ (∃ b, MapHelper.include? m k = Result.ok b m)
    ∧ (MapHelper.value? (some eq) m v = Result.ok true m
        ↔ ∃ value ∈ m.map Prod.snd, eq value v = true)
    ∧ (∃ b, MapHelper.value? (some eq) m v = Result.ok b m) := by
  have hkeys : (m.map Prod.fst).Pairwise (fun a b => a < b) := List.pairwise_map.2 hm
  refine ⟨rfl, rfl, by simp, by simp, hkeys, hkeys.imp (fun h => ne_of_lt h), ?_, ?_,
    ⟨_, rfl⟩, ?_, ⟨_, rfl⟩⟩
  · intro i key value hkey hvalue
    rw [List.getElem?_map] at hkey hvalue
    cases hp : m[i]? with
    | none => rw [hp] at hkey; simp at hkey
    | some p =>
      rw [hp] at hkey hvalue
      simp only [Option.map_some', Option.some.injEq] at hkey hvalue
      have hmem : (key, value) ∈ m := by
        have := getElem?_some_mem m i p hp
        rw [← hkey, ← hvalue]
        exact this
      rw [MapHelper.brackets_eq, MapHelper.find_of_mem m key value hm hmem]
      rfl
  · rw [MapHelper.brackets_eq]
    simp only [MapHelper.include?]
    cases MapHelper.find m k <;> simp
  · simp only [MapHelper.value?]
    have h := std_find_if_found (fun (pair : K × V) => eq pair.2 v) m
    constructor
    · intro hv
      have hd : std_find_if (fun (pair : K × V) => eq pair.2 v) m ≠ m.length := by
        simpa using hv
      obtain ⟨y, hy, hyv⟩ := h.1 hd
      exact ⟨y.2, List.mem_map.2 ⟨y, hy, rfl⟩, hyv⟩
    · rintro ⟨value, hvalue, hev⟩
      obtain ⟨y, hy, hyv⟩ := List.mem_map.1 hvalue
      have hd := h.2 ⟨y, hy, by rw [hyv]; exact hev⟩
      simp [hd]

/-- Witness of C39: a map with the keys 1, 2 and 3. -/
theorem map_keys_and_values_witness :
    MapHelper.keys [((1 : Nat), "a"), (2, "b"), (3, "c")]
        = Result.ok [1, 2, 3] [(1, "a"), (2, "b"), (3, "c")]
    ∧ MapHelper.values [((1 : Nat), "a"), (2, "b"), (3, "c")]
        = Result.ok ["a", "b", "c"] [(1, "a"), (2, "b"), (3, "c")] :=
  have h := map_keys_and_values (fun (a b : String) => decide (a = b))
    [((1 : Nat), "a"), (2, "b"), (3, "c")] 2 "b" (by simp [MapHelper.ascending])
  ⟨h.1, h.2.1⟩

end Rice
